import Mathlib

/-!
# SbplMotionPrimitives: generation of discretised motion primitives

A shallow embedding of `src/sbpl/SbplMotionPrimitives.cpp`.

Conventions of the embedding:

* a `double` is an exact rational number (`ℚ`), so `0.1` is `1/10`;
* `Eigen::AngleAxis<double>(k * mRadPerDiscreteAngle, UnitZ())` is a rotation about the
  vertical axis whose matrix entries `cos`, `sin` are read from a table `Trig`, indexed by the
  factor `k` that multiplies `mRadPerDiscreteAngle`;
* `v.norm() > b` is decided on squares (`b < 0` or `b² < v·v`), which is the same test;
* the `while` loop of `createMPrims` is a step function iterated with fuel; running out of
  fuel is `none`; so are the two loops that truncate an orientation;
* `M_PI` is the rational number that the `double` constant is; the square root, `acos`, the
  rotation by an angle in radians and `getYaw` are read from a parameter `LibM`;
* `int` values that are never negative here (ids, counters) are natural numbers, the
  `unsigned int` negation `-angle` is taken modulo `2^32`.
* the rounding of the result of an operation to a `double` is `roundDouble`; the
  definitions whose names end in `Rounded` repeat an expression of the source with every
  operation rounded, to show where a property of the exact values fails for the doubles.
-/

namespace motion_planning_libraries

/-! ## Data model -/

/-- Modelled from the spec: the movement types of the header `SbplMotionPrimitives.hpp`,
which is not part of the sources; `MOV_UNDEFINED` stands for every value that reaches the
`default:` branches of the source. -/
inductive MovementType
  | MOV_UNDEFINED
  | MOV_FORWARD
  | MOV_BACKWARD
  | MOV_LATERAL
  | MOV_POINTTURN
  | MOV_FORWARD_TURN
  | MOV_BACKWARD_TURN
  deriving DecidableEq, Repr

/-- The vector type `base::Vector3d` with exact components. -/
structure Vector3d where
  x : ℚ
  y : ℚ
  z : ℚ
  deriving DecidableEq

namespace Vector3d

/-- The vector left by `setZero()`. -/
def zero : Vector3d := ⟨0, 0, 0⟩

/-- Componentwise sum, `a + b`. -/
def add (a b : Vector3d) : Vector3d := ⟨a.x + b.x, a.y + b.y, a.z + b.z⟩

/-- Componentwise difference, `a - b`. -/
def sub (a b : Vector3d) : Vector3d := ⟨a.x - b.x, a.y - b.y, a.z - b.z⟩

/-- Product with a scalar, `v * s`. -/
def scale (v : Vector3d) (s : ℚ) : Vector3d := ⟨v.x * s, v.y * s, v.z * s⟩

/-- Squared Euclidean length. -/
def normSq (v : Vector3d) : ℚ := v.x * v.x + v.y * v.y + v.z * v.z

/-- The test `v.norm() > bound`. -/
def normExceeds (v : Vector3d) (bound : ℚ) : Bool :=
  decide (bound < 0 ∨ bound * bound < v.normSq)

end Vector3d

/-- Table of the rotation matrix entries `(cos, sin)` of the angle
`k * mRadPerDiscreteAngle`, indexed by the factor `k`. -/
abbrev Trig := ℚ → ℚ × ℚ

/-- The product `Eigen::AngleAxis<double>(angle, UnitZ()) * v` for the matrix entries `cs`. -/
def rotateZ (cs : ℚ × ℚ) (v : Vector3d) : Vector3d :=
  ⟨cs.1 * v.x - cs.2 * v.y, cs.2 * v.x + cs.1 * v.y, v.z⟩

/-- The C function `round`: nearest integer, halves away from zero. -/
def cround (q : ℚ) : Int := if 0 ≤ q then ⌊q + 1 / 2⌋ else ⌈q - 1 / 2⌉

/-- Conversion of a `double` to `int`: truncation towards zero. -/
def toInt (q : ℚ) : Int := if 0 ≤ q then ⌊q⌋ else ⌈q⌉

/-- The value of `-angle` for an `unsigned int angle` (32 bits). -/
def negUnsigned (angle : Nat) : Nat := (2 ^ 32 - angle % 2 ^ 32) % 2 ^ 32

/-- Modelled from the spec: the mobility profile (its declaration is in a header that is not
part of the sources). Multipliers are cost weights, 0 meaning disabled. -/
structure Mobility where
  mSpeed : ℚ
  mMinTurningRadius : ℚ
  mMultiplierForward : Nat
  mMultiplierBackward : Nat
  mMultiplierLateral : Nat
  mMultiplierForwardTurn : Nat
  mMultiplierBackwardTurn : Nat
  mMultiplierPointTurn : Nat

/-- Modelled from the spec: the fields of `MotionPrimitivesConfig` that the source reads (the
declaring header is not part of the sources). -/
structure MotionPrimitivesConfig where
  mMobility : Mobility
  mNumPrimPartition : Nat
  mNumPosesPerPrim : Nat
  mNumAngles : Nat
  mGridSize : ℚ
  mPrimAccuracy : ℚ

/-- Modelled from the spec: the fields of `struct Primitive` that the source reads and writes
(the declaring header is not part of the sources). `mEndPose.z` holds the end heading. -/
structure Primitive where
  mId : Nat
  mStartAngle : Nat
  mEndPose : Vector3d
  mCostMultiplier : Nat
  mMovType : MovementType
  mDiscreteEndOrientationNotTruncated : Int
  mCenterOfRotation : Vector3d
  mIntermediatePoses : List Vector3d
  deriving DecidableEq

/-- Modelled from the spec: the five argument constructor of `Primitive`, declared in the
missing header: the raw end heading, the center of rotation and the poses start empty. -/
def Primitive.init (id start_angle : Nat) (end_pose : Vector3d) (cost_multiplier : Nat)
    (mov_type : MovementType) : Primitive :=
  { mId := id, mStartAngle := start_angle, mEndPose := end_pose,
    mCostMultiplier := cost_multiplier, mMovType := mov_type,
    mDiscreteEndOrientationNotTruncated := 0, mCenterOfRotation := Vector3d.zero,
    mIntermediatePoses := [] }

/-- Modelled from the spec: `Primitive::setDiscreteEndOrientation`, declared in the missing
header: the raw end heading is retained and the end pose gets it reduced into `[0, N)` by
modular wraparound. -/
def Primitive.setDiscreteEndOrientation (p : Primitive) (discrete_theta : Int)
    (num_angles : Nat) : Primitive :=
  { p with
    mDiscreteEndOrientationNotTruncated := discrete_theta
    mEndPose := { p.mEndPose with z := ((discrete_theta % (num_angles : Int) : Int) : ℚ) } }

/-- Modelled from the spec: `Primitive::getDiscreteEndOrientationNotTruncated`, declared in
the missing header. -/
def Primitive.getDiscreteEndOrientationNotTruncated (p : Primitive) : Int :=
  p.mDiscreteEndOrientationNotTruncated

/-- Modelled from the spec: the key `(rounded dx, rounded dy, raw end heading)` of the set
`reached_end_positions`; its declaration and ordering are in the missing header. -/
structure Triple where
  mX : Int
  mY : Int
  mZ : Int
  deriving DecidableEq

/-! ## createMPrimsForAngle0 -/

/-- The members and locals that `createMPrimsForAngle0` updates while it emits base
primitives. -/
structure BuilderState where
  mListPrimitivesAngle0 : List Primitive
  mPrim_id2Speed : List ℚ
  primId : Nat

/-- The three statements that follow every construction of a base primitive:
`mListPrimitivesAngle0.push_back(prim); mPrim_id2Speed.push_back(speed); primId++`. -/
def BuilderState.push (s : BuilderState) (prim : Primitive) (speed : ℚ) : BuilderState :=
  { mListPrimitivesAngle0 := s.mListPrimitivesAngle0 ++ [prim]
    mPrim_id2Speed := s.mPrim_id2Speed ++ [speed]
    primId := s.primId + 1 }

/-- The value of `start_turning_radius`. -/
def start_turning_radius (cfg : MotionPrimitivesConfig) : ℚ :=
  max 1 (cfg.mMobility.mMinTurningRadius / cfg.mGridSize)

/-- Block "Forward" of `createMPrimsForAngle0`. -/
def addForward (cfg : MotionPrimitivesConfig) (s : BuilderState) : BuilderState :=
  if cfg.mMobility.mMultiplierForward > 0 then
    s.push (Primitive.init s.primId 0 ⟨1, 0, 0⟩ cfg.mMobility.mMultiplierForward
      .MOV_FORWARD) cfg.mMobility.mSpeed
  else s

/-- Block "Backward" of `createMPrimsForAngle0`. -/
def addBackward (cfg : MotionPrimitivesConfig) (s : BuilderState) : BuilderState :=
  if cfg.mMobility.mMultiplierBackward > 0 then
    s.push (Primitive.init s.primId 0 ⟨-1, 0, 0⟩ cfg.mMobility.mMultiplierBackward
      .MOV_BACKWARD) (-cfg.mMobility.mSpeed)
  else s

/-- Block "Lateral" of `createMPrimsForAngle0`: left, then right. -/
def addLateral (cfg : MotionPrimitivesConfig) (s : BuilderState) : BuilderState :=
  if cfg.mMobility.mMultiplierLateral > 0 then
    let s1 := s.push (Primitive.init s.primId 0 ⟨0, 1, 0⟩ cfg.mMobility.mMultiplierLateral
      .MOV_LATERAL) cfg.mMobility.mSpeed
    s1.push (Primitive.init s1.primId 0 ⟨0, -1, 0⟩ cfg.mMobility.mMultiplierLateral
      .MOV_LATERAL) cfg.mMobility.mSpeed
  else s

/-- Block "Pointturn" of `createMPrimsForAngle0`. -/
def addPointTurn (cfg : MotionPrimitivesConfig) (s : BuilderState) : BuilderState :=
  if cfg.mMobility.mMultiplierPointTurn > 0 then
    let s1 := s.push (Primitive.init s.primId 0 ⟨0, 0, 1⟩ cfg.mMobility.mMultiplierPointTurn
      .MOV_POINTTURN) cfg.mMobility.mSpeed
    s1.push (Primitive.init s1.primId 0 ⟨0, 0, -1⟩ cfg.mMobility.mMultiplierPointTurn
      .MOV_POINTTURN) cfg.mMobility.mSpeed
  else s

/-- Block of the forward curves of `createMPrimsForAngle0`; its guard tests the multiplier
for being non-zero. -/
def addForwardTurn (cfg : MotionPrimitivesConfig) (s : BuilderState) : BuilderState :=
  if cfg.mMobility.mMultiplierForwardTurn ≠ 0 then
    let s1 := s.push
      { Primitive.init s.primId 0 ⟨0, 0, 1⟩ cfg.mMobility.mMultiplierForwardTurn
          .MOV_FORWARD_TURN with
        mCenterOfRotation := ⟨0, start_turning_radius cfg, 0⟩ } cfg.mMobility.mSpeed
    s1.push
      { Primitive.init s1.primId 0 ⟨0, 0, -1⟩ cfg.mMobility.mMultiplierForwardTurn
          .MOV_FORWARD_TURN with
        mCenterOfRotation := ⟨0, -start_turning_radius cfg, 0⟩ } cfg.mMobility.mSpeed
  else s

/-- Block of the backward curves of `createMPrimsForAngle0`. -/
def addBackwardTurn (cfg : MotionPrimitivesConfig) (s : BuilderState) : BuilderState :=
  if cfg.mMobility.mMultiplierBackwardTurn > 0 then
    let s1 := s.push
      { Primitive.init s.primId 0 ⟨0, 0, 1⟩ cfg.mMobility.mMultiplierBackwardTurn
          .MOV_BACKWARD_TURN with
        mCenterOfRotation := ⟨0, -start_turning_radius cfg, 0⟩ } (-cfg.mMobility.mSpeed)
    s1.push
      { Primitive.init s1.primId 0 ⟨0, 0, -1⟩ cfg.mMobility.mMultiplierBackwardTurn
          .MOV_BACKWARD_TURN with
        mCenterOfRotation := ⟨0, start_turning_radius cfg, 0⟩ } (-cfg.mMobility.mSpeed)
  else s

/-- The state of `createMPrimsForAngle0` before the speed values are repeated: both lists
cleared, `primId = 0`, then the six blocks in source order. -/
def buildBase (cfg : MotionPrimitivesConfig) : BuilderState :=
  addBackwardTurn cfg (addForwardTurn cfg (addPointTurn cfg (addLateral cfg
    (addBackward cfg (addForward cfg ⟨[], [], 0⟩)))))

/-- The two nested loops that fill `mPrim_id2Speed_tmp`: every speed value is pushed
`mNumPrimPartition` times. -/
def repeatSpeeds (partition : Nat) : List ℚ → List ℚ
  | [] => []
  | v :: rest => List.replicate partition v ++ repeatSpeeds partition rest

/-- The function `createMPrimsForAngle0`: the returned list `mListPrimitivesAngle0` and the
final member `mPrim_id2Speed`. -/
def createMPrimsForAngle0 (cfg : MotionPrimitivesConfig) : List Primitive × List ℚ :=
  ((buildBase cfg).mListPrimitivesAngle0,
    repeatSpeeds cfg.mNumPrimPartition (buildBase cfg).mPrim_id2Speed)

/-! ## getSpeed -/

/-- The function `getSpeed` on the speed table: the returned flag and the value of the
reference parameter `speed` after the call. -/
def getSpeed (mPrim_id2Speed : List ℚ) (prim_id : Nat) (speed : ℚ) : Bool × ℚ :=
  if h : prim_id ≥ mPrim_id2Speed.length then (false, speed)
  else (true, mPrim_id2Speed.get ⟨prim_id, Nat.lt_of_not_le h⟩)

/-! ## createMPrims -/

/-- The locals of `createMPrims` that live across iterations of the acceptance loop of one
pair (heading, base primitive), and the primitives the loop has pushed so far. -/
structure SearchState where
  d : ℚ
  current_discrete_angle : Int
  discrete_angle : Int
  reached_end_positions : List Triple
  prims_added : Nat
  scaled_center_of_rotation : Vector3d
  accepted : List Primitive

/-- The locals at loop entry. Eigen leaves `scaled_center_of_rotation` unset; it is taken
to be the zero vector. -/
def SearchState.start : SearchState :=
  { d := 0, current_discrete_angle := 1, discrete_angle := 0, reached_end_positions := [],
    prims_added := 0, scaled_center_of_rotation := Vector3d.zero, accepted := [] }

/-- What is fixed during the acceptance loop of one pair. -/
structure SearchEnv where
  cfg : MotionPrimitivesConfig
  trig : Trig
  angle : Nat
  it : Primitive
  turned_end_position : Vector3d
  turned_center_of_rotation : Vector3d
  theta_tmp : ℚ
  upper_discrete_angle : Int

/-- The statements before the acceptance loop: the end position and the center of rotation
of the base primitive turned to the heading `angle`, the turning direction `theta_tmp`, and
`upper_discrete_angle = ceil(mNumAngles / 4)` whose argument is an integer division. -/
def SearchEnv.enter (cfg : MotionPrimitivesConfig) (trig : Trig) (angle : Nat)
    (it : Primitive) : SearchEnv :=
  { cfg := cfg, trig := trig, angle := angle, it := it
    turned_end_position := rotateZ (trig angle) { it.mEndPose with z := 0 }
    turned_center_of_rotation := rotateZ (trig angle) it.mCenterOfRotation
    theta_tmp := it.mEndPose.z
    upper_discrete_angle := ((cfg.mNumAngles / 4 : Nat) : Int) }

/-- The `switch` of the loop body: the candidate `discrete_end_pose` and the locals after
it. -/
def nextCandidate (e : SearchEnv) (s : SearchState) : Vector3d × SearchState :=
  match e.it.mMovType with
  | .MOV_FORWARD | .MOV_BACKWARD | .MOV_LATERAL =>
    (e.turned_end_position.scale (1 + s.d),
      { s with discrete_angle := (e.angle : Int), d := s.d + 1 / 10 })
  | .MOV_POINTTURN =>
    (Vector3d.zero,
      { s with discrete_angle := toInt ((s.d + 1) * e.theta_tmp + (e.angle : ℚ)), d := s.d + 1 })
  | .MOV_FORWARD_TURN | .MOV_BACKWARD_TURN =>
    let scaled := e.turned_center_of_rotation.scale (1 + s.d)
    let pose := (rotateZ (e.trig ((s.current_discrete_angle : ℚ) * e.theta_tmp))
      (Vector3d.zero.sub scaled)).add scaled
    let discrete_angle := toInt ((s.current_discrete_angle : ℚ) * e.theta_tmp + (e.angle : ℚ))
    if s.current_discrete_angle + 1 > e.upper_discrete_angle then
      (pose, { s with scaled_center_of_rotation := scaled, discrete_angle := discrete_angle,
                      current_discrete_angle := 1, d := s.d + 1 / 10 })
    else
      (pose, { s with scaled_center_of_rotation := scaled, discrete_angle := discrete_angle,
                      current_discrete_angle := s.current_discrete_angle + 1 })
  | .MOV_UNDEFINED => (Vector3d.zero, s)

/-- The vector `discrete_end_pose_rounded` of a candidate. -/
def roundedPose (pose : Vector3d) : Vector3d :=
  ⟨(cround pose.x : ℚ), (cround pose.y : ℚ), 0⟩

/-- The vector `discrete_pose_rotate_back`: the rounded end position turned by
`-angle * mRadPerDiscreteAngle`, where `angle` is an `unsigned int`. -/
def rotateBack (e : SearchEnv) (rounded : Vector3d) : Vector3d :=
  rotateZ (e.trig ((negUnsigned e.angle : Nat) : ℚ)) rounded

/-- The flag `curve_valid`. -/
def curveValid (e : SearchEnv) (back : Vector3d) : Bool :=
  decide ((e.it.mCenterOfRotation.y > 0 ∧ back.y > 0) ∨
    (e.it.mCenterOfRotation.y < 0 ∧ back.y < 0))

/-- The test `mMovType == MOV_FORWARD_TURN || mMovType == MOV_BACKWARD_TURN`. -/
def isCurve (t : MovementType) : Bool :=
  decide (t = .MOV_FORWARD_TURN ∨ t = .MOV_BACKWARD_TURN)

/-- The key inserted into `reached_end_positions` for a candidate. -/
def candidateTriple (rounded : Vector3d) (discrete_angle : Int) : Triple :=
  ⟨toInt rounded.x, toInt rounded.y, discrete_angle⟩

/-- The primitive `prim_discrete` pushed for an accepted candidate. -/
def acceptedPrim (e : SearchEnv) (id : Nat) (rounded : Vector3d) (s1 : SearchState) :
    Primitive :=
  { (Primitive.init id e.angle rounded e.it.mCostMultiplier
        e.it.mMovType).setDiscreteEndOrientation s1.discrete_angle e.cfg.mNumAngles with
    mCenterOfRotation := s1.scaled_center_of_rotation }

/-- The branch `if(set_ret.second)`: the key is now in the set, the primitive is pushed
onto `mListPrimitives` and `prims_added` is incremented. -/
def SearchState.accept (s : SearchState) (t : Triple) (prim : Primitive) : SearchState :=
  { s with
    reached_end_positions := t :: s.reached_end_positions
    accepted := s.accepted ++ [prim]
    prims_added := s.prims_added + 1 }

/-- How one run of the loop body ends: at the loop condition again (`continue` or the end of
the body) or with `break`. -/
inductive StepResult
  | again (s : SearchState)
  | stop (s : SearchState)

/-- One run of the body of `while(prims_added < mNumPrimPartition)`. -/
def searchStep (e : SearchEnv) (s : SearchState) : StepResult :=
  let id := e.it.mId * e.cfg.mNumPrimPartition + s.prims_added
  let c := nextCandidate e s
  let rounded := roundedPose c.1
  if (rounded.sub c.1).normExceeds e.cfg.mPrimAccuracy then .again c.2
  else if isCurve e.it.mMovType && !curveValid e (rotateBack e rounded) then .again c.2
  else if decide (e.it.mMovType = .MOV_POINTTURN) &&
      decide (c.2.d + 1 > (e.upper_discrete_angle : ℚ)) then .stop c.2
  else if c.1.normExceeds 100 then .stop c.2
  else if candidateTriple rounded c.2.discrete_angle ∈ c.2.reached_end_positions then
    .again c.2
  else
    .again (c.2.accept (candidateTriple rounded c.2.discrete_angle)
      (acceptedPrim e id rounded c.2))

/-- The acceptance loop, run for at most `fuel` runs of its body; `none` when the fuel is
used up before the loop has ended. -/
def searchLoop (e : SearchEnv) : Nat → SearchState → Option SearchState
  | 0, _ => none
  | fuel + 1, s =>
    if s.prims_added < e.cfg.mNumPrimPartition then
      match searchStep e s with
      | .again s1 => searchLoop e fuel s1
      | .stop s1 => some s1
    else some s

/-- The primitives pushed onto `mListPrimitives` for the pair (`angle`, `it`), in order. -/
def searchPair (fuel : Nat) (cfg : MotionPrimitivesConfig) (trig : Trig) (angle : Nat)
    (it : Primitive) : Option (List Primitive) :=
  (searchLoop (SearchEnv.enter cfg trig angle it) fuel SearchState.start).map
    SearchState.accepted

/-- A `for` loop whose body pushes primitives onto `mListPrimitives`: the pushed
primitives of all runs of the body in order, `none` when a run does not end. -/
def collect {α : Type} (body : α → Option (List Primitive)) : List α → Option (List Primitive)
  | [] => some []
  | a :: rest =>
    match body a with
    | none => none
    | some l =>
      match collect body rest with
      | none => none
      | some ls => some (l ++ ls)

/-- The function `createMPrims`: for every heading `angle < mNumAngles`, for every base
primitive in order, the acceptance loop. Every acceptance loop may use `fuel` runs of its
body. -/
def createMPrims (fuel : Nat) (cfg : MotionPrimitivesConfig) (trig : Trig)
    (prims_angle_0 : List Primitive) : Option (List Primitive) :=
  collect (fun angle => collect (searchPair fuel cfg trig angle) prims_angle_0)
    (List.range cfg.mNumAngles)

/-! ## createIntermediatePoses -/

/-- The constant `M_PI` of the C library: the `double` nearest to π. -/
def M_PI : ℚ := 884279719003555 / 281474976710656

/-- The member `mRadPerDiscreteAngle` as the constructor sets it:
`(M_PI*2.0) / (double)mConfig.mNumAngles`. -/
def mRadPerDiscreteAngle (cfg : MotionPrimitivesConfig) : ℚ :=
  M_PI * 2 / (cfg.mNumAngles : ℚ)

/-- The functions of the C library, of Eigen and of `base` that `createIntermediatePoses`
calls on values that are no multiples of `mRadPerDiscreteAngle`: the square root behind
`norm()`, `acos`, the matrix entries `(cos, sin)` of `Eigen::AngleAxis<double>(angle,
UnitZ())` for an angle in radians, and `getYaw()` of a rotation with the matrix entries
`(cos, sin)`. -/
structure LibM where
  sqrt : ℚ → ℚ
  acos : ℚ → ℚ
  rotation : ℚ → ℚ × ℚ
  yaw : ℚ × ℚ → ℚ

/-- The value of `v.norm()`. -/
def LibM.norm (m : LibM) (v : Vector3d) : ℚ := m.sqrt v.normSq

/-- The scalar product `a.dot(b)`. -/
def Vector3d.dot (a b : Vector3d) : ℚ := a.x * b.x + a.y * b.y + a.z * b.z

/-- The vector `v` after the assignment `v[2] = theta`. -/
def Vector3d.withZ (v : Vector3d) (theta : ℚ) : Vector3d := ⟨v.x, v.y, theta⟩

/-- A transformation `base::Affine3d` made of a rotation about the vertical axis, given by
its matrix entries `(cos, sin)`, and a translation. -/
structure Affine3d where
  linear : ℚ × ℚ
  translation : Vector3d

/-- The product `T * v` of a transformation and a vector. -/
def Affine3d.apply (T : Affine3d) (v : Vector3d) : Vector3d :=
  (rotateZ T.linear v).add T.translation

/-- The product `A * B` of two transformations. -/
def Affine3d.mul (A B : Affine3d) : Affine3d :=
  { linear := (A.linear.1 * B.linear.1 - A.linear.2 * B.linear.2,
      A.linear.2 * B.linear.1 + A.linear.1 * B.linear.2)
    translation := (rotateZ A.linear B.translation).add A.translation }

/-- The transformation `T.inverse()`: the linear part is inverted as a matrix, the
translation is minus its image under the inverted linear part. -/
def Affine3d.inverse (T : Affine3d) : Affine3d :=
  let det := T.linear.1 * T.linear.1 + T.linear.2 * T.linear.2
  let inv : ℚ × ℚ := (T.linear.1 / det, -T.linear.2 / det)
  { linear := inv, translation := Vector3d.zero.sub (rotateZ inv T.translation) }

/-- The first loop of "Truncate orientation": `while(theta <= -M_PI) theta += 2*M_PI`, for
at most `fuel` evaluations of its condition. -/
def wrapUp : Nat → ℚ → Option ℚ
  | 0, _ => none
  | fuel + 1, theta => if theta ≤ -M_PI then wrapUp fuel (theta + 2 * M_PI) else some theta

/-- The second loop of "Truncate orientation": `while(theta > M_PI) theta -= 2*M_PI`, for
at most `fuel` evaluations of its condition. -/
def wrapDown : Nat → ℚ → Option ℚ
  | 0, _ => none
  | fuel + 1, theta => if theta > M_PI then wrapDown fuel (theta - 2 * M_PI) else some theta

/-- Both loops of "Truncate orientation" in sequence. -/
def truncateOrientation (fuel : Nat) (theta : ℚ) : Option ℚ :=
  match wrapUp fuel theta with
  | none => none
  | some theta1 => wrapDown fuel theta1

/-- The "Turn variables" that the block `if(FORWARD_TURN || BACKWARD_TURN)` sets before the
poses of a curve are computed. -/
structure TurnFrame where
  cor2base : Affine3d
  base_local : Vector3d
  len_scale_factor : ℚ
  angle_delta : ℚ

/-- The value of `start_orientation_local`. -/
def startOrientation (cfg : MotionPrimitivesConfig) (it : Primitive) : ℚ :=
  (it.mStartAngle : ℚ) * mRadPerDiscreteAngle cfg

/-- The value of `discrete_rot_diff`. -/
def discreteRotDiff (it : Primitive) : Int :=
  it.getDiscreteEndOrientationNotTruncated - (it.mStartAngle : Int)

/-- The vector `end_pose_local` as set at the top of the loop body: the end position in
length units. -/
def endPoseLocal (cfg : MotionPrimitivesConfig) (it : Primitive) : Vector3d :=
  ⟨it.mEndPose.x * cfg.mGridSize, it.mEndPose.y * cfg.mGridSize, 0⟩

/-- The divisor `(double)mConfig.mNumPosesPerPrim-1`. For `mNumPosesPerPrim = 1` it is 0:
the code then divides by zero and goes on with infinities and NaN, which a rational number
does not represent (a quotient by 0 is 0 in `ℚ`), so the values of the poses are described
for `mNumPosesPerPrim >= 2` only. -/
def poseSteps (cfg : MotionPrimitivesConfig) : ℚ := (cfg.mNumPosesPerPrim : ℚ) - 1

/-- The block `if(FORWARD_TURN || BACKWARD_TURN)` of `createIntermediatePoses`. -/
def turnFrame (cfg : MotionPrimitivesConfig) (trig : Trig) (m : LibM) (it : Primitive) :
    TurnFrame :=
  let center_of_rotation_local : Vector3d :=
    ⟨it.mCenterOfRotation.x * cfg.mGridSize, it.mCenterOfRotation.y * cfg.mGridSize, 0⟩
  let cor2base : Affine3d :=
    { linear := trig (it.mStartAngle : ℚ), translation := center_of_rotation_local }
  let base2cor := cor2base.inverse
  let base_local := base2cor.apply Vector3d.zero
  let end_pose_local := base2cor.apply (endPoseLocal cfg it)
  let len_base_local := m.norm base_local
  let len_end_pose_local := m.norm end_pose_local
  let len_scale_factor := (len_end_pose_local / len_base_local - 1) / poseSteps cfg
  let angle := m.acos (base_local.dot end_pose_local / (len_base_local * len_end_pose_local))
  let angle := if discreteRotDiff it < 0 then -angle else angle
  { cor2base := cor2base, base_local := base_local, len_scale_factor := len_scale_factor,
    angle_delta := angle / poseSteps cfg }

/-- The `switch` in the loop over the poses: the vector `intermediate_pose` before its
orientation is truncated. The vector is declared outside the loops, so the `default:`
branch leaves the value `intermediate_pose` of the previous run. The operations are those
of the source in the order of the source, each of them exact; an identity of exact
arithmetic such as `(n-1) * (v / (n-1)) = v` need not hold for the doubles of the code
(`straightCoordinateRounded` evaluates that product with rounding). For
`mNumPosesPerPrim = 1` the steps are quotients by 0, see `poseSteps`. -/
def intermediatePose (cfg : MotionPrimitivesConfig) (trig : Trig) (m : LibM) (it : Primitive)
    (i : Nat) (intermediate_pose : Vector3d) : Vector3d :=
  match it.mMovType with
  | .MOV_FORWARD | .MOV_BACKWARD | .MOV_LATERAL =>
    ⟨(i : ℚ) * ((endPoseLocal cfg it).x / poseSteps cfg),
      (i : ℚ) * ((endPoseLocal cfg it).y / poseSteps cfg), startOrientation cfg it⟩
  | .MOV_POINTTURN =>
    ⟨(endPoseLocal cfg it).x, (endPoseLocal cfg it).y,
      startOrientation cfg it +
        (i : ℚ) * (((discreteRotDiff it : ℚ) * mRadPerDiscreteAngle cfg) / poseSteps cfg)⟩
  | .MOV_FORWARD_TURN | .MOV_BACKWARD_TURN =>
    let f := turnFrame cfg trig m it
    let cur_rot := m.rotation ((i : ℚ) * f.angle_delta)
    let rbs_intermediate : Affine3d :=
      { linear := cur_rot
        translation := rotateZ cur_rot (f.base_local.scale (1 + f.len_scale_factor * (i : ℚ))) }
    let moved := f.cor2base.mul rbs_intermediate
    ⟨moved.translation.x, moved.translation.y,
      if i = cfg.mNumPosesPerPrim - 1 then it.mEndPose.z * mRadPerDiscreteAngle cfg
      else m.yaw moved.linear⟩
  | .MOV_UNDEFINED => intermediate_pose

/-- The loop `for(i = 0; i < mNumPosesPerPrim; i++)` run over the indices `is`: the poses
pushed onto `mIntermediatePoses` and the final value of `intermediate_pose`; `none` when a
truncation loop does not end within `fuel`. -/
def posesLoop (fuel : Nat) (cfg : MotionPrimitivesConfig) (trig : Trig) (m : LibM)
    (it : Primitive) : List Nat → Vector3d → Option (List Vector3d × Vector3d)
  | [], intermediate_pose => some ([], intermediate_pose)
  | i :: rest, intermediate_pose =>
    match truncateOrientation fuel (intermediatePose cfg trig m it i intermediate_pose).z with
    | none => none
    | some theta =>
      match posesLoop fuel cfg trig m it rest
          ((intermediatePose cfg trig m it i intermediate_pose).withZ theta) with
      | none => none
      | some (poses, last) =>
        some ((intermediatePose cfg trig m it i intermediate_pose).withZ theta :: poses, last)

/-- The function `createIntermediatePoses` on the list `discrete_mprims`, started with the
value `intermediate_pose` of the vector that Eigen leaves unset: every primitive gets its
poses appended. -/
def createIntermediatePoses (fuel : Nat) (cfg : MotionPrimitivesConfig) (trig : Trig)
    (m : LibM) : List Primitive → Vector3d → Option (List Primitive)
  | [], _ => some []
  | it :: rest, intermediate_pose =>
    match posesLoop fuel cfg trig m it (List.range cfg.mNumPosesPerPrim) intermediate_pose with
    | none => none
    | some (poses, last) =>
      match createIntermediatePoses fuel cfg trig m rest last with
      | none => none
      | some out =>
        some ({ it with mIntermediatePoses := it.mIntermediatePoses ++ poses } :: out)

/-! ## createPrimitives -/

/-- Modelled from the spec: `Mobility::isSet`, declared in the missing header: some
multiplier is not 0 (the warning of `createPrimitives` reads "all multipliers within the
mobility struct are 0"). -/
def Mobility.isSet (m : Mobility) : Bool :=
  decide (m.mMultiplierForward ≠ 0 ∨ m.mMultiplierBackward ≠ 0 ∨ m.mMultiplierLateral ≠ 0 ∨
    m.mMultiplierForwardTurn ≠ 0 ∨ m.mMultiplierBackwardTurn ≠ 0 ∨ m.mMultiplierPointTurn ≠ 0)

/-- The members of `SbplMotionPrimitives` that `createPrimitives` writes. -/
structure Generator where
  mListPrimitivesAngle0 : List Primitive
  mListPrimitives : List Primitive
  mPrim_id2Speed : List ℚ

/-- The members after construction: all lists empty. -/
def Generator.fresh : Generator :=
  { mListPrimitivesAngle0 := [], mListPrimitives := [], mPrim_id2Speed := [] }

/-- The function `createPrimitives`: the members after the call, `none` when a loop does
not end within `fuel`. The test of `mNumPrimPartition` only logs a warning. -/
def createPrimitives (fuel : Nat) (cfg : MotionPrimitivesConfig) (trig : Trig) (m : LibM)
    (g : Generator) : Option Generator :=
  if !cfg.mMobility.isSet then some g
  else
    match createMPrims fuel cfg trig (createMPrimsForAngle0 cfg).1 with
    | none => none
    | some prims =>
      match createIntermediatePoses fuel cfg trig m prims Vector3d.zero with
      | none => none
      | some mListPrimitives =>
        some { mListPrimitivesAngle0 := (createMPrimsForAngle0 cfg).1
               mListPrimitives := mListPrimitives
               mPrim_id2Speed := (createMPrimsForAngle0 cfg).2 }

/-! ## Predicates used to state the properties -/

/-- The run of the loop body that starts from the locals `s` fails none of the tests of the
body (accuracy, curve validity, point turn bound, distance bound, key already reached) and
so pushes the primitive `p`. -/
def Accepts (e : SearchEnv) (s : SearchState) (p : Primitive) : Prop :=
  ((roundedPose (nextCandidate e s).1).sub (nextCandidate e s).1).normExceeds
      e.cfg.mPrimAccuracy = false ∧
  (isCurve e.it.mMovType &&
      !curveValid e (rotateBack e (roundedPose (nextCandidate e s).1))) = false ∧
  (decide (e.it.mMovType = .MOV_POINTTURN) &&
      decide ((nextCandidate e s).2.d + 1 > (e.upper_discrete_angle : ℚ))) = false ∧
  (nextCandidate e s).1.normExceeds 100 = false ∧
  candidateTriple (roundedPose (nextCandidate e s).1) (nextCandidate e s).2.discrete_angle
      ∉ s.reached_end_positions ∧
  p = acceptedPrim e (e.it.mId * e.cfg.mNumPrimPartition + s.prims_added)
      (roundedPose (nextCandidate e s).1) (nextCandidate e s).2

/-- The locals `s` occur at the loop condition of the acceptance loop: at loop entry, or
after a run of the body that did not `break`. -/
inductive Reachable (e : SearchEnv) : SearchState → Prop
  | start : Reachable e SearchState.start
  | again {s s1 : SearchState} : Reachable e s → s.prims_added < e.cfg.mNumPrimPartition →
      searchStep e s = .again s1 → Reachable e s1

/-- The key `(rounded dx, rounded dy, raw end heading)` read back from a pushed primitive. -/
def Primitive.triple (p : Primitive) : Triple :=
  candidateTriple p.mEndPose p.mDiscreteEndOrientationNotTruncated

/-- What every block of `createMPrimsForAngle0` keeps true: both lists have `primId`
entries, the i-th base primitive has id i, and the i-th speed is the nominal speed, negated
for the backward movement types. -/
structure BuilderState.Ok (cfg : MotionPrimitivesConfig) (s : BuilderState) : Prop where
  len_prims : s.mListPrimitivesAngle0.length = s.primId
  len_speeds : s.mPrim_id2Speed.length = s.primId
  ids : ∀ (i : Nat) (b : Primitive), s.mListPrimitivesAngle0[i]? = some b → b.mId = i
  speeds : List.Forall₂
    (fun (b : Primitive) (v : ℚ) =>
      ((b.mMovType = .MOV_FORWARD ∨ b.mMovType = .MOV_LATERAL ∨ b.mMovType = .MOV_POINTTURN ∨
          b.mMovType = .MOV_FORWARD_TURN) ∧ v = cfg.mMobility.mSpeed) ∨
      ((b.mMovType = .MOV_BACKWARD ∨ b.mMovType = .MOV_BACKWARD_TURN) ∧
          v = -cfg.mMobility.mSpeed))
    s.mListPrimitivesAngle0 s.mPrim_id2Speed

/-- What every run of the body of the acceptance loop keeps true of the locals: the pushed
primitives are counted by `prims_added`, which stays within `mNumPrimPartition`; the k-th
pushed primitive was pushed by a run of the body that started, from locals the loop
reaches, with `prims_added = k`; the keys of the pushed primitives are in the set and pairwise different. -/
structure SearchState.Ok (e : SearchEnv) (s : SearchState) : Prop where
  len : s.accepted.length = s.prims_added
  bound : s.prims_added ≤ e.cfg.mNumPrimPartition
  pushed : ∀ (k : Nat) (p : Primitive), s.accepted[k]? = some p →
    ∃ s0 : SearchState, Reachable e s0 ∧ s0.prims_added = k ∧ Accepts e s0 p
  reached : ∀ p ∈ s.accepted, p.triple ∈ s.reached_end_positions
  nodup : (s.accepted.map Primitive.triple).Nodup

/-- The pose `pose` is what the loop over the poses of `it` stores at index `i`: the vector
of the `switch`, for some previous value of `intermediate_pose`, with its orientation
truncated. -/
def StoredPose (fuel : Nat) (cfg : MotionPrimitivesConfig) (trig : Trig) (m : LibM)
    (it : Primitive) (i : Nat) (pose : Vector3d) : Prop :=
  ∃ (previous : Vector3d) (theta : ℚ),
    truncateOrientation fuel (intermediatePose cfg trig m it i previous).z = some theta ∧
    pose = (intermediatePose cfg trig m it i previous).withZ theta

/-- The primitive `q` is the primitive `it` with the poses of all indices appended. -/
def PosesAttached (fuel : Nat) (cfg : MotionPrimitivesConfig) (trig : Trig) (m : LibM)
    (it q : Primitive) : Prop :=
  ∃ poses : List Vector3d,
    q = { it with mIntermediatePoses := it.mIntermediatePoses ++ poses } ∧
    List.Forall₂ (StoredPose fuel cfg trig m it) (List.range cfg.mNumPosesPerPrim) poses

/-! ## Concrete configurations -/

/-- Exact rotation table for four headings (quarter turns). -/
def trig4 : Trig := fun k =>
  match k.num % 4 with
  | 0 => (1, 0)
  | 1 => (0, 1)
  | 2 => (-1, 0)
  | _ => (0, -1)

/-- A mobility profile with every movement type disabled. -/
def mobilityNone : Mobility :=
  { mSpeed := 1, mMinTurningRadius := 0, mMultiplierForward := 0, mMultiplierBackward := 0,
    mMultiplierLateral := 0, mMultiplierForwardTurn := 0, mMultiplierBackwardTurn := 0,
    mMultiplierPointTurn := 0 }

/-- Four headings, forward motion only, one primitive per base primitive, accuracy 1/10. -/
def cfgForward4 : MotionPrimitivesConfig :=
  { mMobility := { mobilityNone with mMultiplierForward := 1 }
    mNumPrimPartition := 1, mNumPosesPerPrim := 2, mNumAngles := 4, mGridSize := 1 / 10,
    mPrimAccuracy := 1 / 10 }

/-- Four headings, forward motion only, two primitives per base primitive, accuracy 1/10. -/
def cfgForwardPair : MotionPrimitivesConfig :=
  { cfgForward4 with mNumPrimPartition := 2 }

/-- The configuration `cfgForward4` with a negative accuracy tolerance. -/
def cfgNegativeAccuracy : MotionPrimitivesConfig :=
  { cfgForward4 with mPrimAccuracy := -1 }

/-- One heading, forward curves only, one primitive per base primitive, accuracy 1/10. -/
def cfgOneHeadingTurn : MotionPrimitivesConfig :=
  { mMobility := { mobilityNone with mMultiplierForwardTurn := 1 }
    mNumPrimPartition := 1, mNumPosesPerPrim := 2, mNumAngles := 1, mGridSize := 1 / 10,
    mPrimAccuracy := 1 / 10 }

/-- The base primitive FORWARD with id 0 and cost multiplier 1. -/
def primForward : Primitive := Primitive.init 0 0 ⟨1, 0, 0⟩ 1 .MOV_FORWARD

/-- A FORWARD primitive with id 0 and cost multiplier 1 as `createMPrims` pushes it. -/
def discreteForward (start_angle : Nat) (dx dy : ℚ) : Primitive :=
  { mId := 0, mStartAngle := start_angle, mEndPose := ⟨dx, dy, (start_angle : ℚ)⟩,
    mCostMultiplier := 1, mMovType := .MOV_FORWARD,
    mDiscreteEndOrientationNotTruncated := (start_angle : Int),
    mCenterOfRotation := Vector3d.zero, mIntermediatePoses := [] }

/-- The four primitives generated for `cfgForward4`. -/
def primsForward4 : List Primitive :=
  [discreteForward 0 1 0, discreteForward 1 0 1, discreteForward 2 (-1) 0,
    discreteForward 3 0 (-1)]

/-- The base primitive "forward left hand bend" with id 0, cost multiplier 1 and turning
radius 1. -/
def primForwardTurnLeft : Primitive :=
  { Primitive.init 0 0 ⟨0, 0, 1⟩ 1 .MOV_FORWARD_TURN with mCenterOfRotation := ⟨0, 1, 0⟩ }

/-- The base primitive "forward right hand bend" with id 1, cost multiplier 1 and turning
radius 1. -/
def primForwardTurnRight : Primitive :=
  { Primitive.init 1 0 ⟨0, 0, -1⟩ 1 .MOV_FORWARD_TURN with mCenterOfRotation := ⟨0, -1, 0⟩ }

/-- A math library for configurations without curves, which never call it. -/
def libmUnused : LibM :=
  { sqrt := fun _ => 0, acos := fun _ => 0, rotation := fun _ => (1, 0), yaw := fun _ => 0 }

/-- The rotation table for sixteen headings: the values of `cos` and `sin` in double
precision at `k * mRadPerDiscreteAngle` for the headings k = 0..15. -/
def trig16 : Trig := fun k =>
  if k = 0 then (1, 0)
  else if k = 1 then (4160783518353059 / 4503599627370496, 6893811853601123 / 18014398509481984)
  else if k = 2 then (6369051672525773 / 9007199254740992, 1592262918131443 / 2251799813685248)
  else if k = 3 then (1723452963400281 / 4503599627370496, 4160783518353059 / 4503599627370496)
  else if k = 4 then (4967757600021511 / 81129638414606681695789005144064, 1)
  else if k = 5 then (-3446905926800561 / 9007199254740992, 4160783518353059 / 4503599627370496)
  else if k = 6 then (-1592262918131443 / 2251799813685248, 6369051672525773 / 9007199254740992)
  else if k = 7 then (-4160783518353059 / 4503599627370496, 6893811853601125 / 18014398509481984)
  else if k = 8 then (-1, 4967757600021511 / 40564819207303340847894502572032)
  else if k = 9 then (-8321567036706119 / 9007199254740992, -6893811853601121 / 18014398509481984)
  else if k = 10 then
    (-3184525836262887 / 4503599627370496, -1592262918131443 / 2251799813685248)
  else if k = 11 then
    (-6893811853601133 / 18014398509481984, -2080391759176529 / 2251799813685248)
  else if k = 12 then (-3725818200016133 / 20282409603651670423947251286016, -1)
  else if k = 13 then
    (6893811853601127 / 18014398509481984, -8321567036706117 / 9007199254740992)
  else if k = 14 then
    (6369051672525771 / 9007199254740992, -3184525836262887 / 4503599627370496)
  else if k = 15 then
    (2080391759176529 / 2251799813685248, -3446905926800567 / 9007199254740992)
  else (1, 0)

/-- The scenario of the spec: sixteen headings, grid size 0.1, forward multiplier 1, speed
1.0, all other multipliers 0, one primitive per base primitive, accuracy 0.1. -/
def cfgScenario : MotionPrimitivesConfig :=
  { mMobility := { mobilityNone with mMultiplierForward := 1, mSpeed := 1 }
    mNumPrimPartition := 1, mNumPosesPerPrim := 2, mNumAngles := 16, mGridSize := 1 / 10,
    mPrimAccuracy := 1 / 10 }

/-- The sixteen primitives generated for `cfgScenario`, without their poses. -/
def primsScenario : List Primitive :=
  [discreteForward 0 1 0, discreteForward 1 5 2, discreteForward 2 1 1,
    discreteForward 3 2 5, discreteForward 4 0 1, discreteForward 5 (-2) 5,
    discreteForward 6 (-1) 1, discreteForward 7 (-5) 2, discreteForward 8 (-1) 0,
    discreteForward 9 (-5) (-2), discreteForward 10 (-1) (-1), discreteForward 11 (-2) (-5),
    discreteForward 12 0 (-1), discreteForward 13 2 (-5), discreteForward 14 1 (-1),
    discreteForward 15 5 (-2)]

/-- The configuration `cfgForward4` with one pose per primitive. -/
def cfgOnePose : MotionPrimitivesConfig :=
  { cfgForward4 with mNumPosesPerPrim := 1 }

/-- The configuration `cfgForward4` with every movement type disabled. -/
def cfgNone : MotionPrimitivesConfig :=
  { cfgForward4 with mMobility := mobilityNone }

/-- The rotation table for six headings: the values of `cos` and `sin` in double precision
at `k * mRadPerDiscreteAngle` for the factors k that the forward curves read at the
headings 1 and 5: the headings, the turning directions 1 and -1, and the values
`2^32 - 1` and `2^32 - 5` of `-angle`. -/
def trig6 : Trig := fun k =>
  if k = 1 then (4503599627370497 / 9007199254740992, 3900231685776981 / 4503599627370496)
  else if k = 5 then
    (2251799813685245 / 4503599627370496, -3900231685776983 / 4503599627370496)
  else if k = -1 then
    (4503599627370497 / 9007199254740992, -3900231685776981 / 4503599627370496)
  else if k = 4294967295 then
    (-9007199254740629 / 9007199254740992, 5363494817309603 / 18889465931478580854784)
  else if k = 4294967291 then
    (4503596503247439 / 9007199254740992, -487529073454151 / 562949953421312)
  else (1, 0)

/-- Six headings, forward curves only, turning radius of one cell, one primitive per base
primitive, accuracy 1/10. -/
def cfgTurn6 : MotionPrimitivesConfig :=
  { mMobility := { mobilityNone with mMultiplierForwardTurn := 1 }
    mNumPrimPartition := 1, mNumPosesPerPrim := 2, mNumAngles := 6, mGridSize := 1 / 10,
    mPrimAccuracy := 1 / 10 }

/-- The rotation table for sixteen headings, extended to the factors that the curves read:
the values of `cos` and `sin` in double precision at `k * mRadPerDiscreteAngle` for the
turning angles k = -4..-1 and for the values k = 2^32 - angle of `-angle` at the headings
1..15; the other factors are read from `trig16`. -/
def trig16Curves : Trig := fun k =>
  if k = -4 then
    (4967757600021511 / 81129638414606681695789005144064,
      -1)
  else if k = -3 then
    (1723452963400281 / 4503599627370496,
      -4160783518353059 / 4503599627370496)
  else if k = -2 then
    (6369051672525773 / 9007199254740992,
      -1592262918131443 / 2251799813685248)
  else if k = -1 then
    (4160783518353059 / 4503599627370496,
      -6893811853601123 / 18014398509481984)
  else if k = 4294967295 then
    (8321567080590039 / 9007199254740992,
      -1723452910427701 / 4503599627370496)
  else if k = 4294967294 then
    (398065670934371 / 562949953421312,
      -6369052610101471 / 9007199254740992)
  else if k = 4294967293 then
    (1723452677434017 / 4503599627370496,
      -8321567273608305 / 9007199254740992)
  else if k = 4294967292 then
    (5893619245507727 / 604462909807314587353088,
      -1)
  else if k = 4294967291 then
    (-107715849269085 / 281474976710656,
      -4160783259508845 / 4503599627370496)
  else if k = 4294967290 then
    (-1592263032312875 / 2251799813685248,
      -1592262803950003 / 2251799813685248)
  else if k = 4294967289 then
    (-8321567013374167 / 9007199254740992,
      -6893811966257749 / 18014398509481984)
  else if k = 4294967288 then
    (-4503599627370443 / 4503599627370496,
      1446654512260437 / 9444732965739290427392)
  else if k = 4294967287 then
    (-4160783389625959 / 4503599627370496,
      3446906548349917 / 9007199254740992)
  else if k = 4294967286 then
    (-1592262924162513 / 2251799813685248,
      6369051648401493 / 9007199254740992)
  else if k = 4294967285 then
    (-861726156843369 / 2251799813685248,
      8321567574946321 / 9007199254740992)
  else if k = 4294967284 then
    (5868776092373559 / 75557863725914323419136,
      9007199254740965 / 9007199254740992)
  else if k = 4294967283 then
    (6893811840178189 / 18014398509481984,
      8321567039486099 / 9007199254740992)
  else if k = 4294967282 then
    (6369052686051639 / 9007199254740992,
      6369050658999745 / 9007199254740992)
  else if k = 4294967281 then
    (4160783657356119 / 4503599627370496,
      3446905255634339 / 9007199254740992)
  else trig16 k

/-- Sixteen headings, forward curves only, turning radius of two cells, one primitive per
base primitive, accuracy 0.3. -/
def cfgTurn16 : MotionPrimitivesConfig :=
  { mMobility := { mobilityNone with mMultiplierForwardTurn := 1, mMinTurningRadius := 1 / 5 }
    mNumPrimPartition := 1, mNumPosesPerPrim := 2, mNumAngles := 16, mGridSize := 1 / 10,
    mPrimAccuracy := 3 / 10 }

/-- Sixteen headings, point turns only, four primitives per base primitive, accuracy 0.1. -/
def cfgPointTurn16 : MotionPrimitivesConfig :=
  { mMobility := { mobilityNone with mMultiplierPointTurn := 1 }
    mNumPrimPartition := 4, mNumPosesPerPrim := 2, mNumAngles := 16, mGridSize := 1 / 10,
    mPrimAccuracy := 1 / 10 }

/-- Four headings, forward motion and forward curves with a turning radius of 1000 cells,
one primitive per base primitive, accuracy 0.1. -/
def cfgWideTurn4 : MotionPrimitivesConfig :=
  { mMobility := { mobilityNone with
      mMultiplierForward := 1, mMultiplierForwardTurn := 1, mMinTurningRadius := 100 }
    mNumPrimPartition := 1, mNumPosesPerPrim := 2, mNumAngles := 4, mGridSize := 1 / 10,
    mPrimAccuracy := 1 / 10 }

/-- The base primitive "forward left hand bend" of `cfgWideTurn4`: id 1, cost multiplier 1,
turning radius 1000. -/
def primWideTurnLeft : Primitive :=
  { Primitive.init 1 0 ⟨0, 0, 1⟩ 1 .MOV_FORWARD_TURN with mCenterOfRotation := ⟨0, 1000, 0⟩ }

/-- The rotation table for fifteen headings: the values of `cos` and `sin` in double
precision at `k * mRadPerDiscreteAngle` for the headings k = 1..14 (which are the turning
angles 1..3 as well), the turning angles k = -3..-1, the factor k = -4 of the turn back by
the heading 4, and the values k = 2^32 - angle of `-angle` at the headings 1..14; the
factor 0 is the identity. -/
def trig15 : Trig := fun k =>
  if k = 1 then
    (8228485965250453 / 9007199254740992,
      457944748548525 / 1125899906842624)
  else if k = 2 then
    (753374087364987 / 1125899906842624,
      6693653518204609 / 9007199254740992)
  else if k = 3 then
    (347922205179541 / 1125899906842624,
      8566355544790271 / 9007199254740992)
  else if k = 4 then
    (-3766034785774513 / 36028797018963968,
      8957856874784711 / 9007199254740992)
  else if k = 5 then
    (-2251799813685247 / 4503599627370496,
      7800463371553963 / 9007199254740992)
  else if k = 6 then
    (-7286977268806823 / 9007199254740992,
      5294298886396511 / 9007199254740992)
  else if k = 7 then
    (-8810370340356223 / 9007199254740992,
      1872702026585665 / 9007199254740992)
  else if k = 8 then
    (-68831018284033 / 70368744177664,
      -1872702026585659 / 9007199254740992)
  else if k = 9 then
    (-7286977268806825 / 9007199254740992,
      -5294298886396509 / 9007199254740992)
  else if k = 10 then
    (-1125899906842625 / 2251799813685248,
      -975057921444245 / 1125899906842624)
  else if k = 11 then
    (-7532069571549091 / 72057594037927936,
      -4478928437392355 / 4503599627370496)
  else if k = 12 then
    (1391688820718163 / 4503599627370496,
      -33462326346837 / 35184372088832)
  else if k = 13 then
    (1506748174729973 / 2251799813685248,
      -6693653518204613 / 9007199254740992)
  else if k = 14 then
    (4114242982625225 / 4503599627370496,
      -3663557988388207 / 9007199254740992)
  else if k = -1 then
    (8228485965250453 / 9007199254740992,
      -457944748548525 / 1125899906842624)
  else if k = -2 then
    (753374087364987 / 1125899906842624,
      -6693653518204609 / 9007199254740992)
  else if k = -3 then
    (347922205179541 / 1125899906842624,
      -8566355544790271 / 9007199254740992)
  else if k = -4 then
    (-3766034785774513 / 36028797018963968,
      -8957856874784711 / 9007199254740992)
  else if k = 4294967295 then
    (9007199254740875 / 9007199254740992,
      -761529463099489 / 4722366482869645213696)
  else if k = 4294967294 then
    (1028560666470085 / 1125899906842624,
      -3663559411229197 / 9007199254740992)
  else if k = 4294967293 then
    (6026991463452901 / 9007199254740992,
      -3346827315311941 / 4503599627370496)
  else if k = 4294967292 then
    (695843990116691 / 2251799813685248,
      -8566356090970209 / 9007199254740992)
  else if k = 4294967291 then
    (-941510558653231 / 9007199254740992,
      -8957856679058399 / 9007199254740992)
  else if k = 4294967290 then
    (-4503601339899637 / 9007199254740992,
      -7800462382824551 / 9007199254740992)
  else if k = 4294967289 then
    (-7286978492839851 / 9007199254740992,
      -1323574300414793 / 2251799813685248)
  else if k = 4294967288 then
    (-8810370795150511 / 9007199254740992,
      -7490799547781947 / 36028797018963968)
  else if k = 4294967287 then
    (-4405184931866241 / 4503599627370496,
      7490817075690651 / 36028797018963968)
  else if k = 4294967286 then
    (-7286975859636413 / 9007199254740992,
      5294300825952643 / 9007199254740992)
  else if k = 4294967285 then
    (-9007198639982349 / 18014398509481984,
      243764485906859 / 281474976710656)
  else if k = 4294967284 then
    (-1883016478081627 / 18014398509481984,
      1119732115357459 / 1125899906842624)
  else if k = 4294967283 then
    (5566756357402109 / 18014398509481984,
      8566355370222361 / 9007199254740992)
  else if k = 4294967282 then
    (3013496598378091 / 4503599627370496,
      6693653069950771 / 9007199254740992)
  else (1, 0)

/-- Fifteen headings, forward curves only, turning radius of two cells, one primitive per
base primitive, accuracy 0.4. -/
def cfgTurn15 : MotionPrimitivesConfig :=
  { mMobility := { mobilityNone with mMultiplierForwardTurn := 1, mMinTurningRadius := 1 / 5 }
    mNumPrimPartition := 1, mNumPosesPerPrim := 2, mNumAngles := 15, mGridSize := 1 / 10,
    mPrimAccuracy := 2 / 5 }

/-- Four headings, forward and backward motion, one primitive per base primitive, accuracy
0.1, nominal speed 1. -/
def cfgBothWays4 : MotionPrimitivesConfig :=
  { mMobility := { mobilityNone with mMultiplierForward := 1, mMultiplierBackward := 1 }
    mNumPrimPartition := 1, mNumPosesPerPrim := 2, mNumAngles := 4, mGridSize := 1 / 10,
    mPrimAccuracy := 1 / 10 }

/-! ## Double precision -/

theorem BuilderState.Ok.push {cfg : MotionPrimitivesConfig} {s : BuilderState}
    (h : s.Ok cfg) (prim : Primitive) (speed : ℚ) (hid : prim.mId = s.primId)
    (hv : ((prim.mMovType = .MOV_FORWARD ∨ prim.mMovType = .MOV_LATERAL ∨
          prim.mMovType = .MOV_POINTTURN ∨ prim.mMovType = .MOV_FORWARD_TURN) ∧
          speed = cfg.mMobility.mSpeed) ∨
      ((prim.mMovType = .MOV_BACKWARD ∨ prim.mMovType = .MOV_BACKWARD_TURN) ∧
          speed = -cfg.mMobility.mSpeed)) :
    (s.push prim speed).Ok cfg := by
  refine ⟨?_, ?_, ?_, ?_⟩
  · simp [BuilderState.push, h.len_prims]
  · simp [BuilderState.push, h.len_speeds]
  · intro i b hb
    simp only [BuilderState.push] at hb
    rcases Nat.lt_or_ge i s.mListPrimitivesAngle0.length with hi | hi
    · rw [List.getElem?_append_left hi] at hb
      exact h.ids i b hb
    · rw [List.getElem?_append_right hi] at hb
      rcases Nat.eq_or_lt_of_le hi with heq | hlt
      · rw [← heq] at hb
        simp at hb
        rw [← hb, hid, ← h.len_prims, heq]
      · have : i - s.mListPrimitivesAngle0.length ≠ 0 := by omega
        obtain ⟨j, hj⟩ := Nat.exists_eq_succ_of_ne_zero this
        rw [hj] at hb
        simp at hb
  · simp only [BuilderState.push]
    exact List.rel_append h.speeds (List.Forall₂.cons hv List.Forall₂.nil)

theorem buildBase_ok (cfg : MotionPrimitivesConfig) : (buildBase cfg).Ok cfg := by
  have h0 : BuilderState.Ok cfg ⟨[], [], 0⟩ :=
    ⟨rfl, rfl, by intro i b hb; simp at hb, List.Forall₂.nil⟩
  have h1 : (addForward cfg ⟨[], [], 0⟩).Ok cfg := by
    unfold addForward
    split
    · exact h0.push _ _ rfl (by simp [Primitive.init])
    · exact h0
  have h2 : (addBackward cfg (addForward cfg ⟨[], [], 0⟩)).Ok cfg := by
    unfold addBackward
    split
    · exact h1.push _ _ rfl (by simp [Primitive.init])
    · exact h1
  have h3 : (addLateral cfg (addBackward cfg (addForward cfg ⟨[], [], 0⟩))).Ok cfg := by
    unfold addLateral
    split
    · exact (h2.push _ _ rfl (by simp [Primitive.init])).push _ _ rfl
        (by simp [Primitive.init])
    · exact h2
  have h4 : (addPointTurn cfg (addLateral cfg (addBackward cfg
      (addForward cfg ⟨[], [], 0⟩)))).Ok cfg := by
    unfold addPointTurn
    split
    · exact (h3.push _ _ rfl (by simp [Primitive.init])).push _ _ rfl
        (by simp [Primitive.init])
    · exact h3
  have h5 : (addForwardTurn cfg (addPointTurn cfg (addLateral cfg (addBackward cfg
      (addForward cfg ⟨[], [], 0⟩))))).Ok cfg := by
    unfold addForwardTurn
    split
    · exact (h4.push _ _ rfl (by simp [Primitive.init])).push _ _ rfl
        (by simp [Primitive.init])
    · exact h4
  unfold buildBase addBackwardTurn
  split
  · exact (h5.push _ _ rfl (by simp [Primitive.init])).push _ _ rfl
      (by simp [Primitive.init])
  · exact h5

theorem repeatSpeeds_length (partition : Nat) (l : List ℚ) :
    (repeatSpeeds partition l).length = l.length * partition := by
  induction l with
  | nil => simp [repeatSpeeds]
  | cons v rest ih =>
    simp only [repeatSpeeds, List.length_append, List.length_replicate, ih, List.length_cons]
    ring

theorem repeatSpeeds_getElem? (partition : Nat) (l : List ℚ) (i k : Nat)
    (hk : k < partition) :
    (repeatSpeeds partition l)[i * partition + k]? = l[i]? := by
  induction l generalizing i with
  | nil => simp [repeatSpeeds]
  | cons v rest ih =>
    cases i with
    | zero =>
      simp only [repeatSpeeds, Nat.zero_mul, Nat.zero_add]
      rw [List.getElem?_append_left (by simpa using hk)]
      simp [List.getElem?_replicate, hk]
    | succ j =>
      simp only [repeatSpeeds]
      rw [List.getElem?_append_right (by
        simp only [List.length_replicate]
        nlinarith)]
      have : (j + 1) * partition + k - (List.replicate partition v).length
          = j * partition + k := by
        simp only [List.length_replicate]
        rw [Nat.succ_mul]
        omega
      rw [this, ih j]
      simp

theorem addForward_list (cfg : MotionPrimitivesConfig) (s : BuilderState) :
    (addForward cfg s).mListPrimitivesAngle0 = s.mListPrimitivesAngle0 ++
      (if cfg.mMobility.mMultiplierForward > 0 then
        [Primitive.init s.primId 0 ⟨1, 0, 0⟩ cfg.mMobility.mMultiplierForward .MOV_FORWARD]
      else []) := by
  unfold addForward
  split <;> simp [BuilderState.push]

theorem addBackward_list (cfg : MotionPrimitivesConfig) (s : BuilderState) :
    (addBackward cfg s).mListPrimitivesAngle0 = s.mListPrimitivesAngle0 ++
      (if cfg.mMobility.mMultiplierBackward > 0 then
        [Primitive.init s.primId 0 ⟨-1, 0, 0⟩ cfg.mMobility.mMultiplierBackward .MOV_BACKWARD]
      else []) := by
  unfold addBackward
  split <;> simp [BuilderState.push]

theorem addLateral_list (cfg : MotionPrimitivesConfig) (s : BuilderState) :
    (addLateral cfg s).mListPrimitivesAngle0 = s.mListPrimitivesAngle0 ++
      (if cfg.mMobility.mMultiplierLateral > 0 then
        [Primitive.init s.primId 0 ⟨0, 1, 0⟩ cfg.mMobility.mMultiplierLateral .MOV_LATERAL,
         Primitive.init (s.primId + 1) 0 ⟨0, -1, 0⟩ cfg.mMobility.mMultiplierLateral
          .MOV_LATERAL]
      else []) := by
  unfold addLateral
  split <;> simp [BuilderState.push]

theorem addPointTurn_list (cfg : MotionPrimitivesConfig) (s : BuilderState) :
    (addPointTurn cfg s).mListPrimitivesAngle0 = s.mListPrimitivesAngle0 ++
      (if cfg.mMobility.mMultiplierPointTurn > 0 then
        [Primitive.init s.primId 0 ⟨0, 0, 1⟩ cfg.mMobility.mMultiplierPointTurn .MOV_POINTTURN,
         Primitive.init (s.primId + 1) 0 ⟨0, 0, -1⟩ cfg.mMobility.mMultiplierPointTurn
          .MOV_POINTTURN]
      else []) := by
  unfold addPointTurn
  split <;> simp [BuilderState.push]

theorem addForwardTurn_list (cfg : MotionPrimitivesConfig) (s : BuilderState) :
    (addForwardTurn cfg s).mListPrimitivesAngle0 = s.mListPrimitivesAngle0 ++
      (if cfg.mMobility.mMultiplierForwardTurn > 0 then
        [{ Primitive.init s.primId 0 ⟨0, 0, 1⟩ cfg.mMobility.mMultiplierForwardTurn
              .MOV_FORWARD_TURN with
            mCenterOfRotation := ⟨0, start_turning_radius cfg, 0⟩ },
         { Primitive.init (s.primId + 1) 0 ⟨0, 0, -1⟩ cfg.mMobility.mMultiplierForwardTurn
              .MOV_FORWARD_TURN with
            mCenterOfRotation := ⟨0, -start_turning_radius cfg, 0⟩ }]
      else []) := by
  unfold addForwardTurn
  by_cases h : cfg.mMobility.mMultiplierForwardTurn = 0
  · simp [h]
  · have h2 : cfg.mMobility.mMultiplierForwardTurn > 0 := Nat.pos_of_ne_zero h
    simp [h, h2, BuilderState.push]

theorem addBackwardTurn_list (cfg : MotionPrimitivesConfig) (s : BuilderState) :
    (addBackwardTurn cfg s).mListPrimitivesAngle0 = s.mListPrimitivesAngle0 ++
      (if cfg.mMobility.mMultiplierBackwardTurn > 0 then
        [{ Primitive.init s.primId 0 ⟨0, 0, 1⟩ cfg.mMobility.mMultiplierBackwardTurn
              .MOV_BACKWARD_TURN with
            mCenterOfRotation := ⟨0, -start_turning_radius cfg, 0⟩ },
         { Primitive.init (s.primId + 1) 0 ⟨0, 0, -1⟩ cfg.mMobility.mMultiplierBackwardTurn
              .MOV_BACKWARD_TURN with
            mCenterOfRotation := ⟨0, start_turning_radius cfg, 0⟩ }]
      else []) := by
  unfold addBackwardTurn
  split <;> simp [BuilderState.push]

theorem buildBase_list (cfg : MotionPrimitivesConfig) :
    ∃ i1 i2 i3 i4 i5 i6 : Nat, (buildBase cfg).mListPrimitivesAngle0 =
      (if cfg.mMobility.mMultiplierForward > 0 then
        [Primitive.init i1 0 ⟨1, 0, 0⟩ cfg.mMobility.mMultiplierForward .MOV_FORWARD]
      else []) ++
      (if cfg.mMobility.mMultiplierBackward > 0 then
        [Primitive.init i2 0 ⟨-1, 0, 0⟩ cfg.mMobility.mMultiplierBackward .MOV_BACKWARD]
      else []) ++
      (if cfg.mMobility.mMultiplierLateral > 0 then
        [Primitive.init i3 0 ⟨0, 1, 0⟩ cfg.mMobility.mMultiplierLateral .MOV_LATERAL,
         Primitive.init (i3 + 1) 0 ⟨0, -1, 0⟩ cfg.mMobility.mMultiplierLateral
          .MOV_LATERAL]
      else []) ++
      (if cfg.mMobility.mMultiplierPointTurn > 0 then
        [Primitive.init i4 0 ⟨0, 0, 1⟩ cfg.mMobility.mMultiplierPointTurn .MOV_POINTTURN,
         Primitive.init (i4 + 1) 0 ⟨0, 0, -1⟩ cfg.mMobility.mMultiplierPointTurn
          .MOV_POINTTURN]
      else []) ++
      (if cfg.mMobility.mMultiplierForwardTurn > 0 then
        [{ Primitive.init i5 0 ⟨0, 0, 1⟩ cfg.mMobility.mMultiplierForwardTurn
              .MOV_FORWARD_TURN with
            mCenterOfRotation := ⟨0, start_turning_radius cfg, 0⟩ },
         { Primitive.init (i5 + 1) 0 ⟨0, 0, -1⟩ cfg.mMobility.mMultiplierForwardTurn
              .MOV_FORWARD_TURN with
            mCenterOfRotation := ⟨0, -start_turning_radius cfg, 0⟩ }]
      else []) ++
      (if cfg.mMobility.mMultiplierBackwardTurn > 0 then
        [{ Primitive.init i6 0 ⟨0, 0, 1⟩ cfg.mMobility.mMultiplierBackwardTurn
              .MOV_BACKWARD_TURN with
            mCenterOfRotation := ⟨0, -start_turning_radius cfg, 0⟩ },
         { Primitive.init (i6 + 1) 0 ⟨0, 0, -1⟩ cfg.mMobility.mMultiplierBackwardTurn
              .MOV_BACKWARD_TURN with
            mCenterOfRotation := ⟨0, start_turning_radius cfg, 0⟩ }]
      else []) := by
  unfold buildBase
  rw [addBackwardTurn_list, addForwardTurn_list, addPointTurn_list, addLateral_list,
    addBackward_list, addForward_list, List.nil_append]
  exact ⟨_, _, _, _, _, _, rfl⟩

/-! ## Claims on getSpeed and createMPrimsForAngle0 -/

/-- C5: `getSpeed` returns false exactly when the id is at least the length of the speed
table, and then the caller's speed is unchanged; otherwise it returns true and the speed is
the table entry at index id. -/
theorem getSpeed_spec (mPrim_id2Speed : List ℚ) (prim_id : Nat) (speed : ℚ) :
    ((getSpeed mPrim_id2Speed prim_id speed).1 = false ↔ mPrim_id2Speed.length ≤ prim_id) ∧
    (mPrim_id2Speed.length ≤ prim_id →
      getSpeed mPrim_id2Speed prim_id speed = (false, speed)) ∧
    (∀ h : prim_id < mPrim_id2Speed.length,
      getSpeed mPrim_id2Speed prim_id speed = (true, mPrim_id2Speed.get ⟨prim_id, h⟩)) := by
  refine ⟨?_, ?_, ?_⟩
  · unfold getSpeed
    split <;> simp_all
  · intro h
    simp [getSpeed, h]
  · intro h
    have : ¬ prim_id ≥ mPrim_id2Speed.length := by omega
    simp [getSpeed, this]

/-- C6: after `createMPrimsForAngle0` has built n base primitives, the speed table has
n * partitionCount entries, and for the i-th base primitive b and every k < partitionCount
the entry at index b.id * partitionCount + k is the speed recorded for b. -/
theorem speed_table_replicated (cfg : MotionPrimitivesConfig) :
    (createMPrimsForAngle0 cfg).2.length
      = (createMPrimsForAngle0 cfg).1.length * cfg.mNumPrimPartition ∧
    ∀ i k : Nat, i < (createMPrimsForAngle0 cfg).1.length → k < cfg.mNumPrimPartition →
      ∃ (b : Primitive) (v : ℚ), (createMPrimsForAngle0 cfg).1[i]? = some b ∧
        (buildBase cfg).mPrim_id2Speed[i]? = some v ∧
        (createMPrimsForAngle0 cfg).2[b.mId * cfg.mNumPrimPartition + k]? = some v := by
  have ok := buildBase_ok cfg
  refine ⟨?_, ?_⟩
  · simp only [createMPrimsForAngle0, repeatSpeeds_length, ok.len_speeds, ok.len_prims]
  · intro i k hi hk
    simp only [createMPrimsForAngle0] at hi ⊢
    have hi2 : i < (buildBase cfg).mPrim_id2Speed.length := by
      rw [ok.len_speeds, ← ok.len_prims]; exact hi
    refine ⟨(buildBase cfg).mListPrimitivesAngle0[i], (buildBase cfg).mPrim_id2Speed[i],
      List.getElem?_eq_getElem hi, List.getElem?_eq_getElem hi2, ?_⟩
    rw [ok.ids i _ (List.getElem?_eq_getElem hi), repeatSpeeds_getElem? _ _ _ _ hk]
    exact List.getElem?_eq_getElem hi2

/-- C7: before replication, the speed recorded for a base primitive is the nominal speed
for FORWARD, LATERAL, POINT_TURN and FORWARD_TURN primitives and minus the nominal speed for
BACKWARD and BACKWARD_TURN primitives (the two lists are of equal length and related entry
by entry, and no base primitive has another movement type). -/
theorem base_speed_sign (cfg : MotionPrimitivesConfig) :
    List.Forall₂
      (fun (b : Primitive) (v : ℚ) =>
        ((b.mMovType = .MOV_FORWARD ∨ b.mMovType = .MOV_LATERAL ∨ b.mMovType = .MOV_POINTTURN ∨
            b.mMovType = .MOV_FORWARD_TURN) ∧ v = cfg.mMobility.mSpeed) ∨
        ((b.mMovType = .MOV_BACKWARD ∨ b.mMovType = .MOV_BACKWARD_TURN) ∧
            v = -cfg.mMobility.mSpeed))
      (buildBase cfg).mListPrimitivesAngle0 (buildBase cfg).mPrim_id2Speed :=
  (buildBase_ok cfg).speeds

/-- C8: `createMPrimsForAngle0` emits the primitives of a movement type exactly when the
multiplier of the type is positive, and the emitted list is, in this order: FORWARD with
direction (1,0), BACKWARD (-1,0), LATERAL (0,1) and (0,-1), POINT_TURN with turn direction
+1 and -1, two FORWARD_TURN and two BACKWARD_TURN primitives, each with the multiplier of
its type as cost multiplier. -/
theorem base_primitives_by_multiplier (cfg : MotionPrimitivesConfig) :
    (createMPrimsForAngle0 cfg).1.map
        (fun p => (p.mMovType, p.mEndPose, p.mCostMultiplier)) =
      (if cfg.mMobility.mMultiplierForward > 0 then
        [(MovementType.MOV_FORWARD, (⟨1, 0, 0⟩ : Vector3d), cfg.mMobility.mMultiplierForward)]
        else []) ++
      (if cfg.mMobility.mMultiplierBackward > 0 then
        [(MovementType.MOV_BACKWARD, ⟨-1, 0, 0⟩, cfg.mMobility.mMultiplierBackward)]
        else []) ++
      (if cfg.mMobility.mMultiplierLateral > 0 then
        [(MovementType.MOV_LATERAL, ⟨0, 1, 0⟩, cfg.mMobility.mMultiplierLateral),
         (MovementType.MOV_LATERAL, ⟨0, -1, 0⟩, cfg.mMobility.mMultiplierLateral)]
        else []) ++
      (if cfg.mMobility.mMultiplierPointTurn > 0 then
        [(MovementType.MOV_POINTTURN, ⟨0, 0, 1⟩, cfg.mMobility.mMultiplierPointTurn),
         (MovementType.MOV_POINTTURN, ⟨0, 0, -1⟩, cfg.mMobility.mMultiplierPointTurn)]
        else []) ++
      (if cfg.mMobility.mMultiplierForwardTurn > 0 then
        [(MovementType.MOV_FORWARD_TURN, ⟨0, 0, 1⟩, cfg.mMobility.mMultiplierForwardTurn),
         (MovementType.MOV_FORWARD_TURN, ⟨0, 0, -1⟩, cfg.mMobility.mMultiplierForwardTurn)]
        else []) ++
      (if cfg.mMobility.mMultiplierBackwardTurn > 0 then
        [(MovementType.MOV_BACKWARD_TURN, ⟨0, 0, 1⟩, cfg.mMobility.mMultiplierBackwardTurn),
         (MovementType.MOV_BACKWARD_TURN, ⟨0, 0, -1⟩, cfg.mMobility.mMultiplierBackwardTurn)]
        else []) ∧
    ∀ t : MovementType, (∃ p ∈ (createMPrimsForAngle0 cfg).1, p.mMovType = t) ↔
      ((t = .MOV_FORWARD ∧ cfg.mMobility.mMultiplierForward > 0) ∨
       (t = .MOV_BACKWARD ∧ cfg.mMobility.mMultiplierBackward > 0) ∨
       (t = .MOV_LATERAL ∧ cfg.mMobility.mMultiplierLateral > 0) ∨
       (t = .MOV_POINTTURN ∧ cfg.mMobility.mMultiplierPointTurn > 0) ∨
       (t = .MOV_FORWARD_TURN ∧ cfg.mMobility.mMultiplierForwardTurn > 0) ∨
       (t = .MOV_BACKWARD_TURN ∧ cfg.mMobility.mMultiplierBackwardTurn > 0)) := by
  obtain ⟨i1, i2, i3, i4, i5, i6, h⟩ := buildBase_list cfg
  constructor
  · simp only [createMPrimsForAngle0, h, List.map_append]
    congr 1
    congr 1
    congr 1
    congr 1
    congr 1
    all_goals split <;> simp [Primitive.init]
  · intro t
    simp only [createMPrimsForAngle0, h, List.mem_append, or_and_right, exists_or, or_assoc]
    refine or_congr ?_ (or_congr ?_ (or_congr ?_ (or_congr ?_ (or_congr ?_ ?_))))
    all_goals split <;> simp_all [Primitive.init, eq_comm]

/-- C9: the arc-type base primitives are, in this order, the forward left-hand bend (turn
direction +1, center (0, r, 0)), the forward right-hand bend (-1, center (0, -r, 0)), the
backward left-hand bend (+1, center (0, -r, 0)) and the backward right-hand bend (-1, center
(0, r, 0)), where r = max(1, minTurningRadius / gridSize) is at least 1. -/
theorem arc_center_of_rotation (cfg : MotionPrimitivesConfig) :
    1 ≤ start_turning_radius cfg ∧
    start_turning_radius cfg = max 1 (cfg.mMobility.mMinTurningRadius / cfg.mGridSize) ∧
    ((createMPrimsForAngle0 cfg).1.filter (fun p => isCurve p.mMovType)).map
        (fun p => (p.mMovType, p.mEndPose, p.mCenterOfRotation)) =
      (if cfg.mMobility.mMultiplierForwardTurn > 0 then
        [(MovementType.MOV_FORWARD_TURN, (⟨0, 0, 1⟩ : Vector3d),
            (⟨0, start_turning_radius cfg, 0⟩ : Vector3d)),
         (MovementType.MOV_FORWARD_TURN, ⟨0, 0, -1⟩, ⟨0, -start_turning_radius cfg, 0⟩)]
        else []) ++
      (if cfg.mMobility.mMultiplierBackwardTurn > 0 then
        [(MovementType.MOV_BACKWARD_TURN, ⟨0, 0, 1⟩, ⟨0, -start_turning_radius cfg, 0⟩),
         (MovementType.MOV_BACKWARD_TURN, ⟨0, 0, -1⟩, ⟨0, start_turning_radius cfg, 0⟩)]
        else []) := by
  refine ⟨le_max_left _ _, rfl, ?_⟩
  obtain ⟨i1, i2, i3, i4, i5, i6, h⟩ := buildBase_list cfg
  simp only [createMPrimsForAngle0, h, List.filter_append, List.map_append]
  have e1 : List.filter (fun p => isCurve p.mMovType)
      (if cfg.mMobility.mMultiplierForward > 0 then
        [Primitive.init i1 0 ⟨1, 0, 0⟩ cfg.mMobility.mMultiplierForward .MOV_FORWARD]
      else []) = [] := by
    split <;> simp [Primitive.init, isCurve]
  have e2 : List.filter (fun p => isCurve p.mMovType)
      (if cfg.mMobility.mMultiplierBackward > 0 then
        [Primitive.init i2 0 ⟨-1, 0, 0⟩ cfg.mMobility.mMultiplierBackward .MOV_BACKWARD]
      else []) = [] := by
    split <;> simp [Primitive.init, isCurve]
  have e3 : List.filter (fun p => isCurve p.mMovType)
      (if cfg.mMobility.mMultiplierLateral > 0 then
        [Primitive.init i3 0 ⟨0, 1, 0⟩ cfg.mMobility.mMultiplierLateral .MOV_LATERAL,
         Primitive.init (i3 + 1) 0 ⟨0, -1, 0⟩ cfg.mMobility.mMultiplierLateral
          .MOV_LATERAL]
      else []) = [] := by
    split <;> simp [Primitive.init, isCurve]
  have e4 : List.filter (fun p => isCurve p.mMovType)
      (if cfg.mMobility.mMultiplierPointTurn > 0 then
        [Primitive.init i4 0 ⟨0, 0, 1⟩ cfg.mMobility.mMultiplierPointTurn .MOV_POINTTURN,
         Primitive.init (i4 + 1) 0 ⟨0, 0, -1⟩ cfg.mMobility.mMultiplierPointTurn
          .MOV_POINTTURN]
      else []) = [] := by
    split <;> simp [Primitive.init, isCurve]
  rw [e1, e2, e3, e4]
  simp only [List.map_nil, List.nil_append]
  congr 1
  all_goals split <;> simp [Primitive.init, isCurve]

/-! ## Facts about the acceptance loop -/

theorem nextCandidate_keeps (e : SearchEnv) (s : SearchState) :
    (nextCandidate e s).2.accepted = s.accepted ∧
    (nextCandidate e s).2.reached_end_positions = s.reached_end_positions ∧
    (nextCandidate e s).2.prims_added = s.prims_added := by
  unfold nextCandidate
  split <;> (try split) <;> simp

theorem searchStep_cases (e : SearchEnv) (s : SearchState) :
    searchStep e s = .again (nextCandidate e s).2 ∨
    searchStep e s = .stop (nextCandidate e s).2 ∨
    ∃ p, Accepts e s p ∧
      searchStep e s = .again ((nextCandidate e s).2.accept
        (candidateTriple (roundedPose (nextCandidate e s).1)
          (nextCandidate e s).2.discrete_angle) p) := by
  unfold searchStep
  simp only []
  split_ifs with h1 h2 h3 h4 h5
  · exact Or.inl rfl
  · exact Or.inl rfl
  · exact Or.inr (Or.inl rfl)
  · exact Or.inr (Or.inl rfl)
  · exact Or.inl rfl
  · refine Or.inr (Or.inr ⟨_, ⟨?_, ?_, ?_, ?_, ?_, rfl⟩, rfl⟩)
    · simpa using h1
    · simpa using h2
    · simpa using h3
    · simpa using h4
    · rw [← (nextCandidate_keeps e s).2.1]; exact h5

theorem searchLoop_invariant (e : SearchEnv) (I J : SearchState → Prop)
    (hagain : ∀ s s1, I s → s.prims_added < e.cfg.mNumPrimPartition →
      searchStep e s = .again s1 → I s1)
    (hstop : ∀ s s1, I s → s.prims_added < e.cfg.mNumPrimPartition →
      searchStep e s = .stop s1 → J s1)
    (hexit : ∀ s, I s → J s) :
    ∀ (fuel : Nat) (s r : SearchState), I s → searchLoop e fuel s = some r → J r := by
  intro fuel
  induction fuel with
  | zero =>
    intro s r _ h
    simp [searchLoop] at h
  | succ n ih =>
    intro s r hs h
    simp only [searchLoop] at h
    split at h
    · rename_i hlt
      split at h
      · rename_i s1 heq
        exact ih s1 r (hagain s s1 hs hlt heq) h
      · rename_i s1 heq
        have : s1 = r := by simpa using h
        rw [← this]
        exact hstop s s1 hs hlt heq
    · have : s = r := by simpa using h
      rw [← this]
      exact hexit s hs

theorem acceptedPrim_triple (e : SearchEnv) (id : Nat) (rounded : Vector3d)
    (s1 : SearchState) :
    (acceptedPrim e id rounded s1).triple = candidateTriple rounded s1.discrete_angle := by
  simp [Primitive.triple, acceptedPrim, Primitive.setDiscreteEndOrientation, Primitive.init,
    candidateTriple]

theorem SearchState.Ok.start (e : SearchEnv) : SearchState.start.Ok e :=
  ⟨rfl, Nat.zero_le _, by intro k p h; simp [SearchState.start] at h,
    by intro p h; simp [SearchState.start] at h, by simp [SearchState.start]⟩

theorem SearchState.Ok.candidate {e : SearchEnv} {s : SearchState} (h : s.Ok e) :
    (nextCandidate e s).2.Ok e := by
  obtain ⟨k1, k2, k3⟩ := nextCandidate_keeps e s
  refine ⟨?_, ?_, ?_, ?_, ?_⟩
  · rw [k1, k3]; exact h.len
  · rw [k3]; exact h.bound
  · rw [k1]; exact h.pushed
  · rw [k1, k2]; exact h.reached
  · rw [k1]; exact h.nodup

theorem SearchState.Ok.accept {e : SearchEnv} {s : SearchState} (h : s.Ok e)
    (hreach : Reachable e s) (hlt : s.prims_added < e.cfg.mNumPrimPartition) {p : Primitive}
    (hp : Accepts e s p) :
    ((nextCandidate e s).2.accept
      (candidateTriple (roundedPose (nextCandidate e s).1)
        (nextCandidate e s).2.discrete_angle) p).Ok e := by
  obtain ⟨k1, k2, k3⟩ := nextCandidate_keeps e s
  have htr : p.triple = candidateTriple (roundedPose (nextCandidate e s).1)
      (nextCandidate e s).2.discrete_angle := by
    rw [hp.2.2.2.2.2, acceptedPrim_triple]
  refine ⟨?_, ?_, ?_, ?_, ?_⟩
  · simp [SearchState.accept, k1, k3, h.len]
  · simp only [SearchState.accept, k3]; omega
  · intro k q hq
    simp only [SearchState.accept, k1] at hq
    rcases Nat.lt_or_ge k s.accepted.length with hk | hk
    · rw [List.getElem?_append_left hk] at hq
      exact h.pushed k q hq
    · rw [List.getElem?_append_right hk] at hq
      rcases Nat.eq_or_lt_of_le hk with heq | hgt
      · rw [← heq] at hq
        simp at hq
        rw [← hq]
        exact ⟨s, hreach, by rw [← h.len, heq], hp⟩
      · have : k - s.accepted.length ≠ 0 := by omega
        obtain ⟨j, hj⟩ := Nat.exists_eq_succ_of_ne_zero this
        rw [hj] at hq
        simp at hq
  · intro q hq
    simp only [SearchState.accept, k1, k2, List.mem_append, List.mem_singleton] at hq ⊢
    rcases hq with hq | hq
    · exact List.mem_cons_of_mem _ (h.reached q hq)
    · rw [hq, htr]; exact List.mem_cons_self _ _
  · simp only [SearchState.accept, k1, List.map_append, List.map_cons, List.map_nil]
    rw [List.nodup_append]
    refine ⟨h.nodup, List.nodup_singleton _, ?_⟩
    intro t ht1 ht2
    rw [List.mem_singleton] at ht2
    obtain ⟨q, hq, hqt⟩ := List.mem_map.1 ht1
    have := h.reached q hq
    rw [hqt, ht2, htr] at this
    exact hp.2.2.2.2.1 this

theorem searchLoop_ok (e : SearchEnv) (fuel : Nat) (r : SearchState)
    (h : searchLoop e fuel SearchState.start = some r) : r.Ok e := by
  refine searchLoop_invariant e (fun s => Reachable e s ∧ s.Ok e) (fun s => s.Ok e) ?_ ?_
    (fun _ hs => hs.2) fuel _ r ⟨Reachable.start, SearchState.Ok.start e⟩ h
  · intro s s1 hs hlt hstep
    refine ⟨Reachable.again hs.1 hlt hstep, ?_⟩
    rcases searchStep_cases e s with hc | hc | ⟨p, hp, hc⟩
    · rw [hc] at hstep
      rw [← StepResult.again.inj hstep]
      exact hs.2.candidate
    · rw [hc] at hstep
      simp at hstep
    · rw [hc] at hstep
      rw [← StepResult.again.inj hstep]
      exact hs.2.accept hs.1 hlt hp
  · intro s s1 hs hlt hstep
    rcases searchStep_cases e s with hc | hc | ⟨p, hp, hc⟩
    · rw [hc] at hstep
      simp at hstep
    · rw [hc] at hstep
      rw [← StepResult.stop.inj hstep]
      exact hs.2.candidate
    · rw [hc] at hstep
      simp at hstep

/-! ## Facts about the loops over headings and base primitives -/

theorem collect_mem {α : Type} (body : α → Option (List Primitive)) :
    ∀ (l : List α) (L : List Primitive), collect body l = some L →
      ∀ p ∈ L, ∃ a ∈ l, ∃ la, body a = some la ∧ p ∈ la := by
  intro l
  induction l with
  | nil =>
    intro L h p hp
    simp only [collect, Option.some.injEq] at h
    rw [← h] at hp
    simp at hp
  | cons a rest ih =>
    intro L h p hp
    simp only [collect] at h
    split at h
    · simp at h
    · rename_i la hla
      split at h
      · simp at h
      · rename_i ls hls
        simp only [Option.some.injEq] at h
        rw [← h, List.mem_append] at hp
        rcases hp with hp | hp
        · exact ⟨a, List.mem_cons_self _ _, la, hla, hp⟩
        · obtain ⟨b, hb, lb, hlb, hpb⟩ := ih ls hls p hp
          exact ⟨b, List.mem_cons_of_mem _ hb, lb, hlb, hpb⟩

theorem collect_pairwise {α : Type} (body : α → Option (List Primitive))
    (R : Primitive → Primitive → Prop) :
    ∀ (l : List α) (L : List Primitive), collect body l = some L →
      (∀ a ∈ l, ∀ la, body a = some la → la.Pairwise R) →
      l.Pairwise (fun a b => ∀ la lb, body a = some la → body b = some lb →
        ∀ p ∈ la, ∀ q ∈ lb, R p q) →
      L.Pairwise R := by
  intro l
  induction l with
  | nil =>
    intro L h _ _
    simp only [collect, Option.some.injEq] at h
    rw [← h]
    exact List.Pairwise.nil
  | cons a rest ih =>
    intro L h hin hcross
    simp only [collect] at h
    split at h
    · simp at h
    · rename_i la hla
      split at h
      · simp at h
      · rename_i ls hls
        simp only [Option.some.injEq] at h
        rw [← h, List.pairwise_append]
        rw [List.pairwise_cons] at hcross
        refine ⟨hin a (List.mem_cons_self _ _) la hla,
          ih ls hls (fun b hb => hin b (List.mem_cons_of_mem _ hb)) hcross.2, ?_⟩
        intro p hp q hq
        obtain ⟨b, hb, lb, hlb, hqb⟩ := collect_mem body rest ls hls q hq
        exact hcross.1 b hb la lb hla hlb p hp q hqb

theorem searchPair_ok (fuel : Nat) (cfg : MotionPrimitivesConfig) (trig : Trig) (angle : Nat)
    (it : Primitive) (l : List Primitive) (h : searchPair fuel cfg trig angle it = some l) :
    ∃ r : SearchState, r.Ok (SearchEnv.enter cfg trig angle it) ∧ r.accepted = l := by
  unfold searchPair at h
  cases hr : searchLoop (SearchEnv.enter cfg trig angle it) fuel SearchState.start with
  | none => rw [hr] at h; simp at h
  | some r =>
    rw [hr] at h
    simp only [Option.map_some', Option.some.injEq] at h
    exact ⟨r, searchLoop_ok _ fuel r hr, h⟩

theorem Accepts.fields {e : SearchEnv} {s : SearchState} {p : Primitive}
    (h : Accepts e s p) :
    p.mId = e.it.mId * e.cfg.mNumPrimPartition + s.prims_added ∧
    p.mStartAngle = e.angle ∧ p.mMovType = e.it.mMovType ∧
    p.mCostMultiplier = e.it.mCostMultiplier ∧
    p.mEndPose.x = (cround (nextCandidate e s).1.x : ℚ) ∧
    p.mEndPose.y = (cround (nextCandidate e s).1.y : ℚ) ∧
    p.mEndPose.z = (((nextCandidate e s).2.discrete_angle % (e.cfg.mNumAngles : Int) : Int) : ℚ) ∧
    p.mDiscreteEndOrientationNotTruncated = (nextCandidate e s).2.discrete_angle := by
  rw [h.2.2.2.2.2]
  simp [acceptedPrim, Primitive.setDiscreteEndOrientation, Primitive.init, roundedPose]

theorem searchPair_getElem? (fuel : Nat) (cfg : MotionPrimitivesConfig) (trig : Trig)
    (angle : Nat) (it : Primitive) (l : List Primitive)
    (h : searchPair fuel cfg trig angle it = some l) (k : Nat) (p : Primitive)
    (hk : l[k]? = some p) :
    k < cfg.mNumPrimPartition ∧ p.mId = it.mId * cfg.mNumPrimPartition + k ∧
      p.mStartAngle = angle := by
  obtain ⟨r, ok, rfl⟩ := searchPair_ok fuel cfg trig angle it l h
  obtain ⟨s0, _, hs0, hacc⟩ := ok.pushed k p hk
  have hlen : k < r.accepted.length := by
    by_contra hge
    rw [List.getElem?_eq_none (by omega)] at hk
    simp at hk
  have hb := ok.bound
  rw [ok.len] at hlen
  have hf := hacc.fields
  refine ⟨by simp only [SearchEnv.enter] at hb; omega, ?_, ?_⟩
  · rw [hf.1, hs0]; rfl
  · rw [hf.2.1]; rfl

theorem createMPrims_mem (fuel : Nat) (cfg : MotionPrimitivesConfig) (trig : Trig)
    (prims : List Primitive) (L : List Primitive)
    (h : createMPrims fuel cfg trig prims = some L) (p : Primitive) (hp : p ∈ L) :
    ∃ angle, angle < cfg.mNumAngles ∧ ∃ it ∈ prims, ∃ s : SearchState,
      Reachable (SearchEnv.enter cfg trig angle it) s ∧
      Accepts (SearchEnv.enter cfg trig angle it) s p := by
  obtain ⟨angle, hangle, la, hla, hpa⟩ := collect_mem _ _ L h p hp
  obtain ⟨it, hit, l, hl, hpl⟩ := collect_mem _ _ la hla p hpa
  obtain ⟨r, ok, rfl⟩ := searchPair_ok fuel cfg trig angle it l hl
  obtain ⟨k, hk⟩ := List.getElem?_of_mem hpl
  obtain ⟨s0, hreach, _, hacc⟩ := ok.pushed k p hk
  exact ⟨angle, List.mem_range.1 hangle, it, hit, s0, hreach, hacc⟩

theorem createMPrims_sorted (fuel : Nat) (cfg : MotionPrimitivesConfig) (trig : Trig)
    (prims : List Primitive) (hprims : prims.Pairwise (fun a b => a.mId < b.mId))
    (L : List Primitive) (h : createMPrims fuel cfg trig prims = some L) :
    L.Pairwise (fun p q => p.mStartAngle < q.mStartAngle ∨
      (p.mStartAngle = q.mStartAngle ∧ p.mId < q.mId)) := by
  refine collect_pairwise _ _ _ L h ?_ ?_
  · intro angle _ la hla
    refine collect_pairwise _ _ _ la hla ?_ ?_
    · intro it _ l hl
      rw [List.pairwise_iff_getElem]
      intro i j hi hj hij
      have h1 := searchPair_getElem? fuel cfg trig angle it l hl i _ (List.getElem?_eq_getElem hi)
      have h2 := searchPair_getElem? fuel cfg trig angle it l hl j _ (List.getElem?_eq_getElem hj)
      right
      refine ⟨by rw [h1.2.2, h2.2.2], ?_⟩
      rw [h1.2.1, h2.2.1]
      omega
    · refine hprims.imp ?_
      intro a b hab la lb hla hlb p hp q hq
      obtain ⟨i, hi⟩ := List.getElem?_of_mem hp
      obtain ⟨j, hj⟩ := List.getElem?_of_mem hq
      have h1 := searchPair_getElem? fuel cfg trig angle a la hla i p hi
      have h2 := searchPair_getElem? fuel cfg trig angle b lb hlb j q hj
      right
      refine ⟨by rw [h1.2.2, h2.2.2], ?_⟩
      rw [h1.2.1, h2.2.1]
      have : (a.mId + 1) * cfg.mNumPrimPartition ≤ b.mId * cfg.mNumPrimPartition :=
        Nat.mul_le_mul_right _ hab
      rw [Nat.succ_mul] at this
      omega
  · refine (List.pairwise_lt_range cfg.mNumAngles).imp ?_
    intro a b hab la lb hla hlb p hp q hq
    obtain ⟨it, _, l, hl, hpl⟩ := collect_mem _ _ la hla p hp
    obtain ⟨it2, _, l2, hl2, hql⟩ := collect_mem _ _ lb hlb q hq
    obtain ⟨i, hi⟩ := List.getElem?_of_mem hpl
    obtain ⟨j, hj⟩ := List.getElem?_of_mem hql
    have h1 := searchPair_getElem? fuel cfg trig a it l hl i p hi
    have h2 := searchPair_getElem? fuel cfg trig b it2 l2 hl2 j q hj
    left
    rw [h1.2.2, h2.2.2]
    exact hab

theorem createMPrimsForAngle0_ids_increase (cfg : MotionPrimitivesConfig) :
    (createMPrimsForAngle0 cfg).1.Pairwise (fun a b => a.mId < b.mId) := by
  rw [List.pairwise_iff_getElem]
  intro i j hi hj hij
  have ok := buildBase_ok cfg
  simp only [createMPrimsForAngle0] at hi hj ⊢
  rw [ok.ids i _ (List.getElem?_eq_getElem hi), ok.ids j _ (List.getElem?_eq_getElem hj)]
  exact hij

theorem normExceeds_eq_false {v : Vector3d} {bound : ℚ}
    (h : v.normExceeds bound = false) : 0 ≤ bound ∧ v.normSq ≤ bound * bound := by
  simp only [Vector3d.normExceeds, decide_eq_false_iff_not, not_or, not_lt] at h
  exact h

theorem sqrt_le_of_normExceeds_eq_false {v : Vector3d} {bound : ℚ}
    (h : v.normExceeds bound = false) :
    Real.sqrt (((v.x ^ 2 + v.y ^ 2 : ℚ) : ℝ)) ≤ (bound : ℝ) := by
  obtain ⟨h0, h1⟩ := normExceeds_eq_false h
  have hb : (0 : ℝ) ≤ (bound : ℝ) := by exact_mod_cast h0
  have hq : v.x ^ 2 + v.y ^ 2 ≤ bound ^ 2 := by
    have : v.x ^ 2 + v.y ^ 2 ≤ v.normSq := by
      unfold Vector3d.normSq
      nlinarith [mul_self_nonneg v.z]
    calc v.x ^ 2 + v.y ^ 2 ≤ v.normSq := this
      _ ≤ bound * bound := h1
      _ = bound ^ 2 := by ring
  have hr : ((v.x ^ 2 + v.y ^ 2 : ℚ) : ℝ) ≤ (bound : ℝ) ^ 2 := by exact_mod_cast hq
  calc Real.sqrt (((v.x ^ 2 + v.y ^ 2 : ℚ) : ℝ)) ≤ Real.sqrt ((bound : ℝ) ^ 2) :=
        Real.sqrt_le_sqrt hr
    _ = (bound : ℝ) := Real.sqrt_sq hb

/-! ## Evaluation of concrete configurations -/

theorem createMPrimsForAngle0_cfgForward4 :
    (createMPrimsForAngle0 cfgForward4).1 = [primForward] := by
  decide!

theorem createMPrims_cfgForward4 :
    createMPrims 10 cfgForward4 trig4 (createMPrimsForAngle0 cfgForward4).1
      = some primsForward4 := by
  decide!

theorem createMPrims_cfgForwardPair :
    (createMPrims 20 cfgForwardPair trig4 (createMPrimsForAngle0 cfgForwardPair).1).isSome
      = true := by
  decide!

theorem searchPair_cfgForwardPair :
    (searchPair 20 cfgForwardPair trig4 0 primForward).isSome = true := by
  decide!

/-! ## Claims on createMPrims -/

theorem searchLoop_none (e : SearchEnv) (I : SearchState → Prop)
    (h : ∀ s, I s → s.prims_added < e.cfg.mNumPrimPartition ∧
      ∃ s1, searchStep e s = .again s1 ∧ I s1) :
    ∀ (fuel : Nat) (s : SearchState), I s → searchLoop e fuel s = none := by
  intro fuel
  induction fuel with
  | zero => intro s _; rfl
  | succ n ih =>
    intro s hs
    obtain ⟨hlt, s1, hstep, hs1⟩ := h s hs
    simp only [searchLoop, hlt, if_true, hstep]
    exact ih s1 hs1

theorem searchStep_of_accuracy_neg (e : SearchEnv) (hacc : e.cfg.mPrimAccuracy < 0)
    (s : SearchState) : searchStep e s = .again (nextCandidate e s).2 := by
  unfold searchStep
  have : ((roundedPose (nextCandidate e s).1).sub (nextCandidate e s).1).normExceeds
      e.cfg.mPrimAccuracy = true := by
    simp [Vector3d.normExceeds, hacc]
  simp [this]

theorem searchPair_of_accuracy_neg (fuel : Nat) (cfg : MotionPrimitivesConfig) (trig : Trig)
    (angle : Nat) (it : Primitive) (hacc : cfg.mPrimAccuracy < 0)
    (hP : 0 < cfg.mNumPrimPartition) : searchPair fuel cfg trig angle it = none := by
  unfold searchPair
  rw [searchLoop_none (SearchEnv.enter cfg trig angle it) (fun s => s.prims_added = 0) ?_ fuel
    SearchState.start rfl]
  · rfl
  · intro s hs
    refine ⟨?_, (nextCandidate (SearchEnv.enter cfg trig angle it) s).2,
      searchStep_of_accuracy_neg _ hacc s, ?_⟩
    · rw [hs]; exact hP
    · show (nextCandidate (SearchEnv.enter cfg trig angle it) s).2.prims_added = 0
      rw [(nextCandidate_keeps _ s).2.2]; exact hs

theorem cround_zero : cround 0 = 0 := by
  decide!

theorem createMPrimsForAngle0_cfgOneHeadingTurn :
    (createMPrimsForAngle0 cfgOneHeadingTurn).1 = [primForwardTurnLeft, primForwardTurnRight] := by
  decide!

theorem createMPrimsForAngle0_cfgNegativeAccuracy :
    (createMPrimsForAngle0 cfgNegativeAccuracy).1 = [primForward] := by
  decide!

theorem searchStep_one_heading_turn (trig : Trig) (h0 : trig 0 = (1, 0))
    (h1 : (trig 1).1 = 1) (s : SearchState) (hs : s.current_discrete_angle = 1) :
    ∃ s1, searchStep (SearchEnv.enter cfgOneHeadingTurn trig 0 primForwardTurnLeft) s
        = .again s1 ∧
      s1.current_discrete_angle = 1 ∧ s1.prims_added = s.prims_added := by
  have hy : (nextCandidate (SearchEnv.enter cfgOneHeadingTurn trig 0 primForwardTurnLeft) s).1.y
      = 0 := by
    simp [nextCandidate, SearchEnv.enter, primForwardTurnLeft, Primitive.init,
      cfgOneHeadingTurn, hs, h0, h1, rotateZ, Vector3d.scale, Vector3d.sub, Vector3d.add,
      Vector3d.zero]
    ring
  have hc : (nextCandidate (SearchEnv.enter cfgOneHeadingTurn trig 0 primForwardTurnLeft)
      s).2.current_discrete_angle = 1 := by
    simp [nextCandidate, SearchEnv.enter, primForwardTurnLeft, Primitive.init,
      cfgOneHeadingTurn, hs]
  have hk := (nextCandidate_keeps
    (SearchEnv.enter cfgOneHeadingTurn trig 0 primForwardTurnLeft) s).2.2
  have hv : (isCurve (SearchEnv.enter cfgOneHeadingTurn trig 0 primForwardTurnLeft).it.mMovType &&
      !curveValid (SearchEnv.enter cfgOneHeadingTurn trig 0 primForwardTurnLeft)
        (rotateBack (SearchEnv.enter cfgOneHeadingTurn trig 0 primForwardTurnLeft)
          (roundedPose (nextCandidate
            (SearchEnv.enter cfgOneHeadingTurn trig 0 primForwardTurnLeft) s).1))) = true := by
    simp only [roundedPose, hy]
    simp [isCurve, curveValid, rotateBack, rotateZ, SearchEnv.enter, primForwardTurnLeft,
      Primitive.init, negUnsigned, h0, cround_zero]
  refine ⟨(nextCandidate (SearchEnv.enter cfgOneHeadingTurn trig 0 primForwardTurnLeft) s).2,
    ?_, hc, hk⟩
  unfold searchStep
  simp only [hv]
  split_ifs <;> rfl

/-- C1: evaluation at two failing inputs. With a negative accuracy tolerance (four
headings, forward motion only, one primitive per base primitive) every candidate is
rejected by the accuracy test, which precedes the distance bound, and the acceptance loop
never ends: `createMPrims` returns for no amount of fuel. With one heading and forward
curves at tolerance 1/10 every candidate is rejected by the accuracy test or by the curve
test, and the loop never ends either. -/
theorem createMPrims_never_returns :
    (∀ (fuel : Nat) (trig : Trig),
      createMPrims fuel cfgNegativeAccuracy trig (createMPrimsForAngle0 cfgNegativeAccuracy).1
        = none) ∧
    (∀ (fuel : Nat) (trig : Trig), trig 0 = (1, 0) → (trig 1).1 = 1 →
      createMPrims fuel cfgOneHeadingTurn trig (createMPrimsForAngle0 cfgOneHeadingTurn).1
        = none) := by
  constructor
  · intro fuel trig
    have h : searchPair fuel cfgNegativeAccuracy trig 0 primForward = none :=
      searchPair_of_accuracy_neg fuel cfgNegativeAccuracy trig 0 primForward (by decide!)
        (by decide)
    rw [createMPrimsForAngle0_cfgNegativeAccuracy]
    have hr : List.range cfgNegativeAccuracy.mNumAngles = [0, 1, 2, 3] := by decide
    simp only [createMPrims, hr, collect, h]
  · intro fuel trig h0 h1
    have h : searchPair fuel cfgOneHeadingTurn trig 0 primForwardTurnLeft = none := by
      unfold searchPair
      rw [searchLoop_none (SearchEnv.enter cfgOneHeadingTurn trig 0 primForwardTurnLeft)
        (fun s => s.current_discrete_angle = 1 ∧ s.prims_added = 0) ?_ fuel
        SearchState.start ⟨rfl, rfl⟩]
      · rfl
      · intro s hs
        obtain ⟨s1, hstep, hc, hp⟩ := searchStep_one_heading_turn trig h0 h1 s hs.1
        refine ⟨?_, s1, hstep, hc, by rw [hp]; exact hs.2⟩
        rw [hs.2]
        show 0 < cfgOneHeadingTurn.mNumPrimPartition
        decide
    rw [createMPrimsForAngle0_cfgOneHeadingTurn]
    have hr : List.range cfgOneHeadingTurn.mNumAngles = [0] := by decide
    simp only [createMPrims, hr, collect, h]

/-- C2 as stated fails: with four headings and forward motion only, the four generated
primitives all have id 0. -/
theorem ids_repeat_across_headings :
    ∃ L, createMPrims 10 cfgForward4 trig4 (createMPrimsForAngle0 cfgForward4).1 = some L ∧
      ¬ (L.map Primitive.mId).Nodup :=
  ⟨primsForward4, createMPrims_cfgForward4, by decide⟩

/-- C2 amended: in the list produced by `createMPrims` from the base primitives of
`createMPrimsForAngle0`, no two primitives with the same start heading have the same id. -/
theorem ids_unique_within_heading (fuel : Nat) (cfg : MotionPrimitivesConfig) (trig : Trig)
    (L : List Primitive)
    (h : createMPrims fuel cfg trig (createMPrimsForAngle0 cfg).1 = some L) :
    L.Pairwise (fun p q => p.mStartAngle = q.mStartAngle → p.mId ≠ q.mId) := by
  refine (createMPrims_sorted fuel cfg trig _ (createMPrimsForAngle0_ids_increase cfg) L h).imp ?_
  intro p q hpq heq
  rcases hpq with hlt | ⟨_, hlt⟩
  · omega
  · omega

theorem ids_unique_within_heading_witness :
    ∃ L, createMPrims 20 cfgForwardPair trig4 (createMPrimsForAngle0 cfgForwardPair).1 = some L ∧
      L.Pairwise (fun p q => p.mStartAngle = q.mStartAngle → p.mId ≠ q.mId) := by
  obtain ⟨L, hL⟩ := Option.isSome_iff_exists.1 createMPrims_cfgForwardPair
  exact ⟨L, hL, ids_unique_within_heading 20 cfgForwardPair trig4 L hL⟩

/-- C3: for every start heading and base primitive, no two primitives accepted for the pair
have the same triple (rounded dx, rounded dy, raw end heading). -/
theorem accepted_keys_distinct (fuel : Nat) (cfg : MotionPrimitivesConfig) (trig : Trig)
    (angle : Nat) (it : Primitive) (l : List Primitive)
    (h : searchPair fuel cfg trig angle it = some l) :
    (l.map (fun p =>
      (p.mEndPose.x, p.mEndPose.y, p.mDiscreteEndOrientationNotTruncated))).Nodup := by
  obtain ⟨r, ok, rfl⟩ := searchPair_ok fuel cfg trig angle it l h
  have hn := ok.nodup
  have hcomp : r.accepted.map Primitive.triple =
      (r.accepted.map (fun p =>
        (p.mEndPose.x, p.mEndPose.y, p.mDiscreteEndOrientationNotTruncated))).map
        (fun t => (⟨toInt t.1, toInt t.2.1, t.2.2⟩ : Triple)) := by
    rw [List.map_map]
    rfl
  rw [hcomp] at hn
  exact List.Nodup.of_map _ hn

theorem accepted_keys_distinct_witness :
    ∃ l, searchPair 20 cfgForwardPair trig4 0 primForward = some l ∧
      (l.map (fun p =>
        (p.mEndPose.x, p.mEndPose.y, p.mDiscreteEndOrientationNotTruncated))).Nodup := by
  obtain ⟨l, hl⟩ := Option.isSome_iff_exists.1 searchPair_cfgForwardPair
  exact ⟨l, hl, accepted_keys_distinct 20 cfgForwardPair trig4 0 primForward l hl⟩

/-- C4: every primitive in the list produced by `createMPrims` was pushed by a run of the
loop body, started from locals that the acceptance loop reaches, whose unrounded candidate
end position lies within the accuracy tolerance `mPrimAccuracy` (Euclidean distance) of the
stored rounded end position (dx, dy). -/
theorem accepted_within_accuracy (fuel : Nat) (cfg : MotionPrimitivesConfig) (trig : Trig)
    (prims : List Primitive) (L : List Primitive)
    (h : createMPrims fuel cfg trig prims = some L) (p : Primitive) (hp : p ∈ L) :
    ∃ angle, angle < cfg.mNumAngles ∧ ∃ it ∈ prims, ∃ s : SearchState,
      Reachable (SearchEnv.enter cfg trig angle it) s ∧
      Accepts (SearchEnv.enter cfg trig angle it) s p ∧
      p.mEndPose.x = (cround (nextCandidate (SearchEnv.enter cfg trig angle it) s).1.x : ℚ) ∧
      p.mEndPose.y = (cround (nextCandidate (SearchEnv.enter cfg trig angle it) s).1.y : ℚ) ∧
      Real.sqrt
        (((p.mEndPose.x - (nextCandidate (SearchEnv.enter cfg trig angle it) s).1.x) ^ 2 +
          (p.mEndPose.y - (nextCandidate (SearchEnv.enter cfg trig angle it) s).1.y) ^ 2 : ℚ) : ℝ)
        ≤ (cfg.mPrimAccuracy : ℝ) := by
  obtain ⟨angle, hangle, it, hit, s, hreach, hacc⟩ :=
    createMPrims_mem fuel cfg trig prims L h p hp
  have hf := hacc.fields
  refine ⟨angle, hangle, it, hit, s, hreach, hacc, hf.2.2.2.2.1, hf.2.2.2.2.2.1, ?_⟩
  have := sqrt_le_of_normExceeds_eq_false hacc.1
  simp only [Vector3d.sub, roundedPose] at this
  rw [hf.2.2.2.2.1, hf.2.2.2.2.2.1]
  exact this

theorem accepted_within_accuracy_witness :
    ∃ angle, angle < cfgForward4.mNumAngles ∧ ∃ it ∈ (createMPrimsForAngle0 cfgForward4).1,
      ∃ s : SearchState,
      Reachable (SearchEnv.enter cfgForward4 trig4 angle it) s ∧
      Accepts (SearchEnv.enter cfgForward4 trig4 angle it) s (discreteForward 1 0 1) ∧
      (discreteForward 1 0 1).mEndPose.x
        = (cround (nextCandidate (SearchEnv.enter cfgForward4 trig4 angle it) s).1.x : ℚ) ∧
      (discreteForward 1 0 1).mEndPose.y
        = (cround (nextCandidate (SearchEnv.enter cfgForward4 trig4 angle it) s).1.y : ℚ) ∧
      Real.sqrt
        ((((discreteForward 1 0 1).mEndPose.x
            - (nextCandidate (SearchEnv.enter cfgForward4 trig4 angle it) s).1.x) ^ 2 +
          ((discreteForward 1 0 1).mEndPose.y
            - (nextCandidate (SearchEnv.enter cfgForward4 trig4 angle it) s).1.y) ^ 2 : ℚ) : ℝ)
        ≤ (cfgForward4.mPrimAccuracy : ℝ) :=
  accepted_within_accuracy 10 cfgForward4 trig4 _ primsForward4 createMPrims_cfgForward4
    (discreteForward 1 0 1) (by simp [primsForward4])

/-- C10: for every primitive in the list produced by `createMPrims` (with N > 0 headings),
the end heading stored in the end pose is an integer t with 0 <= t < N that is congruent
modulo N to the raw end heading, and the raw end heading that the intermediate pose
computation reads back is the non-truncated `discrete_angle` of the accepted candidate. -/
theorem truncated_end_heading (fuel : Nat) (cfg : MotionPrimitivesConfig) (trig : Trig)
    (prims : List Primitive) (L : List Primitive) (hN : 0 < cfg.mNumAngles)
    (h : createMPrims fuel cfg trig prims = some L) (p : Primitive) (hp : p ∈ L) :
    ∃ t : Int, p.mEndPose.z = (t : ℚ) ∧ 0 ≤ t ∧ t < (cfg.mNumAngles : Int) ∧
      t ≡ p.getDiscreteEndOrientationNotTruncated [ZMOD (cfg.mNumAngles : Int)] ∧
      ∃ angle, angle < cfg.mNumAngles ∧ ∃ it ∈ prims, ∃ s : SearchState,
        Reachable (SearchEnv.enter cfg trig angle it) s ∧
        Accepts (SearchEnv.enter cfg trig angle it) s p ∧
        p.getDiscreteEndOrientationNotTruncated
          = (nextCandidate (SearchEnv.enter cfg trig angle it) s).2.discrete_angle := by
  obtain ⟨angle, hangle, it, hit, s, hreach, hacc⟩ :=
    createMPrims_mem fuel cfg trig prims L h p hp
  have hf := hacc.fields
  have hpos : (0 : Int) < (cfg.mNumAngles : Int) := by exact_mod_cast hN
  refine ⟨p.getDiscreteEndOrientationNotTruncated % (cfg.mNumAngles : Int), ?_,
    Int.emod_nonneg _ (ne_of_gt hpos), Int.emod_lt_of_pos _ hpos, Int.mod_modEq _ _,
    angle, hangle, it, hit, s, hreach, hacc, hf.2.2.2.2.2.2.2⟩
  rw [hf.2.2.2.2.2.2.1]
  simp only [Primitive.getDiscreteEndOrientationNotTruncated, hf.2.2.2.2.2.2.2]
  rfl

theorem truncated_end_heading_witness :
    ∃ t : Int, (discreteForward 3 0 (-1)).mEndPose.z = (t : ℚ) ∧ 0 ≤ t ∧
      t < (cfgForward4.mNumAngles : Int) ∧
      t ≡ (discreteForward 3 0 (-1)).getDiscreteEndOrientationNotTruncated
        [ZMOD (cfgForward4.mNumAngles : Int)] ∧
      ∃ angle, angle < cfgForward4.mNumAngles ∧
        ∃ it ∈ (createMPrimsForAngle0 cfgForward4).1, ∃ s : SearchState,
        Reachable (SearchEnv.enter cfgForward4 trig4 angle it) s ∧
        Accepts (SearchEnv.enter cfgForward4 trig4 angle it) s (discreteForward 3 0 (-1)) ∧
        (discreteForward 3 0 (-1)).getDiscreteEndOrientationNotTruncated
          = (nextCandidate (SearchEnv.enter cfgForward4 trig4 angle it) s).2.discrete_angle :=
  truncated_end_heading 10 cfgForward4 trig4 _ primsForward4 (by decide)
    createMPrims_cfgForward4 (discreteForward 3 0 (-1)) (by simp [primsForward4])

/-! ## Facts about the truncation of orientations -/

theorem M_PI_pos : 0 < M_PI := by
  unfold M_PI
  norm_num

theorem wrapUp_spec : ∀ (fuel : Nat) (theta r : ℚ), wrapUp fuel theta = some r →
    -M_PI < r ∧ ∃ j : ℕ, r = theta + (j : ℚ) * (2 * M_PI) := by
  intro fuel
  induction fuel with
  | zero => intro theta r h; simp [wrapUp] at h
  | succ n ih =>
    intro theta r h
    simp only [wrapUp] at h
    split at h
    · obtain ⟨h1, j, hj⟩ := ih _ r h
      refine ⟨h1, j + 1, ?_⟩
      rw [hj]
      push_cast
      ring
    · rename_i hgt
      simp only [Option.some.injEq] at h
      rw [← h]
      exact ⟨lt_of_not_le hgt, 0, by simp⟩

theorem wrapDown_spec : ∀ (fuel : Nat) (theta r : ℚ), wrapDown fuel theta = some r →
    r ≤ M_PI ∧ (-M_PI < theta → -M_PI < r) ∧ ∃ j : ℕ, r = theta - (j : ℚ) * (2 * M_PI) := by
  intro fuel
  induction fuel with
  | zero => intro theta r h; simp [wrapDown] at h
  | succ n ih =>
    intro theta r h
    simp only [wrapDown] at h
    split at h
    · rename_i hgt
      obtain ⟨h1, h2, j, hj⟩ := ih _ r h
      refine ⟨h1, fun _ => h2 (by linarith), j + 1, ?_⟩
      rw [hj]
      push_cast
      ring
    · rename_i hle
      simp only [Option.some.injEq] at h
      rw [← h]
      exact ⟨le_of_not_lt hle, fun h0 => h0, 0, by simp⟩

theorem truncateOrientation_spec (fuel : Nat) (theta r : ℚ)
    (h : truncateOrientation fuel theta = some r) :
    -M_PI < r ∧ r ≤ M_PI ∧ ∃ k : ℤ, r = theta + (k : ℚ) * (2 * M_PI) := by
  unfold truncateOrientation at h
  split at h
  · simp at h
  · rename_i theta1 hup
    obtain ⟨h1, j1, hj1⟩ := wrapUp_spec fuel theta theta1 hup
    obtain ⟨h2, h3, j2, hj2⟩ := wrapDown_spec fuel theta1 r h
    refine ⟨h3 h1, h2, (j1 : ℤ) - (j2 : ℤ), ?_⟩
    rw [hj2, hj1]
    push_cast
    ring

theorem wrapUp_mono : ∀ (fuel : Nat) (theta r : ℚ), wrapUp fuel theta = some r →
    ∀ fuel2, fuel ≤ fuel2 → wrapUp fuel2 theta = some r := by
  intro fuel
  induction fuel with
  | zero => intro theta r h; simp [wrapUp] at h
  | succ n ih =>
    intro theta r h fuel2 hle
    obtain ⟨n2, rfl⟩ : ∃ n2, fuel2 = n2 + 1 := ⟨fuel2 - 1, by omega⟩
    simp only [wrapUp] at h ⊢
    split
    · rename_i hc
      rw [if_pos hc] at h
      exact ih _ r h n2 (by omega)
    · rename_i hc
      rw [if_neg hc] at h
      exact h

theorem wrapDown_mono : ∀ (fuel : Nat) (theta r : ℚ), wrapDown fuel theta = some r →
    ∀ fuel2, fuel ≤ fuel2 → wrapDown fuel2 theta = some r := by
  intro fuel
  induction fuel with
  | zero => intro theta r h; simp [wrapDown] at h
  | succ n ih =>
    intro theta r h fuel2 hle
    obtain ⟨n2, rfl⟩ : ∃ n2, fuel2 = n2 + 1 := ⟨fuel2 - 1, by omega⟩
    simp only [wrapDown] at h ⊢
    split
    · rename_i hc
      rw [if_pos hc] at h
      exact ih _ r h n2 (by omega)
    · rename_i hc
      rw [if_neg hc] at h
      exact h

theorem wrapUp_ends : ∀ (n : Nat) (theta : ℚ), -M_PI - theta < (n : ℚ) * (2 * M_PI) →
    ∃ r, wrapUp (n + 1) theta = some r := by
  intro n
  induction n with
  | zero =>
    intro theta h
    simp only [Nat.cast_zero, zero_mul] at h
    refine ⟨theta, ?_⟩
    simp only [wrapUp]
    rw [if_neg (by linarith)]
  | succ n ih =>
    intro theta h
    simp only [wrapUp]
    split
    · apply ih
      push_cast at h
      linarith
    · exact ⟨theta, rfl⟩

theorem wrapDown_ends : ∀ (n : Nat) (theta : ℚ), theta - M_PI ≤ (n : ℚ) * (2 * M_PI) →
    ∃ r, wrapDown (n + 1) theta = some r := by
  intro n
  induction n with
  | zero =>
    intro theta h
    simp only [Nat.cast_zero, zero_mul] at h
    refine ⟨theta, ?_⟩
    simp only [wrapDown]
    rw [if_neg (by linarith)]
  | succ n ih =>
    intro theta h
    simp only [wrapDown]
    split
    · apply ih
      push_cast at h
      linarith
    · exact ⟨theta, rfl⟩

theorem truncateOrientation_ends (theta : ℚ) :
    ∃ (fuel0 : Nat) (r : ℚ), ∀ fuel, fuel0 ≤ fuel → truncateOrientation fuel theta = some r := by
  have hpos : 0 < 2 * M_PI := by have := M_PI_pos; linarith
  obtain ⟨n1, hn1⟩ := exists_nat_gt ((-M_PI - theta) / (2 * M_PI))
  obtain ⟨r1, hr1⟩ := wrapUp_ends n1 theta (by rwa [div_lt_iff₀ hpos] at hn1)
  obtain ⟨n2, hn2⟩ := exists_nat_gt ((r1 - M_PI) / (2 * M_PI))
  obtain ⟨r2, hr2⟩ := wrapDown_ends n2 r1 (by rw [div_lt_iff₀ hpos] at hn2; exact le_of_lt hn2)
  refine ⟨max (n1 + 1) (n2 + 1), r2, fun fuel hf => ?_⟩
  unfold truncateOrientation
  rw [wrapUp_mono _ _ _ hr1 fuel (le_trans (le_max_left _ _) hf)]
  exact wrapDown_mono _ _ _ hr2 fuel (le_trans (le_max_right _ _) hf)

theorem posesLoop_spec (fuel : Nat) (cfg : MotionPrimitivesConfig) (trig : Trig) (m : LibM)
    (it : Primitive) : ∀ (is : List Nat) (previous : Vector3d) (poses : List Vector3d)
      (last : Vector3d), posesLoop fuel cfg trig m it is previous = some (poses, last) →
      List.Forall₂ (StoredPose fuel cfg trig m it) is poses := by
  intro is
  induction is with
  | nil =>
    intro previous poses last h
    simp only [posesLoop, Option.some.injEq, Prod.mk.injEq] at h
    rw [← h.1]
    exact List.Forall₂.nil
  | cons i rest ih =>
    intro previous poses last h
    simp only [posesLoop] at h
    split at h
    · simp at h
    · rename_i theta htheta
      split at h
      · simp at h
      · rename_i poses1 last1 hrest
        simp only [Option.some.injEq, Prod.mk.injEq] at h
        rw [← h.1]
        exact List.Forall₂.cons ⟨previous, theta, htheta, rfl⟩ (ih _ _ _ hrest)

theorem posesLoop_ends (cfg : MotionPrimitivesConfig) (trig : Trig) (m : LibM)
    (it : Primitive) : ∀ (is : List Nat) (previous : Vector3d),
      ∃ (fuel0 : Nat) (res : List Vector3d × Vector3d), ∀ fuel, fuel0 ≤ fuel →
        posesLoop fuel cfg trig m it is previous = some res := by
  intro is
  induction is with
  | nil =>
    intro previous
    exact ⟨0, ([], previous), fun fuel _ => rfl⟩
  | cons i rest ih =>
    intro previous
    obtain ⟨f1, theta, h1⟩ :=
      truncateOrientation_ends (intermediatePose cfg trig m it i previous).z
    obtain ⟨f2, res, h2⟩ := ih ((intermediatePose cfg trig m it i previous).withZ theta)
    refine ⟨max f1 f2, ((intermediatePose cfg trig m it i previous).withZ theta :: res.1,
      res.2), fun fuel hf => ?_⟩
    simp only [posesLoop, h1 fuel (le_trans (le_max_left _ _) hf),
      h2 fuel (le_trans (le_max_right _ _) hf)]

theorem createIntermediatePoses_spec (fuel : Nat) (cfg : MotionPrimitivesConfig) (trig : Trig)
    (m : LibM) : ∀ (prims : List Primitive) (previous : Vector3d) (out : List Primitive),
      createIntermediatePoses fuel cfg trig m prims previous = some out →
      List.Forall₂ (PosesAttached fuel cfg trig m) prims out := by
  intro prims
  induction prims with
  | nil =>
    intro previous out h
    simp only [createIntermediatePoses, Option.some.injEq] at h
    rw [← h]
    exact List.Forall₂.nil
  | cons it rest ih =>
    intro previous out h
    simp only [createIntermediatePoses] at h
    split at h
    · simp at h
    · rename_i poses last hposes
      split at h
      · simp at h
      · rename_i out1 hrest
        simp only [Option.some.injEq] at h
        rw [← h]
        exact List.Forall₂.cons ⟨poses, rfl, posesLoop_spec fuel cfg trig m it _ _ _ _ hposes⟩
          (ih _ _ hrest)

theorem createIntermediatePoses_ends (cfg : MotionPrimitivesConfig) (trig : Trig) (m : LibM) :
    ∀ (prims : List Primitive) (previous : Vector3d),
      ∃ (fuel0 : Nat) (out : List Primitive), ∀ fuel, fuel0 ≤ fuel →
        createIntermediatePoses fuel cfg trig m prims previous = some out := by
  intro prims
  induction prims with
  | nil =>
    intro previous
    exact ⟨0, [], fun fuel _ => rfl⟩
  | cons it rest ih =>
    intro previous
    obtain ⟨f1, res, h1⟩ :=
      posesLoop_ends cfg trig m it (List.range cfg.mNumPosesPerPrim) previous
    obtain ⟨f2, out, h2⟩ := ih res.2
    refine ⟨max f1 f2, { it with mIntermediatePoses := it.mIntermediatePoses ++ res.1 } :: out,
      fun fuel hf => ?_⟩
    simp only [createIntermediatePoses, h1 fuel (le_trans (le_max_left _ _) hf),
      h2 fuel (le_trans (le_max_right _ _) hf)]

theorem forall₂_range_getElem? {R : Nat → Vector3d → Prop} {n : Nat} {poses : List Vector3d}
    (h : List.Forall₂ R (List.range n) poses) :
    poses.length = n ∧ ∀ i, i < n → ∃ pose, poses[i]? = some pose ∧ R i pose := by
  have hlen : poses.length = n := by
    rw [← h.length_eq, List.length_range]
  refine ⟨hlen, fun i hi => ?_⟩
  have hi2 : i < poses.length := by rw [hlen]; exact hi
  have hi1 : i < (List.range n).length := by rw [List.length_range]; exact hi
  refine ⟨poses[i], List.getElem?_eq_getElem hi2, ?_⟩
  have := (List.forall₂_iff_get.1 h).2 i hi1 hi2
  simpa using this

/-! ## The output list of createMPrims as a concatenation -/

theorem collect_eq_flatten {α : Type} (body : α → Option (List Primitive)) :
    ∀ (l : List α) (L : List Primitive), collect body l = some L →
      (∀ a ∈ l, ∃ la, body a = some la) ∧
      L = (l.map (fun a => (body a).getD [])).flatten := by
  intro l
  induction l with
  | nil =>
    intro L h
    simp only [collect, Option.some.injEq] at h
    refine ⟨fun a ha => by simp at ha, ?_⟩
    rw [← h]
    rfl
  | cons a rest ih =>
    intro L h
    simp only [collect] at h
    split at h
    · simp at h
    · rename_i la hla
      split at h
      · simp at h
      · rename_i ls hls
        simp only [Option.some.injEq] at h
        obtain ⟨h1, h2⟩ := ih ls hls
        refine ⟨?_, ?_⟩
        · intro b hb
          rcases List.mem_cons.1 hb with rfl | hb
          · exact ⟨la, hla⟩
          · exact h1 b hb
        · rw [← h, h2]
          simp [hla]

theorem createMPrims_structure (fuel : Nat) (cfg : MotionPrimitivesConfig) (trig : Trig)
    (prims : List Primitive) (L : List Primitive)
    (hL : createMPrims fuel cfg trig prims = some L) :
    (∀ h, h < cfg.mNumAngles → ∀ b ∈ prims, ∃ l, searchPair fuel cfg trig h b = some l) ∧
    L = ((List.range cfg.mNumAngles).map (fun h =>
      (prims.map (fun b => (searchPair fuel cfg trig h b).getD [])).flatten)).flatten := by
  obtain ⟨h1, h2⟩ := collect_eq_flatten _ _ L hL
  refine ⟨?_, ?_⟩
  · intro h hh b hb
    obtain ⟨la, hla⟩ := h1 h (List.mem_range.2 hh)
    exact (collect_eq_flatten _ _ la hla).1 b hb
  · rw [h2]
    congr 1
    apply List.map_congr_left
    intro h hh
    obtain ⟨la, hla⟩ := h1 h hh
    rw [hla]
    exact (collect_eq_flatten _ _ la hla).2

theorem searchPair_length_le (fuel : Nat) (cfg : MotionPrimitivesConfig) (trig : Trig)
    (angle : Nat) (it : Primitive) (l : List Primitive)
    (h : searchPair fuel cfg trig angle it = some l) : l.length ≤ cfg.mNumPrimPartition := by
  obtain ⟨r, ok, rfl⟩ := searchPair_ok fuel cfg trig angle it l h
  rw [ok.len]
  exact ok.bound

/-! ## Claims on the count and the order of the primitives -/

/-- C11: for every heading h and base primitive b the acceptance loop ends with at most
partitionCount accepted primitives, and the length of the list returned by `createMPrims`
is the sum over all headings and base primitives of the accepted counts. -/
theorem accepted_count (fuel : Nat) (cfg : MotionPrimitivesConfig) (trig : Trig)
    (prims : List Primitive) (L : List Primitive)
    (hL : createMPrims fuel cfg trig prims = some L) :
    (∀ h, h < cfg.mNumAngles → ∀ b ∈ prims, ∃ l, searchPair fuel cfg trig h b = some l ∧
      l.length ≤ cfg.mNumPrimPartition) ∧
    L.length = ((List.range cfg.mNumAngles).map (fun h =>
      (prims.map (fun b => ((searchPair fuel cfg trig h b).getD []).length)).sum)).sum := by
  obtain ⟨h1, h2⟩ := createMPrims_structure fuel cfg trig prims L hL
  refine ⟨?_, ?_⟩
  · intro h hh b hb
    obtain ⟨l, hl⟩ := h1 h hh b hb
    exact ⟨l, hl, searchPair_length_le fuel cfg trig h b l hl⟩
  · rw [h2, List.length_flatten, List.map_map]
    congr 1
    apply List.map_congr_left
    intro h _
    simp only [Function.comp, List.length_flatten, List.map_map]
    rfl

theorem accepted_count_witness :
    ∃ L, createMPrims 20 cfgForwardPair trig4 (createMPrimsForAngle0 cfgForwardPair).1 = some L ∧
      (∀ h, h < cfgForwardPair.mNumAngles → ∀ b ∈ (createMPrimsForAngle0 cfgForwardPair).1,
        ∃ l, searchPair 20 cfgForwardPair trig4 h b = some l ∧
          l.length ≤ cfgForwardPair.mNumPrimPartition) ∧
      L.length = ((List.range cfgForwardPair.mNumAngles).map (fun h =>
        ((createMPrimsForAngle0 cfgForwardPair).1.map (fun b =>
          ((searchPair 20 cfgForwardPair trig4 h b).getD []).length)).sum)).sum := by
  obtain ⟨L, hL⟩ := Option.isSome_iff_exists.1 createMPrims_cfgForwardPair
  exact ⟨L, hL, accepted_count 20 cfgForwardPair trig4 _ L hL⟩

/-- C20: the list returned by `createMPrims` is the concatenation, over the headings in
increasing order and within a heading over the base primitives in their order, of the
primitives accepted for the pair; the primitives of a pair stand in acceptance order, and
the k-th of them (k counted from 0) was pushed by a run of the loop body that started with
k accepted primitives and has id b.id * partitionCount + k, start heading h, and the
movement type and cost multiplier of b. -/
theorem output_order_and_ids (fuel : Nat) (cfg : MotionPrimitivesConfig) (trig : Trig)
    (prims : List Primitive) (L : List Primitive)
    (hL : createMPrims fuel cfg trig prims = some L) :
    L = ((List.range cfg.mNumAngles).map (fun h =>
      (prims.map (fun b => (searchPair fuel cfg trig h b).getD [])).flatten)).flatten ∧
    ∀ h, h < cfg.mNumAngles → ∀ b ∈ prims, ∃ l, searchPair fuel cfg trig h b = some l ∧
      ∀ (k : Nat) (p : Primitive), l[k]? = some p →
        p.mId = b.mId * cfg.mNumPrimPartition + k ∧ p.mStartAngle = h ∧
        p.mMovType = b.mMovType ∧ p.mCostMultiplier = b.mCostMultiplier ∧
        ∃ s0 : SearchState, Reachable (SearchEnv.enter cfg trig h b) s0 ∧
          s0.prims_added = k ∧ Accepts (SearchEnv.enter cfg trig h b) s0 p := by
  obtain ⟨h1, h2⟩ := createMPrims_structure fuel cfg trig prims L hL
  refine ⟨h2, ?_⟩
  intro h hh b hb
  obtain ⟨l, hl⟩ := h1 h hh b hb
  refine ⟨l, hl, ?_⟩
  intro k p hk
  obtain ⟨r, ok, rfl⟩ := searchPair_ok fuel cfg trig h b l hl
  obtain ⟨s0, hreach, hs0, hacc⟩ := ok.pushed k p hk
  have hf := hacc.fields
  refine ⟨?_, hf.2.1, hf.2.2.1, hf.2.2.2.1, s0, hreach, hs0, hacc⟩
  rw [hf.1, hs0]
  rfl

theorem output_order_and_ids_witness :
    ∃ L, createMPrims 20 cfgForwardPair trig4 (createMPrimsForAngle0 cfgForwardPair).1 = some L ∧
      L = ((List.range cfgForwardPair.mNumAngles).map (fun h =>
        ((createMPrimsForAngle0 cfgForwardPair).1.map (fun b =>
          (searchPair 20 cfgForwardPair trig4 h b).getD [])).flatten)).flatten ∧
      ∀ h, h < cfgForwardPair.mNumAngles → ∀ b ∈ (createMPrimsForAngle0 cfgForwardPair).1,
        ∃ l, searchPair 20 cfgForwardPair trig4 h b = some l ∧
        ∀ (k : Nat) (p : Primitive), l[k]? = some p →
          p.mId = b.mId * cfgForwardPair.mNumPrimPartition + k ∧ p.mStartAngle = h ∧
          p.mMovType = b.mMovType ∧ p.mCostMultiplier = b.mCostMultiplier ∧
          ∃ s0 : SearchState, Reachable (SearchEnv.enter cfgForwardPair trig4 h b) s0 ∧
            s0.prims_added = k ∧ Accepts (SearchEnv.enter cfgForwardPair trig4 h b) s0 p := by
  obtain ⟨L, hL⟩ := Option.isSome_iff_exists.1 createMPrims_cfgForwardPair
  exact ⟨L, hL, output_order_and_ids 20 cfgForwardPair trig4 _ L hL⟩

/-! ## Facts about the primitives that createMPrims generates -/

theorem forall₂_exists_of_mem {α β : Type} {R : α → β → Prop} :
    ∀ {l1 : List α} {l2 : List β}, List.Forall₂ R l1 l2 → ∀ a ∈ l1, ∃ b, R a b := by
  intro l1 l2 h
  induction h with
  | nil => intro a ha; simp at ha
  | cons hab _ ih =>
    intro a ha
    rcases List.mem_cons.1 ha with rfl | ha
    · exact ⟨_, hab⟩
    · exact ih a ha

theorem createMPrimsForAngle0_types (cfg : MotionPrimitivesConfig) :
    ∀ b ∈ (createMPrimsForAngle0 cfg).1, b.mMovType ≠ .MOV_UNDEFINED := by
  intro b hb
  obtain ⟨v, hv⟩ := forall₂_exists_of_mem (buildBase_ok cfg).speeds b hb
  rcases hv with ⟨h | h | h | h, _⟩ | ⟨h | h, _⟩ <;> rw [h] <;> decide

theorem Accepts.straight {e : SearchEnv} {s : SearchState} {p : Primitive}
    (h : Accepts e s p)
    (ht : e.it.mMovType = .MOV_FORWARD ∨ e.it.mMovType = .MOV_BACKWARD ∨
      e.it.mMovType = .MOV_LATERAL) :
    p.mDiscreteEndOrientationNotTruncated = (e.angle : Int) := by
  rw [h.fields.2.2.2.2.2.2.2]
  rcases ht with ht | ht | ht <;> simp [nextCandidate, ht]

theorem Accepts.pointturn {e : SearchEnv} {s : SearchState} {p : Primitive}
    (h : Accepts e s p) (ht : e.it.mMovType = .MOV_POINTTURN) :
    p.mEndPose.x = 0 ∧ p.mEndPose.y = 0 := by
  have hf := h.fields
  rw [hf.2.2.2.2.1, hf.2.2.2.2.2.1]
  simp [nextCandidate, ht, Vector3d.zero, cround_zero]

theorem Accepts.poses {e : SearchEnv} {s : SearchState} {p : Primitive}
    (h : Accepts e s p) : p.mIntermediatePoses = [] := by
  rw [h.2.2.2.2.2]
  rfl

theorem createMPrims_generated (fuel : Nat) (cfg : MotionPrimitivesConfig) (trig : Trig)
    (L : List Primitive)
    (hL : createMPrims fuel cfg trig (createMPrimsForAngle0 cfg).1 = some L)
    (p : Primitive) (hp : p ∈ L) :
    p.mStartAngle < cfg.mNumAngles ∧
    p.mEndPose.z = ((p.mDiscreteEndOrientationNotTruncated % (cfg.mNumAngles : Int) : Int) : ℚ) ∧
    ((p.mMovType = .MOV_FORWARD ∨ p.mMovType = .MOV_BACKWARD ∨ p.mMovType = .MOV_LATERAL) →
      p.mDiscreteEndOrientationNotTruncated = (p.mStartAngle : Int)) ∧
    (p.mMovType = .MOV_POINTTURN → p.mEndPose.x = 0 ∧ p.mEndPose.y = 0) ∧
    p.mIntermediatePoses = [] ∧ p.mMovType ≠ .MOV_UNDEFINED := by
  obtain ⟨angle, hangle, it, hit, s, _, hacc⟩ := createMPrims_mem fuel cfg trig _ L hL p hp
  have hf := hacc.fields
  have ha : p.mStartAngle = angle := hf.2.1
  have ht : p.mMovType = it.mMovType := hf.2.2.1
  refine ⟨by rw [ha]; exact hangle, ?_, ?_, ?_, hacc.poses, ?_⟩
  · rw [hf.2.2.2.2.2.2.1, hf.2.2.2.2.2.2.2]
    rfl
  · intro h
    rw [ht] at h
    rw [ha]
    exact hacc.straight h
  · intro h
    rw [ht] at h
    exact hacc.pointturn h
  · rw [ht]
    exact createMPrimsForAngle0_types cfg it hit

/-! ## The first and the last pose of a generated primitive -/

theorem forall₂_imp_of_mem {α β : Type} {R S : α → β → Prop} :
    ∀ {l1 : List α} {l2 : List β}, List.Forall₂ R l1 l2 →
      (∀ a ∈ l1, ∀ b, R a b → S a b) → List.Forall₂ S l1 l2 := by
  intro l1 l2 h
  induction h with
  | nil => intro _; exact List.Forall₂.nil
  | cons hab _ ih =>
    intro himp
    exact List.Forall₂.cons (himp _ (List.mem_cons_self _ _) _ hab)
      (ih (fun a ha b hr => himp a (List.mem_cons_of_mem _ ha) b hr))

/-- C15: evaluation at the failing input numPosesPerPrim = 1 (four headings, forward motion
only): `createPrimitives` has no guard, it returns with one intermediate pose attached to
each of the four primitives, computed with the divisor numPosesPerPrim - 1 = 0. -/
theorem one_pose_is_not_guarded :
    ∃ g ∈ createPrimitives 10 cfgOnePose trig4 libmUnused Generator.fresh,
      g.mListPrimitives.map (fun p => p.mIntermediatePoses.length) = [1, 1, 1, 1] := by
  decide!

/-- C16: on a freshly constructed generator whose mobility profile has all six multipliers
equal to 0, `createPrimitives` returns, the primitive list is empty, the speed table is
empty and `getSpeed` fails for every id, leaving the speed of the caller unchanged. -/
theorem all_disabled_is_empty (fuel : Nat) (cfg : MotionPrimitivesConfig) (trig : Trig)
    (m : LibM)
    (h : cfg.mMobility.mMultiplierForward = 0 ∧ cfg.mMobility.mMultiplierBackward = 0 ∧
      cfg.mMobility.mMultiplierLateral = 0 ∧ cfg.mMobility.mMultiplierForwardTurn = 0 ∧
      cfg.mMobility.mMultiplierBackwardTurn = 0 ∧ cfg.mMobility.mMultiplierPointTurn = 0) :
    ∃ g, createPrimitives fuel cfg trig m Generator.fresh = some g ∧
      g.mListPrimitives = [] ∧ g.mPrim_id2Speed = [] ∧
      ∀ (prim_id : Nat) (speed : ℚ), getSpeed g.mPrim_id2Speed prim_id speed = (false, speed) := by
  obtain ⟨h1, h2, h3, h4, h5, h6⟩ := h
  refine ⟨Generator.fresh, ?_, rfl, rfl, ?_⟩
  · simp [createPrimitives, Mobility.isSet, h1, h2, h3, h4, h5, h6]
  · intro prim_id speed
    simp [getSpeed, Generator.fresh]

theorem all_disabled_is_empty_witness :
    ∃ g, createPrimitives 10 cfgNone trig4 libmUnused Generator.fresh = some g ∧
      g.mListPrimitives = [] ∧ g.mPrim_id2Speed = [] ∧
      ∀ (prim_id : Nat) (speed : ℚ), getSpeed g.mPrim_id2Speed prim_id speed = (false, speed) :=
  all_disabled_is_empty 10 cfgNone trig4 libmUnused
    ⟨by decide, by decide, by decide, by decide, by decide, by decide⟩

theorem intermediatePose_libm (cfg : MotionPrimitivesConfig) (trig : Trig) (m1 m2 : LibM)
    (it : Primitive) (i : Nat) (previous : Vector3d) (h : isCurve it.mMovType = false) :
    intermediatePose cfg trig m1 it i previous = intermediatePose cfg trig m2 it i previous := by
  cases ht : it.mMovType <;> simp [intermediatePose, ht] <;> simp [ht, isCurve] at h

theorem posesLoop_libm (fuel : Nat) (cfg : MotionPrimitivesConfig) (trig : Trig)
    (m1 m2 : LibM) (it : Primitive) (h : isCurve it.mMovType = false) :
    ∀ (is : List Nat) (previous : Vector3d),
      posesLoop fuel cfg trig m1 it is previous = posesLoop fuel cfg trig m2 it is previous := by
  intro is
  induction is with
  | nil => intro previous; rfl
  | cons i rest ih =>
    intro previous
    simp only [posesLoop, intermediatePose_libm cfg trig m1 m2 it i previous h, ih]

theorem createIntermediatePoses_libm (fuel : Nat) (cfg : MotionPrimitivesConfig) (trig : Trig)
    (m1 m2 : LibM) : ∀ (prims : List Primitive) (previous : Vector3d),
      (∀ it ∈ prims, isCurve it.mMovType = false) →
      createIntermediatePoses fuel cfg trig m1 prims previous
        = createIntermediatePoses fuel cfg trig m2 prims previous := by
  intro prims
  induction prims with
  | nil => intro previous _; rfl
  | cons it rest ih =>
    intro previous h
    simp only [createIntermediatePoses,
      posesLoop_libm fuel cfg trig m1 m2 it (h it (List.mem_cons_self _ _))]
    split
    · rfl
    · rename_i poses last _
      rw [ih last (fun b hb => h b (List.mem_cons_of_mem _ hb))]

theorem createMPrims_cfgScenario :
    createMPrims 50 cfgScenario trig16 (createMPrimsForAngle0 cfgScenario).1
      = some primsScenario := by
  decide!

theorem createIntermediatePoses_cfgScenario :
    ∃ out ∈ createIntermediatePoses 50 cfgScenario trig16 libmUnused primsScenario
        Vector3d.zero,
      out.length = 16 ∧ out.map Primitive.mStartAngle = List.range 16 ∧
      (∀ q ∈ out, q.mMovType = .MOV_FORWARD ∧ q.mId = 0) ∧
      (∃ q ∈ out, q.mStartAngle = 0) ∧
      (∀ q ∈ out, q.mStartAngle = 0 → q.mEndPose = ⟨1, 0, 0⟩) := by
  decide!

theorem createPrimitives_eq (fuel : Nat) (cfg : MotionPrimitivesConfig) (trig : Trig)
    (m : LibM) (g : Generator) (prims out : List Primitive)
    (hset : cfg.mMobility.isSet = true)
    (h1 : createMPrims fuel cfg trig (createMPrimsForAngle0 cfg).1 = some prims)
    (h2 : createIntermediatePoses fuel cfg trig m prims Vector3d.zero = some out) :
    createPrimitives fuel cfg trig m g =
      some { mListPrimitivesAngle0 := (createMPrimsForAngle0 cfg).1
             mListPrimitives := out
             mPrim_id2Speed := (createMPrimsForAngle0 cfg).2 } := by
  simp only [createPrimitives, hset, Bool.not_true, Bool.false_eq_true, if_false, h1, h2]

theorem createMPrimsForAngle0_cfgScenario_speeds :
    (createMPrimsForAngle0 cfgScenario).2 = [1] := by
  decide!

theorem primsScenario_straight : ∀ it ∈ primsScenario, isCurve it.mMovType = false := by
  decide

theorem createPrimitives_cfgScenario (m : LibM) :
    ∃ g out, createPrimitives 50 cfgScenario trig16 m Generator.fresh = some g ∧
      g.mListPrimitives = out ∧ g.mPrim_id2Speed = [1] ∧
      out.length = 16 ∧ out.map Primitive.mStartAngle = List.range 16 ∧
      (∀ q ∈ out, q.mMovType = .MOV_FORWARD ∧ q.mId = 0) ∧
      (∃ q ∈ out, q.mStartAngle = 0) ∧
      (∀ q ∈ out, q.mStartAngle = 0 → q.mEndPose = ⟨1, 0, 0⟩) := by
  obtain ⟨out, hout, hprops⟩ := createIntermediatePoses_cfgScenario
  have hout2 : createIntermediatePoses 50 cfgScenario trig16 m primsScenario
      Vector3d.zero = some out := by
    rw [createIntermediatePoses_libm 50 cfgScenario trig16 m libmUnused primsScenario
      Vector3d.zero primsScenario_straight]
    exact Option.mem_def.1 hout
  exact ⟨_, out, createPrimitives_eq 50 cfgScenario trig16 m Generator.fresh primsScenario out
    (by decide) createMPrims_cfgScenario hout2, rfl, createMPrimsForAngle0_cfgScenario_speeds,
    hprops⟩

/-- C17: with 16 headings, grid size 0.1, forward multiplier 1, speed 1.0, all other
multipliers 0, partitionCount 1 and accuracy 0.1, `createPrimitives` returns exactly 16
primitives, one for each start heading 0..15 in this order, each of movement type FORWARD,
and `getSpeed` succeeds and returns 1.0 for the id of every one of them. -/
theorem scenario_sixteen_forward (m : LibM) :
    ∃ g, createPrimitives 50 cfgScenario trig16 m Generator.fresh = some g ∧
      g.mListPrimitives.length = 16 ∧
      g.mListPrimitives.map Primitive.mStartAngle = List.range 16 ∧
      ∀ p ∈ g.mListPrimitives, p.mMovType = .MOV_FORWARD ∧
        ∀ speed : ℚ, getSpeed g.mPrim_id2Speed p.mId speed = (true, 1) := by
  obtain ⟨g, out, hg, hlist, hspeed, hlen, hstart, hall, _, _⟩ :=
    createPrimitives_cfgScenario m
  refine ⟨g, hg, by rw [hlist]; exact hlen, by rw [hlist]; exact hstart, ?_⟩
  intro p hp
  rw [hlist] at hp
  obtain ⟨ht, hid⟩ := hall p hp
  refine ⟨ht, fun speed => ?_⟩
  rw [hid, hspeed]
  simp [getSpeed]

/-- C18 as stated fails: in the scenario the generated primitive with start heading 0 does
not have the end position (10, 0). -/
theorem scenario_end_pose_not_ten :
    ∃ g ∈ createPrimitives 50 cfgScenario trig16 libmUnused Generator.fresh,
      ∃ p ∈ g.mListPrimitives, p.mStartAngle = 0 ∧
        ¬ (p.mEndPose.x = 10 ∧ p.mEndPose.y = 0) := by
  decide!

/-- C18 amended: in the scenario (16 headings, grid size 0.1, forward only, partitionCount
1, accuracy 0.1) there is a generated primitive with start heading 0, and it has the
discrete end pose (dx, dy) = (1, 0), the unit step, and the truncated end heading 0. -/
theorem scenario_end_pose_heading_zero (m : LibM) :
    ∃ g, createPrimitives 50 cfgScenario trig16 m Generator.fresh = some g ∧
      (∃ p ∈ g.mListPrimitives, p.mStartAngle = 0) ∧
      ∀ p ∈ g.mListPrimitives, p.mStartAngle = 0 →
        p.mEndPose.x = 1 ∧ p.mEndPose.y = 0 ∧ p.mEndPose.z = 0 := by
  obtain ⟨g, out, hg, hlist, _, _, _, _, hex, hzero⟩ := createPrimitives_cfgScenario m
  refine ⟨g, hg, by rw [hlist]; exact hex, ?_⟩
  intro p hp h0
  rw [hlist] at hp
  rw [hzero p hp h0]
  exact ⟨rfl, rfl, rfl⟩

/-- C19: evaluation at two failing inputs with forward curves. With sixteen headings
(turning radius two cells, accuracy 0.3, one primitive per base primitive) `createMPrims`
returns, and at heading 8, which is its own mirror heading, the left-hand bend (id 0) has
the end pose (-2, -1) with end heading 11 while the right-hand bend (id 1) has the end pose
(-1, 0) with end heading 7: the mirrored pose (-1, 0) with end heading 9 is not accepted
for the left-hand bend. With six headings the right-hand bend at heading 5 accepts a
primitive with end pose (0, -1) and end heading 4, while no run of the acceptance loop of
the left-hand bend at the mirrored heading 1 accepts a primitive with the mirrored end
position (0, 1): its curve test turns the end position by `-angle` taken as an unsigned
value, which is half a turn here. -/
theorem mirror_symmetry_fails :
    (∃ L ∈ createMPrims 10 cfgTurn16 trig16Curves (createMPrimsForAngle0 cfgTurn16).1,
      (L.filter (fun p => p.mStartAngle = 8)).map (fun p => (p.mId, p.mEndPose)) =
        [(0, ⟨-2, -1, 11⟩), (1, ⟨-1, 0, 7⟩)]) ∧
    (∃ l ∈ searchPair 5 cfgTurn6 trig6 5 primForwardTurnRight,
      l.map Primitive.mEndPose = [⟨0, -1, 4⟩]) ∧
    ∀ (s : SearchState) (p : Primitive),
      Accepts (SearchEnv.enter cfgTurn6 trig6 1 primForwardTurnLeft) s p →
      ¬ (p.mEndPose.x = 0 ∧ p.mEndPose.y = 1) := by
  refine ⟨by decide!, by decide!, ?_⟩
  intro s p hacc hxy
  have hf := hacc.fields
  have hcurve := hacc.2.1
  have hx : ((cround (nextCandidate (SearchEnv.enter cfgTurn6 trig6 1 primForwardTurnLeft)
      s).1.x : Int) : ℚ) = 0 := by rw [← hf.2.2.2.2.1]; exact hxy.1
  have hy : ((cround (nextCandidate (SearchEnv.enter cfgTurn6 trig6 1 primForwardTurnLeft)
      s).1.y : Int) : ℚ) = 1 := by rw [← hf.2.2.2.2.2.1]; exact hxy.2
  have hr : roundedPose (nextCandidate (SearchEnv.enter cfgTurn6 trig6 1 primForwardTurnLeft)
      s).1 = ⟨0, 1, 0⟩ := by
    simp only [roundedPose, hx, hy]
  have hfail : (isCurve (SearchEnv.enter cfgTurn6 trig6 1 primForwardTurnLeft).it.mMovType &&
      !curveValid (SearchEnv.enter cfgTurn6 trig6 1 primForwardTurnLeft)
        (rotateBack (SearchEnv.enter cfgTurn6 trig6 1 primForwardTurnLeft) ⟨0, 1, 0⟩)) = true := by
    decide!
  rw [hr, hfail] at hcurve
  exact Bool.noConfusion hcurve

/-! ## Facts about the locals of the acceptance loop -/

theorem searchStep_locals (e : SearchEnv) (s s1 : SearchState)
    (h : searchStep e s = .again s1 ∨ searchStep e s = .stop s1) :
    s1.d = (nextCandidate e s).2.d ∧
    s1.current_discrete_angle = (nextCandidate e s).2.current_discrete_angle := by
  rcases searchStep_cases e s with hc | hc | ⟨p, _, hc⟩ <;> rw [hc] at h <;>
    rcases h with h | h <;> first
      | (rw [← StepResult.again.inj h]; exact ⟨rfl, rfl⟩)
      | (rw [← StepResult.stop.inj h]; exact ⟨rfl, rfl⟩)
      | exact StepResult.noConfusion h

theorem nextCandidate_curve (e : SearchEnv) (s : SearchState)
    (harc : isCurve e.it.mMovType = true) :
    (nextCandidate e s).1 =
      (rotateZ (e.trig ((s.current_discrete_angle : ℚ) * e.theta_tmp))
        (Vector3d.zero.sub (e.turned_center_of_rotation.scale (1 + s.d)))).add
          (e.turned_center_of_rotation.scale (1 + s.d)) ∧
    (nextCandidate e s).2.discrete_angle =
      toInt ((s.current_discrete_angle : ℚ) * e.theta_tmp + (e.angle : ℚ)) ∧
    (nextCandidate e s).2.scaled_center_of_rotation =
      e.turned_center_of_rotation.scale (1 + s.d) ∧
    (s.current_discrete_angle + 1 ≤ e.upper_discrete_angle →
      (nextCandidate e s).2.current_discrete_angle = s.current_discrete_angle + 1 ∧
      (nextCandidate e s).2.d = s.d) ∧
    (e.upper_discrete_angle < s.current_discrete_angle + 1 →
      (nextCandidate e s).2.current_discrete_angle = 1 ∧
      (nextCandidate e s).2.d = s.d + 1 / 10) := by
  have ht : e.it.mMovType = .MOV_FORWARD_TURN ∨ e.it.mMovType = .MOV_BACKWARD_TURN := by
    simpa [isCurve] using harc
  rcases ht with ht | ht <;>
  · simp only [nextCandidate, ht]
    split_ifs with hc
    · exact ⟨rfl, rfl, rfl, fun h => absurd hc (not_lt.2 h), fun _ => ⟨rfl, rfl⟩⟩
    · exact ⟨rfl, rfl, rfl, fun _ => ⟨rfl, rfl⟩, fun h => absurd h hc⟩

theorem Reachable.curve_locals {e : SearchEnv} {s : SearchState} (hs : Reachable e s)
    (harc : isCurve e.it.mMovType = true) :
    1 ≤ s.current_discrete_angle ∧ s.current_discrete_angle ≤ max 1 e.upper_discrete_angle ∧
    ∃ j : Nat, s.d = (j : ℚ) / 10 := by
  induction hs with
  | start => exact ⟨le_refl _, le_max_left _ _, 0, by simp [SearchState.start]⟩
  | @again s0 s1 hprev _ hstep ih =>
    obtain ⟨h1, h2, j, hj⟩ := ih
    obtain ⟨hd, hc⟩ := searchStep_locals e s0 s1 (Or.inl hstep)
    obtain ⟨_, _, _, hinc, hreset⟩ := nextCandidate_curve e s0 harc
    rcases le_or_lt (s0.current_discrete_angle + 1) e.upper_discrete_angle with hle | hlt
    · obtain ⟨c1, c2⟩ := hinc hle
      rw [hd, hc, c1, c2]
      exact ⟨by omega, le_trans hle (le_max_right _ _), j, hj⟩
    · obtain ⟨c1, c2⟩ := hreset hlt
      rw [hd, hc, c1, c2]
      refine ⟨le_refl _, le_max_left _ _, j + 1, ?_⟩
      rw [hj]
      push_cast
      ring

theorem nextCandidate_pointturn (e : SearchEnv) (s : SearchState)
    (ht : e.it.mMovType = .MOV_POINTTURN) :
    (nextCandidate e s).1 = Vector3d.zero ∧
    (nextCandidate e s).2.discrete_angle = toInt ((s.d + 1) * e.theta_tmp + (e.angle : ℚ)) ∧
    (nextCandidate e s).2.d = s.d + 1 := by
  simp [nextCandidate, ht]

theorem Reachable.pointturn_locals {e : SearchEnv} {s : SearchState} (hs : Reachable e s)
    (ht : e.it.mMovType = .MOV_POINTTURN) : ∃ j : Nat, s.d = (j : ℚ) := by
  induction hs with
  | start => exact ⟨0, by simp [SearchState.start]⟩
  | @again s0 s1 _ _ hstep ih =>
    obtain ⟨j, hj⟩ := ih
    refine ⟨j + 1, ?_⟩
    rw [(searchStep_locals e s0 s1 (Or.inl hstep)).1, (nextCandidate_pointturn e s0 ht).2.2, hj]
    push_cast
    rfl

theorem toInt_intCast (z : Int) : toInt (z : ℚ) = z := by
  unfold toInt
  split <;> simp

theorem createMPrimsForAngle0_pointturn (cfg : MotionPrimitivesConfig) :
    ∀ b ∈ (createMPrimsForAngle0 cfg).1, b.mMovType = .MOV_POINTTURN →
      b.mEndPose.z = 1 ∨ b.mEndPose.z = -1 := by
  obtain ⟨i1, i2, i3, i4, i5, i6, h⟩ := buildBase_list cfg
  intro b hb ht
  simp only [createMPrimsForAngle0, h, List.mem_append] at hb
  rcases hb with ((((hb | hb) | hb) | hb) | hb) | hb <;> split at hb <;>
    simp only [List.mem_cons, List.mem_singleton, List.not_mem_nil, or_false] at hb <;>
    first
      | exact absurd hb id
      | (rcases hb with rfl | rfl <;> simp [Primitive.init] at ht ⊢)

theorem Accepts.pointturn_offset {e : SearchEnv} {s : SearchState} {p : Primitive}
    (h : Accepts e s p) (hs : Reachable e s) (ht : e.it.mMovType = .MOV_POINTTURN)
    (hz : e.theta_tmp = 1 ∨ e.theta_tmp = -1) :
    ∃ k : Nat, 1 ≤ k ∧ ((k + 1 : Nat) : Int) ≤ e.upper_discrete_angle ∧
      ((e.theta_tmp = 1 ∧ p.mDiscreteEndOrientationNotTruncated = (e.angle : Int) + (k : Int)) ∨
       (e.theta_tmp = -1 ∧
        p.mDiscreteEndOrientationNotTruncated = (e.angle : Int) - (k : Int))) := by
  obtain ⟨j, hj⟩ := hs.pointturn_locals ht
  obtain ⟨_, c2, c3⟩ := nextCandidate_pointturn e s ht
  have hbound := h.2.2.1
  simp only [ht, decide_True, Bool.true_and, decide_eq_false_iff_not, not_lt, c3, hj] at hbound
  have hraw := h.fields.2.2.2.2.2.2.2
  rw [c2, hj] at hraw
  refine ⟨j + 1, by omega, ?_, ?_⟩
  · have : ((j : ℚ) + 1 + 1) ≤ ((e.upper_discrete_angle : Int) : ℚ) := hbound
    have h2 : (((j + 1 + 1 : Nat) : Int) : ℚ) ≤ ((e.upper_discrete_angle : Int) : ℚ) := by
      push_cast
      exact this
    exact_mod_cast h2
  · rcases hz with hz | hz
    · left
      refine ⟨hz, ?_⟩
      rw [hraw, hz]
      have : ((j : ℚ) + 1) * 1 + (e.angle : ℚ) =
          (((e.angle : Int) + ((j + 1 : Nat) : Int) : Int) : ℚ) := by
        push_cast; ring
      rw [this, toInt_intCast]
    · right
      refine ⟨hz, ?_⟩
      rw [hraw, hz]
      have : ((j : ℚ) + 1) * (-1) + (e.angle : ℚ) =
          (((e.angle : Int) - ((j + 1 : Nat) : Int) : Int) : ℚ) := by
        push_cast; ring
      rw [this, toInt_intCast]

theorem createMPrims_pointturn_offset (fuel : Nat) (cfg : MotionPrimitivesConfig) (trig : Trig)
    (L : List Primitive)
    (hL : createMPrims fuel cfg trig (createMPrimsForAngle0 cfg).1 = some L)
    (p : Primitive) (hp : p ∈ L) (ht : p.mMovType = .MOV_POINTTURN) :
    ∃ k : Nat, 1 ≤ k ∧ k + 1 ≤ cfg.mNumAngles / 4 ∧
      (p.mDiscreteEndOrientationNotTruncated = (p.mStartAngle : Int) + (k : Int) ∨
       p.mDiscreteEndOrientationNotTruncated = (p.mStartAngle : Int) - (k : Int)) := by
  obtain ⟨angle, _, it, hit, s, hreach, hacc⟩ := createMPrims_mem fuel cfg trig _ L hL p hp
  have hf := hacc.fields
  have hti : it.mMovType = .MOV_POINTTURN := by rw [← ht]; exact hf.2.2.1.symm
  obtain ⟨k, hk1, hk2, hk3⟩ := hacc.pointturn_offset hreach hti
    (createMPrimsForAngle0_pointturn cfg it hit hti)
  have ha : p.mStartAngle = angle := hf.2.1
  refine ⟨k, hk1, ?_, ?_⟩
  · have : ((k + 1 : Nat) : Int) ≤ ((cfg.mNumAngles / 4 : Nat) : Int) := hk2
    exact_mod_cast this
  · rw [ha]
    rcases hk3 with ⟨_, h⟩ | ⟨_, h⟩
    · exact Or.inl h
    · exact Or.inr h

theorem Accepts.curve {e : SearchEnv} {s : SearchState} {p : Primitive}
    (h : Accepts e s p) (harc : isCurve e.it.mMovType = true) :
    ((0 < e.it.mCenterOfRotation.y ∧
        0 < (rotateZ (e.trig ((negUnsigned e.angle : Nat) : ℚ))
          ⟨p.mEndPose.x, p.mEndPose.y, 0⟩).y) ∨
      (e.it.mCenterOfRotation.y < 0 ∧
        (rotateZ (e.trig ((negUnsigned e.angle : Nat) : ℚ))
          ⟨p.mEndPose.x, p.mEndPose.y, 0⟩).y < 0)) ∧
    ¬ (p.mEndPose.x = 0 ∧ p.mEndPose.y = 0) := by
  have hf := h.fields
  have hc := h.2.1
  rw [harc, Bool.true_and, Bool.not_eq_false'] at hc
  have hr : roundedPose (nextCandidate e s).1 = ⟨p.mEndPose.x, p.mEndPose.y, 0⟩ := by
    simp only [roundedPose, hf.2.2.2.2.1, hf.2.2.2.2.2.1]
  rw [hr] at hc
  simp only [curveValid, rotateBack, decide_eq_true_eq, gt_iff_lt] at hc
  refine ⟨hc, ?_⟩
  rintro ⟨hx, hy⟩
  rw [hx, hy] at hc
  simp [rotateZ] at hc

/-! ## Facts about the end of the acceptance loop -/

theorem searchLoop_mono (e : SearchEnv) : ∀ (fuel : Nat) (s r : SearchState),
    searchLoop e fuel s = some r → ∀ k, searchLoop e (fuel + k) s = some r := by
  intro fuel
  induction fuel with
  | zero => intro s r h; simp [searchLoop] at h
  | succ n ih =>
    intro s r h k
    rw [Nat.add_right_comm]
    simp only [searchLoop] at h ⊢
    split
    · rename_i hlt
      rw [if_pos hlt] at h
      split
      · rename_i s1 heq
        rw [heq] at h
        exact ih s1 r h k
      · rename_i s1 heq
        rw [heq] at h
        exact h
    · rename_i hlt
      rw [if_neg hlt] at h
      exact h

theorem Reachable.loop_from_start {e : SearchEnv} {s : SearchState} (hs : Reachable e s) :
    ∃ n : Nat, ∀ fuel, searchLoop e (n + fuel) SearchState.start = searchLoop e fuel s := by
  induction hs with
  | start => exact ⟨0, fun fuel => by rw [Nat.zero_add]⟩
  | @again s0 s1 _ hlt hstep ih =>
    obtain ⟨n, hn⟩ := ih
    refine ⟨n + 1, fun fuel => ?_⟩
    rw [Nat.add_assoc, hn (1 + fuel), Nat.add_comm 1 fuel]
    simp only [searchLoop, hlt, if_true, hstep]

theorem searchStep_stop_of_distance (e : SearchEnv) (s : SearchState)
    (hacc : ((roundedPose (nextCandidate e s).1).sub (nextCandidate e s).1).normExceeds
      e.cfg.mPrimAccuracy = false)
    (hcurve : (isCurve e.it.mMovType &&
      !curveValid e (rotateBack e (roundedPose (nextCandidate e s).1))) = false)
    (hfar : (nextCandidate e s).1.normExceeds 100 = true) :
    searchStep e s = .stop (nextCandidate e s).2 := by
  unfold searchStep
  simp only [hacc, hcurve, hfar, Bool.false_eq_true, if_false, if_true]
  split <;> rfl

theorem sqrt_normSq_le_of_normExceeds_eq_false {v : Vector3d} {bound : ℚ}
    (h : v.normExceeds bound = false) :
    Real.sqrt ((v.normSq : ℚ) : ℝ) ≤ (bound : ℝ) := by
  obtain ⟨h0, h1⟩ := normExceeds_eq_false h
  have hb : (0 : ℝ) ≤ (bound : ℝ) := by exact_mod_cast h0
  have hr : ((v.normSq : ℚ) : ℝ) ≤ (bound : ℝ) ^ 2 := by
    have : v.normSq ≤ bound ^ 2 := by rw [pow_two]; exact h1
    exact_mod_cast this
  calc Real.sqrt ((v.normSq : ℚ) : ℝ) ≤ Real.sqrt ((bound : ℝ) ^ 2) := Real.sqrt_le_sqrt hr
    _ = (bound : ℝ) := Real.sqrt_sq hb

theorem normExceeds_of_lt_sqrt {v : Vector3d} {bound : ℚ} (hb : 0 ≤ bound)
    (h : (bound : ℝ) < Real.sqrt ((v.normSq : ℚ) : ℝ)) : v.normExceeds bound = true := by
  have hb2 : (0 : ℝ) ≤ (bound : ℝ) := by exact_mod_cast hb
  have h2 : (bound : ℝ) ^ 2 < ((v.normSq : ℚ) : ℝ) := (Real.lt_sqrt hb2).1 h
  have h3 : bound * bound < v.normSq := by
    have : bound ^ 2 < v.normSq := by exact_mod_cast h2
    rw [pow_two] at this
    exact this
  simp only [Vector3d.normExceeds, decide_eq_true_eq]
  exact Or.inr h3

theorem searchPair_of_stop (cfg : MotionPrimitivesConfig) (trig : Trig) (angle : Nat)
    (it : Primitive) (s s1 : SearchState)
    (hs : Reachable (SearchEnv.enter cfg trig angle it) s)
    (hlt : s.prims_added < cfg.mNumPrimPartition)
    (hstop : searchStep (SearchEnv.enter cfg trig angle it) s = .stop s1) :
    ∃ fuel0 : Nat, ∀ fuel, fuel0 ≤ fuel →
      searchPair fuel cfg trig angle it = some s1.accepted := by
  obtain ⟨n, hn⟩ := hs.loop_from_start
  have h1 : searchLoop (SearchEnv.enter cfg trig angle it) 1 s = some s1 := by
    have hlt2 : s.prims_added < (SearchEnv.enter cfg trig angle it).cfg.mNumPrimPartition := hlt
    simp only [searchLoop, hlt2, if_true, hstop]
  refine ⟨n + 1, fun fuel hf => ?_⟩
  obtain ⟨k, rfl⟩ := Nat.exists_eq_add_of_le hf
  unfold searchPair
  rw [searchLoop_mono _ (n + 1) _ s1 (by rw [hn 1]; exact h1) k]
  rfl

theorem searchPair_unique (fuel1 fuel2 : Nat) (cfg : MotionPrimitivesConfig) (trig : Trig)
    (angle : Nat) (it : Primitive) (l1 l2 : List Primitive)
    (h1 : searchPair fuel1 cfg trig angle it = some l1)
    (h2 : searchPair fuel2 cfg trig angle it = some l2) : l1 = l2 := by
  unfold searchPair at h1 h2
  cases hr1 : searchLoop (SearchEnv.enter cfg trig angle it) fuel1 SearchState.start with
  | none => rw [hr1] at h1; simp at h1
  | some r1 =>
    cases hr2 : searchLoop (SearchEnv.enter cfg trig angle it) fuel2 SearchState.start with
    | none => rw [hr2] at h2; simp at h2
    | some r2 =>
      rw [hr1] at h1
      rw [hr2] at h2
      simp only [Option.map_some', Option.some.injEq] at h1 h2
      have e1 := searchLoop_mono _ fuel1 _ r1 hr1 fuel2
      have e2 := searchLoop_mono _ fuel2 _ r2 hr2 fuel1
      rw [Nat.add_comm] at e2
      rw [e1] at e2
      rw [← h1, ← h2, Option.some.inj e2]

/-! ## Claims on the sweep of the curves and on the bounds of the search -/

/-- C21: what the code does for a FORWARD_TURN or BACKWARD_TURN base primitive, for every
number N of headings. At every evaluation of the loop condition the offset
`current_discrete_angle` lies between 1 and max(1, N / 4), with the integer quotient N / 4
(not the ceiling of N divided by 4), and the scale factor is 1 + j/10 for a natural number
j. The next candidate is the origin turned about the center of rotation, which is scaled by
that factor, by the angle offset * turn direction * 2*pi/N, and its raw end heading is
start heading + offset * turn direction. After the run of the body the offset is one more
and the scale factor the same when the offset was below N / 4; otherwise the offset is 1
again and the scale factor is 0.1 more. -/
theorem arc_sweep_upper_bound (cfg : MotionPrimitivesConfig) (trig : Trig) (angle : Nat)
    (it : Primitive) (s : SearchState)
    (harc : isCurve it.mMovType = true)
    (hs : Reachable (SearchEnv.enter cfg trig angle it) s) :
    1 ≤ s.current_discrete_angle ∧
    s.current_discrete_angle ≤ max 1 ((cfg.mNumAngles / 4 : Nat) : Int) ∧
    (∃ j : Nat, s.d = (j : ℚ) / 10) ∧
    (nextCandidate (SearchEnv.enter cfg trig angle it) s).1 =
      (rotateZ (trig ((s.current_discrete_angle : ℚ) * it.mEndPose.z))
        (Vector3d.zero.sub ((rotateZ (trig angle) it.mCenterOfRotation).scale (1 + s.d)))).add
          ((rotateZ (trig angle) it.mCenterOfRotation).scale (1 + s.d)) ∧
    (nextCandidate (SearchEnv.enter cfg trig angle it) s).2.discrete_angle =
      toInt ((s.current_discrete_angle : ℚ) * it.mEndPose.z + (angle : ℚ)) ∧
    ∀ s1 : SearchState,
      (searchStep (SearchEnv.enter cfg trig angle it) s = .again s1 ∨
        searchStep (SearchEnv.enter cfg trig angle it) s = .stop s1) →
      (s.current_discrete_angle + 1 ≤ ((cfg.mNumAngles / 4 : Nat) : Int) →
        s1.current_discrete_angle = s.current_discrete_angle + 1 ∧ s1.d = s.d) ∧
      (((cfg.mNumAngles / 4 : Nat) : Int) < s.current_discrete_angle + 1 →
        s1.current_discrete_angle = 1 ∧ s1.d = s.d + 1 / 10) := by
  obtain ⟨h1, h2, hj⟩ := hs.curve_locals harc
  obtain ⟨c1, c2, _, hinc, hreset⟩ :=
    nextCandidate_curve (SearchEnv.enter cfg trig angle it) s harc
  refine ⟨h1, h2, hj, c1, c2, ?_⟩
  intro s1 hstep
  obtain ⟨hd, hc⟩ := searchStep_locals _ s s1 hstep
  rw [hd, hc]
  exact ⟨fun h => hinc h, fun h => hreset h⟩

theorem arc_sweep_upper_bound_witness :
    (∀ s : SearchState, Reachable (SearchEnv.enter cfgTurn6 trig6 1 primForwardTurnLeft) s →
      s.current_discrete_angle = 1) ∧
    ∀ s1 : SearchState,
      (searchStep (SearchEnv.enter cfgTurn6 trig6 1 primForwardTurnLeft) SearchState.start
          = .again s1 ∨
        searchStep (SearchEnv.enter cfgTurn6 trig6 1 primForwardTurnLeft) SearchState.start
          = .stop s1) →
      s1.current_discrete_angle = 1 ∧ s1.d = 1 / 10 := by
  refine ⟨fun s hs => ?_, fun s1 hstep => ?_⟩
  · obtain ⟨h1, h2, _⟩ :=
      arc_sweep_upper_bound cfgTurn6 trig6 1 primForwardTurnLeft s (by decide) hs
    have h3 : max (1 : Int) ((cfgTurn6.mNumAngles / 4 : Nat) : Int) = 1 := by decide
    rw [h3] at h2
    exact le_antisymm h2 h1
  · have h := ((arc_sweep_upper_bound cfgTurn6 trig6 1 primForwardTurnLeft SearchState.start
      (by decide) Reachable.start).2.2.2.2.2 s1 hstep).2 (by decide)
    refine ⟨h.1, ?_⟩
    rw [h.2]
    decide!

/-- C22: evaluation at the failing input (sixteen headings, point turns only, partitionCount
4 = ceil(16/4), accuracy 0.1), and the bound that holds of every configuration.
`createMPrims` returns 96 primitives, three for each heading and turn direction; at heading
0 they have the raw end headings 1, 2, 3 (ids 0, 1, 2) and -1, -2, -3 (ids 4, 5, 6): the
offset 4 is not accepted. In general every POINT_TURN primitive that `createMPrims`
generates from the base primitives of `createMPrimsForAngle0` has the raw end heading
start heading + k or start heading - k for an offset k with 1 <= k and k + 1 <= N / 4
(integer quotient): the test of the bound reads `d + 1` after `d` was incremented. -/
theorem pointturn_offset_below_quarter :
    (∃ L ∈ createMPrims 5 cfgPointTurn16 trig16 (createMPrimsForAngle0 cfgPointTurn16).1,
      L.length = 96 ∧
      (L.filter (fun p => p.mStartAngle = 0)).map
          (fun p => (p.mId, p.mDiscreteEndOrientationNotTruncated)) =
        [(0, 1), (1, 2), (2, 3), (4, -1), (5, -2), (6, -3)]) ∧
    ∀ (fuel : Nat) (cfg : MotionPrimitivesConfig) (trig : Trig) (L : List Primitive),
      createMPrims fuel cfg trig (createMPrimsForAngle0 cfg).1 = some L →
      ∀ p ∈ L, p.mMovType = .MOV_POINTTURN →
        ∃ k : Nat, 1 ≤ k ∧ k + 1 ≤ cfg.mNumAngles / 4 ∧
          (p.mDiscreteEndOrientationNotTruncated = (p.mStartAngle : Int) + (k : Int) ∨
           p.mDiscreteEndOrientationNotTruncated = (p.mStartAngle : Int) - (k : Int)) :=
  ⟨by decide!, fun fuel cfg trig L hL p hp ht =>
    createMPrims_pointturn_offset fuel cfg trig L hL p hp ht⟩

/-- C23: every primitive in the list produced by `createMPrims` was pushed by a run of the
loop body whose unrounded candidate end position has a Euclidean norm of at most 100 grid
cells; and when at an evaluation of the loop condition with fewer than partitionCount
accepted primitives the next candidate passes the accuracy gate and the curve gate and its
norm exceeds 100, this run of the body ends the loop: the search for the pair returns
(for every sufficient fuel) exactly the primitives that were accepted before. -/
theorem accepted_within_distance (fuel : Nat) (cfg : MotionPrimitivesConfig) (trig : Trig)
    (prims : List Primitive) (L : List Primitive)
    (h : createMPrims fuel cfg trig prims = some L) :
    (∀ p ∈ L, ∃ angle, angle < cfg.mNumAngles ∧ ∃ it ∈ prims, ∃ s : SearchState,
      Reachable (SearchEnv.enter cfg trig angle it) s ∧
      Accepts (SearchEnv.enter cfg trig angle it) s p ∧
      p.mEndPose.x = (cround (nextCandidate (SearchEnv.enter cfg trig angle it) s).1.x : ℚ) ∧
      p.mEndPose.y = (cround (nextCandidate (SearchEnv.enter cfg trig angle it) s).1.y : ℚ) ∧
      Real.sqrt (((nextCandidate (SearchEnv.enter cfg trig angle it) s).1.normSq : ℚ) : ℝ)
        ≤ 100) ∧
    ∀ (angle : Nat) (it : Primitive) (s : SearchState),
      Reachable (SearchEnv.enter cfg trig angle it) s →
      s.prims_added < cfg.mNumPrimPartition →
      ((roundedPose (nextCandidate (SearchEnv.enter cfg trig angle it) s).1).sub
        (nextCandidate (SearchEnv.enter cfg trig angle it) s).1).normExceeds
          cfg.mPrimAccuracy = false →
      (isCurve it.mMovType && !curveValid (SearchEnv.enter cfg trig angle it)
        (rotateBack (SearchEnv.enter cfg trig angle it)
          (roundedPose (nextCandidate (SearchEnv.enter cfg trig angle it) s).1))) = false →
      (100 : ℝ) <
        Real.sqrt (((nextCandidate (SearchEnv.enter cfg trig angle it) s).1.normSq : ℚ) : ℝ) →
      searchStep (SearchEnv.enter cfg trig angle it) s =
        .stop (nextCandidate (SearchEnv.enter cfg trig angle it) s).2 ∧
      (∃ fuel0 : Nat, ∀ fuel2, fuel0 ≤ fuel2 →
        searchPair fuel2 cfg trig angle it = some s.accepted) ∧
      ∀ (fuel2 : Nat) (l : List Primitive),
        searchPair fuel2 cfg trig angle it = some l → l = s.accepted := by
  refine ⟨?_, ?_⟩
  · intro p hp
    obtain ⟨angle, hangle, it, hit, s, hreach, hacc⟩ :=
      createMPrims_mem fuel cfg trig prims L h p hp
    have hf := hacc.fields
    refine ⟨angle, hangle, it, hit, s, hreach, hacc, hf.2.2.2.2.1, hf.2.2.2.2.2.1, ?_⟩
    have := sqrt_normSq_le_of_normExceeds_eq_false hacc.2.2.2.1
    exact_mod_cast this
  · intro angle it s hreach hlt hacc hcurve hfar
    have hfar2 : (nextCandidate (SearchEnv.enter cfg trig angle it) s).1.normExceeds 100
        = true := normExceeds_of_lt_sqrt (by norm_num) (by exact_mod_cast hfar)
    have hstop := searchStep_stop_of_distance (SearchEnv.enter cfg trig angle it) s hacc
      hcurve hfar2
    obtain ⟨fuel0, hfuel⟩ := searchPair_of_stop cfg trig angle it s _ hreach hlt hstop
    rw [(nextCandidate_keeps _ s).1] at hfuel
    refine ⟨hstop, ⟨fuel0, hfuel⟩, ?_⟩
    intro fuel2 l hl
    exact searchPair_unique fuel2 fuel0 cfg trig angle it l _ hl (hfuel fuel0 (le_refl _))

theorem createMPrims_cfgWideTurn4 :
    createMPrims 5 cfgWideTurn4 trig4 (createMPrimsForAngle0 cfgWideTurn4).1
      = some primsForward4 := by
  decide!

theorem accepted_within_distance_witness :
    createMPrims 5 cfgWideTurn4 trig4 (createMPrimsForAngle0 cfgWideTurn4).1
      = some primsForward4 ∧
    (∀ p ∈ primsForward4, ∃ angle, angle < cfgWideTurn4.mNumAngles ∧
      ∃ it ∈ (createMPrimsForAngle0 cfgWideTurn4).1, ∃ s : SearchState,
      Reachable (SearchEnv.enter cfgWideTurn4 trig4 angle it) s ∧
      Accepts (SearchEnv.enter cfgWideTurn4 trig4 angle it) s p ∧
      p.mEndPose.x
        = (cround (nextCandidate (SearchEnv.enter cfgWideTurn4 trig4 angle it) s).1.x : ℚ) ∧
      p.mEndPose.y
        = (cround (nextCandidate (SearchEnv.enter cfgWideTurn4 trig4 angle it) s).1.y : ℚ) ∧
      Real.sqrt
        (((nextCandidate (SearchEnv.enter cfgWideTurn4 trig4 angle it) s).1.normSq : ℚ) : ℝ)
        ≤ 100) ∧
    primWideTurnLeft ∈ (createMPrimsForAngle0 cfgWideTurn4).1 ∧
    (nextCandidate (SearchEnv.enter cfgWideTurn4 trig4 0 primWideTurnLeft)
      SearchState.start).1 = ⟨1000, 1000, 0⟩ ∧
    searchStep (SearchEnv.enter cfgWideTurn4 trig4 0 primWideTurnLeft) SearchState.start =
      .stop (nextCandidate (SearchEnv.enter cfgWideTurn4 trig4 0 primWideTurnLeft)
        SearchState.start).2 ∧
    ∀ (fuel2 : Nat) (l : List Primitive),
      searchPair fuel2 cfgWideTurn4 trig4 0 primWideTurnLeft = some l → l = [] := by
  have T := accepted_within_distance 5 cfgWideTurn4 trig4 _ primsForward4
    createMPrims_cfgWideTurn4
  have hv : (nextCandidate (SearchEnv.enter cfgWideTurn4 trig4 0 primWideTurnLeft)
      SearchState.start).1.normSq = 2000000 := by decide!
  have hfar : (100 : ℝ) < Real.sqrt (((nextCandidate (SearchEnv.enter cfgWideTurn4 trig4 0
      primWideTurnLeft) SearchState.start).1.normSq : ℚ) : ℝ) := by
    rw [hv, Real.lt_sqrt (by norm_num)]
    norm_num
  have T2 := T.2 0 primWideTurnLeft SearchState.start Reachable.start (by decide) (by decide!)
    (by decide!) hfar
  exact ⟨createMPrims_cfgWideTurn4, T.1, by decide!, by decide!, T2.1, T2.2.2⟩

/-- C24: evaluation at two failing inputs, and what the curve test of the code guarantees.
With fifteen headings (turning radius two cells, accuracy 0.4) `createMPrims` returns, and
at heading 4 the left-hand bend (id 0), whose center of rotation has a positive y, has the
end position (0, 1) with end heading 5; this end position turned back by -4 * 2*pi/15 has
a negative y. With sixteen headings (`cfgTurn16`) the right-hand bend (id 1), whose center
of rotation has a negative y, has at heading 8 the end position (-1, 0), which turned back
by half a turn has y = 0, and a positive y with the values of `cos` and `sin` at -pi in
double precision. What holds of every accepted curve is: its end position turned by the
angle the code reads, `-angle` as an unsigned 32 bit value times 2*pi/N, has a non-zero y
with the sign of the y of the center of rotation, and its end position is not (0,0). -/
theorem curve_test_turns_back_unsigned :
    ((∃ L ∈ createMPrims 15 cfgTurn15 trig15 (createMPrimsForAngle0 cfgTurn15).1,
        (L.filter (fun p => p.mStartAngle = 4 ∧ p.mId = 0)).map
          (fun p => (p.mMovType, p.mEndPose)) = [(.MOV_FORWARD_TURN, ⟨0, 1, 5⟩)]) ∧
      (∃ b ∈ (createMPrimsForAngle0 cfgTurn15).1, b.mId = 0 ∧ 0 < b.mCenterOfRotation.y) ∧
      (rotateZ (trig15 (-4)) ⟨0, 1, 0⟩).y < 0) ∧
    ((∃ L ∈ createMPrims 10 cfgTurn16 trig16Curves (createMPrimsForAngle0 cfgTurn16).1,
        (L.filter (fun p => p.mStartAngle = 8 ∧ p.mId = 1)).map
          (fun p => (p.mMovType, p.mEndPose)) = [(.MOV_FORWARD_TURN, ⟨-1, 0, 7⟩)]) ∧
      (∃ b ∈ (createMPrimsForAngle0 cfgTurn16).1, b.mId = 1 ∧ b.mCenterOfRotation.y < 0) ∧
      (rotateZ (-1, 0) ⟨-1, 0, 0⟩).y = 0 ∧
      0 < (rotateZ (-1, -4967757600021511 / 40564819207303340847894502572032)
        ⟨-1, 0, 0⟩).y) ∧
    ∀ (cfg : MotionPrimitivesConfig) (trig : Trig) (angle : Nat) (it : Primitive)
      (s : SearchState) (p : Primitive), isCurve it.mMovType = true →
      Accepts (SearchEnv.enter cfg trig angle it) s p →
      ((0 < it.mCenterOfRotation.y ∧
          0 < (rotateZ (trig ((negUnsigned angle : Nat) : ℚ))
            ⟨p.mEndPose.x, p.mEndPose.y, 0⟩).y) ∨
        (it.mCenterOfRotation.y < 0 ∧
          (rotateZ (trig ((negUnsigned angle : Nat) : ℚ))
            ⟨p.mEndPose.x, p.mEndPose.y, 0⟩).y < 0)) ∧
      ¬ (p.mEndPose.x = 0 ∧ p.mEndPose.y = 0) :=
  ⟨by decide!, by decide!, fun _ _ _ _ _ _ harc hacc => hacc.curve harc⟩

/-! ## Claims on the poses of point turns and on the speed of generated ids -/

theorem intermediatePose_pointturn (cfg : MotionPrimitivesConfig) (trig : Trig) (m : LibM)
    (p : Primitive) (i : Nat) (previous : Vector3d) (ht : p.mMovType = .MOV_POINTTURN) :
    (intermediatePose cfg trig m p i previous).x = p.mEndPose.x * cfg.mGridSize ∧
    (intermediatePose cfg trig m p i previous).y = p.mEndPose.y * cfg.mGridSize ∧
    (intermediatePose cfg trig m p i previous).z =
      (p.mStartAngle : ℚ) * mRadPerDiscreteAngle cfg +
        (i : ℚ) * ((p.mDiscreteEndOrientationNotTruncated - (p.mStartAngle : Int) : Int) : ℚ) *
          mRadPerDiscreteAngle cfg / ((cfg.mNumPosesPerPrim : ℚ) - 1) := by
  simp only [intermediatePose, ht, endPoseLocal, startOrientation, discreteRotDiff, poseSteps,
    Primitive.getDiscreteEndOrientationNotTruncated]
  refine ⟨trivial, trivial, ?_⟩
  ring

/-- C25: for the primitives that `createMPrims` generates from the base primitives of
`createMPrimsForAngle0`, with numPosesPerPrim = n >= 2, `createIntermediatePoses` returns,
and every POINT_TURN primitive with start heading h and raw end heading e gets n poses; the
pose of every index i < n has the position (0,0) and a heading in (-pi, pi] that differs by
an integer multiple of 2*pi from h*step + i*(e - h)*step/(n - 1), step = 2*pi/N; the raw
difference e - h is k or -k for an offset k with 1 <= k and k + 1 <= N / 4, so it is the
turn of the primitive and no wrapped value; the heading of the last pose is e*step up to a
multiple of 2*pi. -/
theorem pointturn_poses (fuel : Nat) (cfg : MotionPrimitivesConfig) (trig : Trig)
    (m : LibM) (L : List Primitive) (previous : Vector3d)
    (hn : 2 ≤ cfg.mNumPosesPerPrim)
    (hL : createMPrims fuel cfg trig (createMPrimsForAngle0 cfg).1 = some L) :
    (∃ fuel0 : Nat, ∀ fuel2, fuel0 ≤ fuel2 →
      (createIntermediatePoses fuel2 cfg trig m L previous).isSome = true) ∧
    ∀ (fuel2 : Nat) (out : List Primitive),
      createIntermediatePoses fuel2 cfg trig m L previous = some out →
      List.Forall₂ (fun p q => p.mMovType = .MOV_POINTTURN →
        q.mIntermediatePoses.length = cfg.mNumPosesPerPrim ∧
        (∃ k : Nat, 1 ≤ k ∧ k + 1 ≤ cfg.mNumAngles / 4 ∧
          (p.mDiscreteEndOrientationNotTruncated = (p.mStartAngle : Int) + (k : Int) ∨
           p.mDiscreteEndOrientationNotTruncated = (p.mStartAngle : Int) - (k : Int))) ∧
        (∀ i, i < cfg.mNumPosesPerPrim → ∃ pose : Vector3d,
          q.mIntermediatePoses[i]? = some pose ∧ pose.x = 0 ∧ pose.y = 0 ∧
          -M_PI < pose.z ∧ pose.z ≤ M_PI ∧
          ∃ k : ℤ, pose.z = (p.mStartAngle : ℚ) * mRadPerDiscreteAngle cfg +
            (i : ℚ) *
              ((p.mDiscreteEndOrientationNotTruncated - (p.mStartAngle : Int) : Int) : ℚ)
              * mRadPerDiscreteAngle cfg / ((cfg.mNumPosesPerPrim : ℚ) - 1)
            + (k : ℚ) * (2 * M_PI)) ∧
        ∃ pose : Vector3d, q.mIntermediatePoses.getLast? = some pose ∧
          ∃ k : ℤ, pose.z =
            (p.mDiscreteEndOrientationNotTruncated : ℚ) * mRadPerDiscreteAngle cfg
            + (k : ℚ) * (2 * M_PI)) L out := by
  refine ⟨?_, ?_⟩
  · obtain ⟨fuel0, out, h⟩ := createIntermediatePoses_ends cfg trig m L previous
    exact ⟨fuel0, fun fuel2 hf => by rw [h fuel2 hf]; rfl⟩
  · intro fuel2 out hout
    refine forall₂_imp_of_mem
      (createIntermediatePoses_spec fuel2 cfg trig m L previous out hout) ?_
    intro p hp q hq ht
    obtain ⟨_, _, _, hpt, hposes, _⟩ := createMPrims_generated fuel cfg trig L hL p hp
    obtain ⟨hx0, hy0⟩ := hpt ht
    obtain ⟨poses, rfl, hall⟩ := hq
    obtain ⟨hlen, hget⟩ := forall₂_range_getElem? hall
    simp only [hposes, List.nil_append]
    have hpose : ∀ i, i < cfg.mNumPosesPerPrim → ∃ pose : Vector3d,
        poses[i]? = some pose ∧ pose.x = 0 ∧ pose.y = 0 ∧
        -M_PI < pose.z ∧ pose.z ≤ M_PI ∧
        ∃ k : ℤ, pose.z = (p.mStartAngle : ℚ) * mRadPerDiscreteAngle cfg +
          (i : ℚ) * ((p.mDiscreteEndOrientationNotTruncated - (p.mStartAngle : Int) : Int) : ℚ)
            * mRadPerDiscreteAngle cfg / ((cfg.mNumPosesPerPrim : ℚ) - 1)
          + (k : ℚ) * (2 * M_PI) := by
      intro i hi
      obtain ⟨pose, hpose, prev0, theta, htheta, rfl⟩ := hget i hi
      obtain ⟨hx, hy, hz⟩ := intermediatePose_pointturn cfg trig m p i prev0 ht
      obtain ⟨h1, h2, k, hk⟩ := truncateOrientation_spec _ _ _ htheta
      refine ⟨_, hpose, ?_, ?_, h1, h2, k, ?_⟩
      · show (intermediatePose cfg trig m p i prev0).x = 0
        rw [hx, hx0, zero_mul]
      · show (intermediatePose cfg trig m p i prev0).y = 0
        rw [hy, hy0, zero_mul]
      · show theta = _
        rw [hk, hz]
    refine ⟨hlen, createMPrims_pointturn_offset fuel cfg trig L hL p hp ht, hpose, ?_⟩
    obtain ⟨pose, hpose1, _, _, _, _, k, hk⟩ := hpose (cfg.mNumPosesPerPrim - 1) (by omega)
    refine ⟨pose, ?_, k, ?_⟩
    · rw [List.getLast?_eq_getElem?, hlen]
      exact hpose1
    · rw [hk]
      have hne : (cfg.mNumPosesPerPrim : ℚ) - 1 ≠ 0 := by
        have : (2 : ℚ) ≤ (cfg.mNumPosesPerPrim : ℚ) := by exact_mod_cast hn
        linarith
      have hcast : ((cfg.mNumPosesPerPrim - 1 : Nat) : ℚ) = (cfg.mNumPosesPerPrim : ℚ) - 1 := by
        rw [Nat.cast_sub (by omega)]
        simp
      rw [hcast]
      push_cast
      field_simp
      ring

theorem createMPrims_cfgPointTurn16 :
    ∃ L ∈ createMPrims 5 cfgPointTurn16 trig16 (createMPrimsForAngle0 cfgPointTurn16).1,
      ∃ p ∈ L, p.mMovType = .MOV_POINTTURN := by
  decide!

theorem pointturn_poses_witness :
    ∃ L, createMPrims 5 cfgPointTurn16 trig16 (createMPrimsForAngle0 cfgPointTurn16).1
        = some L ∧
      (∃ p ∈ L, p.mMovType = .MOV_POINTTURN) ∧
      (∃ fuel0 : Nat, ∀ fuel2, fuel0 ≤ fuel2 →
        (createIntermediatePoses fuel2 cfgPointTurn16 trig16 libmUnused L
          Vector3d.zero).isSome = true) ∧
      ∀ (fuel2 : Nat) (out : List Primitive),
        createIntermediatePoses fuel2 cfgPointTurn16 trig16 libmUnused L Vector3d.zero
          = some out →
        List.Forall₂ (fun p q => p.mMovType = .MOV_POINTTURN →
          q.mIntermediatePoses.length = cfgPointTurn16.mNumPosesPerPrim ∧
          (∃ k : Nat, 1 ≤ k ∧ k + 1 ≤ cfgPointTurn16.mNumAngles / 4 ∧
            (p.mDiscreteEndOrientationNotTruncated = (p.mStartAngle : Int) + (k : Int) ∨
             p.mDiscreteEndOrientationNotTruncated = (p.mStartAngle : Int) - (k : Int))) ∧
          (∀ i, i < cfgPointTurn16.mNumPosesPerPrim → ∃ pose : Vector3d,
            q.mIntermediatePoses[i]? = some pose ∧ pose.x = 0 ∧ pose.y = 0 ∧
            -M_PI < pose.z ∧ pose.z ≤ M_PI ∧
            ∃ k : ℤ, pose.z = (p.mStartAngle : ℚ) * mRadPerDiscreteAngle cfgPointTurn16 +
              (i : ℚ) *
                ((p.mDiscreteEndOrientationNotTruncated - (p.mStartAngle : Int) : Int) : ℚ)
                * mRadPerDiscreteAngle cfgPointTurn16 /
                  ((cfgPointTurn16.mNumPosesPerPrim : ℚ) - 1)
              + (k : ℚ) * (2 * M_PI)) ∧
          ∃ pose : Vector3d, q.mIntermediatePoses.getLast? = some pose ∧
            ∃ k : ℤ, pose.z =
              (p.mDiscreteEndOrientationNotTruncated : ℚ) * mRadPerDiscreteAngle cfgPointTurn16
              + (k : ℚ) * (2 * M_PI)) L out := by
  obtain ⟨L, hL, hex⟩ := createMPrims_cfgPointTurn16
  exact ⟨L, Option.mem_def.1 hL, hex,
    pointturn_poses 5 cfgPointTurn16 trig16 libmUnused L Vector3d.zero (by decide)
      (Option.mem_def.1 hL)⟩

theorem forall₂_exists_of_mem_right {α β : Type} {R : α → β → Prop} :
    ∀ {l1 : List α} {l2 : List β}, List.Forall₂ R l1 l2 → ∀ b ∈ l2, ∃ a ∈ l1, R a b := by
  intro l1 l2 h
  induction h with
  | nil => intro b hb; simp at hb
  | cons hab _ ih =>
    intro b hb
    rcases List.mem_cons.1 hb with rfl | hb
    · exact ⟨_, List.mem_cons_self _ _, hab⟩
    · obtain ⟨a, ha, hr⟩ := ih b hb
      exact ⟨a, List.mem_cons_of_mem _ ha, hr⟩

theorem createMPrims_mem_id (fuel : Nat) (cfg : MotionPrimitivesConfig) (trig : Trig)
    (prims : List Primitive) (L : List Primitive)
    (h : createMPrims fuel cfg trig prims = some L) (p : Primitive) (hp : p ∈ L) :
    ∃ it ∈ prims, ∃ k : Nat, k < cfg.mNumPrimPartition ∧
      p.mId = it.mId * cfg.mNumPrimPartition + k ∧ p.mMovType = it.mMovType := by
  obtain ⟨angle, _, la, hla, hpa⟩ := collect_mem _ _ L h p hp
  obtain ⟨it, hit, l, hl, hpl⟩ := collect_mem _ _ la hla p hpa
  obtain ⟨k, hk⟩ := List.getElem?_of_mem hpl
  obtain ⟨hlt, hid, _⟩ := searchPair_getElem? fuel cfg trig angle it l hl k p hk
  obtain ⟨r, ok, rfl⟩ := searchPair_ok fuel cfg trig angle it l hl
  obtain ⟨s0, _, _, hacc⟩ := ok.pushed k p hk
  exact ⟨it, hit, k, hlt, hid, hacc.fields.2.2.1⟩

theorem speed_of_base (cfg : MotionPrimitivesConfig) (it : Primitive)
    (hit : it ∈ (createMPrimsForAngle0 cfg).1) (k : Nat) (hk : k < cfg.mNumPrimPartition) :
    (createMPrimsForAngle0 cfg).2[it.mId * cfg.mNumPrimPartition + k]? =
      some (if it.mMovType = .MOV_BACKWARD ∨ it.mMovType = .MOV_BACKWARD_TURN
        then -cfg.mMobility.mSpeed else cfg.mMobility.mSpeed) := by
  have ok := buildBase_ok cfg
  obtain ⟨i, hi⟩ := List.getElem?_of_mem hit
  simp only [createMPrimsForAngle0] at hi ⊢
  have hid := ok.ids i it hi
  have hlen : i < (buildBase cfg).mListPrimitivesAngle0.length := by
    by_contra hge
    rw [List.getElem?_eq_none (by omega)] at hi
    simp at hi
  have hlen2 : i < (buildBase cfg).mPrim_id2Speed.length := by
    rw [ok.len_speeds, ← ok.len_prims]; exact hlen
  have hrel := (List.forall₂_iff_get.1 ok.speeds).2 i hlen hlen2
  have hb : (buildBase cfg).mListPrimitivesAngle0.get ⟨i, hlen⟩ = it := by
    have := List.getElem?_eq_getElem hlen
    rw [hi] at this
    exact (Option.some.inj this).symm
  rw [hb] at hrel
  rw [hid, repeatSpeeds_getElem? _ _ _ _ hk, List.getElem?_eq_getElem hlen2]
  congr 1
  rcases hrel with ⟨ht, hv⟩ | ⟨ht, hv⟩
  · have hno : ¬ (it.mMovType = .MOV_BACKWARD ∨ it.mMovType = .MOV_BACKWARD_TURN) := by
      rcases ht with ht | ht | ht | ht <;> rw [ht] <;> decide
    rw [if_neg hno]
    exact hv
  · rw [if_pos ht]
    exact hv

theorem getSpeed_of_getElem? (table : List ℚ) (prim_id : Nat) (v speed : ℚ)
    (h : table[prim_id]? = some v) : getSpeed table prim_id speed = (true, v) := by
  have hlt : prim_id < table.length := by
    by_contra hge
    rw [List.getElem?_eq_none (by omega)] at h
    simp at h
  have hnot : ¬ prim_id ≥ table.length := by omega
  unfold getSpeed
  rw [dif_neg hnot]
  rw [List.getElem?_eq_getElem hlt] at h
  simp only [List.get_eq_getElem]
  rw [Option.some.inj h]

/-- C26: for every primitive p that `createPrimitives` leaves in the primitive list of a
freshly constructed generator (for every partitionCount; with partitionCount 0 there is no
such primitive), the id of p is an index of the speed table, so `getSpeed` takes the
success branch, and the returned speed is minus the nominal speed when the movement type of
p is BACKWARD or BACKWARD_TURN and the nominal speed otherwise. -/
theorem generated_ids_have_speed (fuel : Nat) (cfg : MotionPrimitivesConfig) (trig : Trig)
    (m : LibM) (g : Generator)
    (hg : createPrimitives fuel cfg trig m Generator.fresh = some g) :
    ∀ p ∈ g.mListPrimitives, p.mId < g.mPrim_id2Speed.length ∧
      ∀ speed : ℚ, getSpeed g.mPrim_id2Speed p.mId speed =
        (true, if p.mMovType = .MOV_BACKWARD ∨ p.mMovType = .MOV_BACKWARD_TURN
          then -cfg.mMobility.mSpeed else cfg.mMobility.mSpeed) := by
  intro q hq
  unfold createPrimitives at hg
  split at hg
  · rw [← Option.some.inj hg] at hq
    simp [Generator.fresh] at hq
  · split at hg
    · simp at hg
    · rename_i prims hprims
      split at hg
      · simp at hg
      · rename_i out hout
        have hg2 := Option.some.inj hg
        rw [← hg2] at hq ⊢
        simp only at hq ⊢
        obtain ⟨p, hp, poses, rfl, _⟩ := forall₂_exists_of_mem_right
          (createIntermediatePoses_spec fuel cfg trig m prims _ out hout) q hq
        obtain ⟨it, hit, k, hk, hid, ht⟩ :=
          createMPrims_mem_id fuel cfg trig _ prims hprims p hp
        have hsp := speed_of_base cfg it hit k hk
        simp only [hid, ht]
        refine ⟨?_, fun speed => getSpeed_of_getElem? _ _ _ speed hsp⟩
        by_contra hge
        rw [List.getElem?_eq_none (by omega)] at hsp
        simp at hsp

theorem createPrimitives_cfgBothWays4 :
    ∃ g ∈ createPrimitives 10 cfgBothWays4 trig4 libmUnused Generator.fresh,
      g.mListPrimitives.length = 8 ∧
      (∃ p ∈ g.mListPrimitives, p.mMovType = .MOV_BACKWARD) ∧
      ∃ p ∈ g.mListPrimitives, p.mMovType = .MOV_FORWARD := by
  decide!

theorem generated_ids_have_speed_witness :
    ∃ g, createPrimitives 10 cfgBothWays4 trig4 libmUnused Generator.fresh = some g ∧
      g.mListPrimitives.length = 8 ∧
      (∃ p ∈ g.mListPrimitives, p.mMovType = .MOV_BACKWARD) ∧
      (∃ p ∈ g.mListPrimitives, p.mMovType = .MOV_FORWARD) ∧
      ∀ p ∈ g.mListPrimitives, p.mId < g.mPrim_id2Speed.length ∧
        ∀ speed : ℚ, getSpeed g.mPrim_id2Speed p.mId speed =
          (true, if p.mMovType = .MOV_BACKWARD ∨ p.mMovType = .MOV_BACKWARD_TURN
            then -cfgBothWays4.mMobility.mSpeed else cfgBothWays4.mMobility.mSpeed) := by
  obtain ⟨g, hg, hlen, hback, hfwd⟩ := createPrimitives_cfgBothWays4
  exact ⟨g, Option.mem_def.1 hg, hlen, hback, hfwd,
    generated_ids_have_speed 10 cfgBothWays4 trig4 libmUnused g (Option.mem_def.1 hg)⟩

end motion_planning_libraries
